import Mathlib

/-!
# Booking user service: a shallow embedding

The user use case (`usecase/user`), its validation and the two repository
backends (`infrastructure/database`) of the booking service, embedded as
Lean functions, with the properties of the specification proved about them.

Conventions
* a Go `string` is a `String`; Go's `len(s)` is the number of bytes, `goLen`;
* a Go `int` is an `Int`, a Go `uint` a `Nat`;
* a Go `error` is an `Option GoError`, `none` being `nil`;
* a pointer result `(*entity.User, error)` is a pair of options;
* a method that receives `user *entity.User` returns the record it leaves
  behind that pointer;
* interface calls are recorded, in order, in a list of `Call`s.
-/

namespace Booking

/-! ## Errors -/

/-- The Go error values the service handles: `errors.New` values (compared by
message), the sentinel errors of the drivers, and wrapped errors. -/
inductive GoError where
  | new (msg : String)
  | gormErrRecordNotFound
  | mongoErrNoDocuments
  | bcryptErrMismatchedHashAndPassword
  | wrap (msg : String) (inner : GoError)
  deriving DecidableEq, Repr

/-- `errors.Is(err, target)`: `err` is `target` or wraps it. -/
def errorsIs : GoError → GoError → Bool
  | .wrap msg inner, target =>
      decide (GoError.wrap msg inner = target) || errorsIs inner target
  | e, target => decide (e = target)

/-! ## entity -/

/-- A `time.Time`: nanoseconds relative to the Unix epoch. -/
abbrev Time := Int

/-- The zero `time.Time` (January 1, year 1, 00:00 UTC), for which `IsZero`
holds. -/
def zeroTime : Time := -62135596800 * 1000000000

/-- `Time.Unix`: whole seconds since the Unix epoch. -/
def Time.Unix (t : Time) : Int := t / 1000000000

/-- `entity.User` -/
structure User where
  ID : Nat
  Email : String
  Username : String
  Password : String
  FullName : String
  Phone : String
  IsActive : Bool
  CreatedAt : Time
  UpdatedAt : Time
  deriving DecidableEq, Repr

/-- `entity.UserFilter`; a nil pointer field is `none`. -/
structure UserFilter where
  Email : Option String
  Username : Option String
  IsActive : Option Bool
  Limit : Int
  Offset : Int
  deriving DecidableEq, Repr

/-- Go's `len` of a string: its length in bytes. -/
def goLen (s : String) : Int := s.utf8ByteSize

/-! ## Regular expressions (`regexp.MustCompile`, `MatchString`) -/

/-- The fragment of regular-expression syntax `emailRegex` is written in. -/
inductive Regexp where
  | empty
  | eps
  | cls (p : Char → Bool)
  | alt (a b : Regexp)
  | cat (a b : Regexp)
  | star (a : Regexp)

namespace Regexp

/-- `a+` -/
def plus (a : Regexp) : Regexp := cat a (star a)

/-- `a{n,}` -/
def atLeast : Nat → Regexp → Regexp
  | 0, a => star a
  | n + 1, a => cat a (atLeast n a)

/-- Whether the expression accepts the empty input. -/
def nullable : Regexp → Bool
  | empty => false
  | eps => true
  | cls _ => false
  | alt a b => nullable a || nullable b
  | cat a b => nullable a && nullable b
  | star _ => true

/-- The expression that accepts what remains after reading `c`. -/
def deriv : Regexp → Char → Regexp
  | empty, _ => empty
  | eps, _ => empty
  | cls p, c => if p c then eps else empty
  | alt a b, c => alt (deriv a c) (deriv b c)
  | cat a b, c =>
      if nullable a then alt (cat (deriv a c) b) (deriv b c) else cat (deriv a c) b
  | star a, c => cat (deriv a c) (star a)

/-- Whole-input matching of a list of characters. -/
def matchChars : Regexp → List Char → Bool
  | r, [] => nullable r
  | r, c :: cs => matchChars (deriv r c) cs

/-- `MatchString` of an expression anchored with `^` and `$`: the whole
string has to be accepted. -/
def MatchString (r : Regexp) (s : String) : Bool := matchChars r s.toList

end Regexp

/-- `[a-z]` -/
def isLower (c : Char) : Bool := decide ('a' ≤ c) && decide (c ≤ 'z')
/-- `[A-Z]` -/
def isUpper (c : Char) : Bool := decide ('A' ≤ c) && decide (c ≤ 'Z')
/-- `[0-9]` -/
def isDigit (c : Char) : Bool := decide ('0' ≤ c) && decide (c ≤ '9')
/-- `[a-zA-Z]` -/
def isLetter (c : Char) : Bool := isLower c || isUpper c
/-- `[a-zA-Z0-9._%+\-]` -/
def isLocalChar (c : Char) : Bool :=
  isLower c || isUpper c || isDigit c ||
    c == '.' || c == '_' || c == '%' || c == '+' || c == '-'
/-- `[a-zA-Z0-9.\-]` -/
def isDomainChar (c : Char) : Bool :=
  isLower c || isUpper c || isDigit c || c == '.' || c == '-'

open Regexp in
/-- `^[a-zA-Z0-9._%+\-]+@[a-zA-Z0-9.\-]+\.[a-zA-Z]{2,}$` -/
def emailRegex : Regexp :=
  cat (plus (cls isLocalChar))
    (cat (cls (fun c => c == '@'))
      (cat (plus (cls isDomainChar))
        (cat (cls (fun c => c == '.'))
          (atLeast 2 (cls isLetter)))))

/-! ## usecase/user: options and validation -/

/-- `UseCaseOptions` -/
structure UseCaseOptions where
  ValidateEmail : Bool
  ValidatePassword : Bool
  MinPasswordLen : Int
  MaxPasswordLen : Int
  deriving DecidableEq, Repr

/-- `defaultOptions` -/
def defaultOptions : UseCaseOptions :=
  { ValidateEmail := true, ValidatePassword := true, MinPasswordLen := 8, MaxPasswordLen := 72 }

/-- `WithEmailValidation` -/
def WithEmailValidation (validate : Bool) (o : UseCaseOptions) : UseCaseOptions :=
  { o with ValidateEmail := validate }

/-- `WithPasswordValidation` -/
def WithPasswordValidation (validate : Bool) (o : UseCaseOptions) : UseCaseOptions :=
  { o with ValidatePassword := validate }

/-- `WithPasswordLength` -/
def WithPasswordLength (min max : Int) (o : UseCaseOptions) : UseCaseOptions :=
  { o with MinPasswordLen := min, MaxPasswordLen := max }

/-- `userUseCase.validateUser` -/
def validateUser (options : UseCaseOptions) (user : User) : Option GoError :=
  if user.Email = "" then some (.new "email is required")
  else if user.Username = "" then some (.new "username is required")
  else if user.Password = "" then some (.new "password is required")
  else if options.ValidateEmail && !emailRegex.MatchString user.Email then
    some (.new "invalid email format")
  else if options.ValidatePassword then
    if goLen user.Password < options.MinPasswordLen then some (.new "password is too short")
    else if goLen user.Password > options.MaxPasswordLen then some (.new "password is too long")
    else none
  else none


/-! ## Specification-side notions -/

namespace Regexp

/-- The language of an expression: the inputs it accepts as a whole. -/
inductive Accepts : Regexp → List Char → Prop
  | eps : Accepts eps []
  | cls {p : Char → Bool} {c : Char} : p c = true → Accepts (cls p) [c]
  | altL {a b : Regexp} {s : List Char} : Accepts a s → Accepts (alt a b) s
  | altR {a b : Regexp} {s : List Char} : Accepts b s → Accepts (alt a b) s
  | cat {a b : Regexp} {u v : List Char} :
      Accepts a u → Accepts b v → Accepts (cat a b) (u ++ v)
  | starNil {a : Regexp} : Accepts (star a) []
  | starCons {a : Regexp} {u v : List Char} :
      Accepts a u → Accepts (star a) v → Accepts (star a) (u ++ v)

end Regexp

/-- The shape `local@domain.tld` in the words of the specification: one or
more characters of `[a-zA-Z0-9._%+-]`, an `@`, one or more characters of
`[a-zA-Z0-9.-]`, a dot, and two or more ASCII letters, spanning the string. -/
def EmailShape (email : String) : Prop :=
  ∃ l d t : List Char,
    email.toList = l ++ '@' :: (d ++ '.' :: t) ∧
    l ≠ [] ∧ (∀ c ∈ l, isLocalChar c = true) ∧
    d ≠ [] ∧ (∀ c ∈ d, isDomainChar c = true) ∧
    2 ≤ t.length ∧ (∀ c ∈ t, isLetter c = true)

/-! ## usecase/user: the use case over its two interfaces -/

/-- `repository.UserRepository`, over a world of type `ω` (the store and
whatever else its methods touch). A method returns what the Go method
returns, the record left behind a `*entity.User` argument, and the world
after the call. -/
structure UserRepository (ω : Type) where
  Create : User → ω → (User × Option GoError) × ω
  GetByID : Nat → ω → (Option User × Option GoError) × ω
  GetByEmail : String → ω → (Option User × Option GoError) × ω
  GetByUsername : String → ω → (Option User × Option GoError) × ω
  List : Option UserFilter → ω → (List User × Option GoError) × ω
  Update : User → ω → (User × Option GoError) × ω
  Delete : Nat → ω → Option GoError × ω
  Count : Option UserFilter → ω → (Int × Option GoError) × ω

/-- `PasswordHasher`. `Hash` may draw on the world (a random salt);
`Compare` depends on its two arguments only. -/
structure PasswordHasher (ω : Type) where
  Hash : String → ω → (String × Option GoError) × ω
  Compare : String → String → Option GoError

/-- `userUseCase` -/
structure userUseCase (ω : Type) where
  userRepo : UserRepository ω
  passwordHasher : PasswordHasher ω
  options : UseCaseOptions

/-- A call the use case makes through one of its interfaces. -/
inductive Call where
  | GetByID (id : Nat)
  | GetByEmail (email : String)
  | GetByUsername (username : String)
  | Hash (password : String)
  | Create (user : User)
  | Update (user : User)
  | Delete (id : Nat)
  | List (filter : Option UserFilter)
  | Count (filter : Option UserFilter)
  deriving DecidableEq, Repr

/-- What a call of `CreateUser` or `UpdateUser` leaves: the returned error,
the caller's record behind the `user` pointer, the world, and the interface
calls made, in order. -/
structure Outcome (ω : Type) where
  err : Option GoError
  user : User
  world : ω
  calls : List Call

/-- `userUseCase.CreateUser` -/
def CreateUser {ω : Type} (uc : userUseCase ω) (user : User) (w : ω) : Outcome ω :=
  match validateUser uc.options user with
  | some err => ⟨some err, user, w, []⟩
  | none =>
    let byEmail := uc.userRepo.GetByEmail user.Email w
    if byEmail.1.2 = none ∧ byEmail.1.1 ≠ none then
      ⟨some (.new "user with this email already exists"), user, byEmail.2,
        [.GetByEmail user.Email]⟩
    else
      let byUsername := uc.userRepo.GetByUsername user.Username byEmail.2
      if byUsername.1.2 = none ∧ byUsername.1.1 ≠ none then
        ⟨some (.new "user with this username already exists"), user, byUsername.2,
          [.GetByEmail user.Email, .GetByUsername user.Username]⟩
      else
        let hashed := uc.passwordHasher.Hash user.Password byUsername.2
        match hashed.1.2 with
        | some err =>
          ⟨some err, user, hashed.2,
            [.GetByEmail user.Email, .GetByUsername user.Username, .Hash user.Password]⟩
        | none =>
          let user1 := { user with Password := hashed.1.1 }
          let created := uc.userRepo.Create user1 hashed.2
          ⟨created.1.2, created.1.1, created.2,
            [.GetByEmail user.Email, .GetByUsername user.Username, .Hash user.Password,
              .Create user1]⟩

/-- `userUseCase.UpdateUser`. The result is `none` when the call panics:
`GetByID` returned a nil user with a nil error and `existingUser.Password`
dereferences it. -/
def UpdateUser {ω : Type} (uc : userUseCase ω) (user : User) (w : ω) : Option (Outcome ω) :=
  let found := uc.userRepo.GetByID user.ID w
  match found.1.2 with
  | some err =>
    if errorsIs err .gormErrRecordNotFound then
      some ⟨some (.new "user not found"), user, found.2, [.GetByID user.ID]⟩
    else
      some ⟨some err, user, found.2, [.GetByID user.ID]⟩
  | none =>
    match found.1.1 with
    | none => none
    | some existingUser =>
      if user.Password ≠ "" ∧ user.Password ≠ existingUser.Password then
        let hashed := uc.passwordHasher.Hash user.Password found.2
        match hashed.1.2 with
        | some err =>
          some ⟨some err, user, hashed.2, [.GetByID user.ID, .Hash user.Password]⟩
        | none =>
          let user1 := { user with Password := hashed.1.1 }
          let updated := uc.userRepo.Update user1 hashed.2
          some ⟨updated.1.2, updated.1.1, updated.2,
            [.GetByID user.ID, .Hash user.Password, .Update user1]⟩
      else
        let user1 := { user with Password := existingUser.Password }
        let updated := uc.userRepo.Update user1 found.2
        some ⟨updated.1.2, updated.1.1, updated.2, [.GetByID user.ID, .Update user1]⟩

/-- `userUseCase.GetUserByID` -/
def GetUserByID {ω : Type} (uc : userUseCase ω) (id : Nat) (w : ω) :
    (Option User × Option GoError) × ω :=
  uc.userRepo.GetByID id w

/-- `userUseCase.GetUserByEmail` -/
def GetUserByEmail {ω : Type} (uc : userUseCase ω) (email : String) (w : ω) :
    (Option User × Option GoError) × ω :=
  uc.userRepo.GetByEmail email w

/-- `userUseCase.GetUserByUsername` -/
def GetUserByUsername {ω : Type} (uc : userUseCase ω) (username : String) (w : ω) :
    (Option User × Option GoError) × ω :=
  uc.userRepo.GetByUsername username w

/-- `userUseCase.ListUsers` -/
def ListUsers {ω : Type} (uc : userUseCase ω) (filter : Option UserFilter) (w : ω) :
    (List User × Option GoError) × ω :=
  uc.userRepo.List filter w

/-- `userUseCase.DeleteUser` -/
def DeleteUser {ω : Type} (uc : userUseCase ω) (id : Nat) (w : ω) : Option GoError × ω :=
  uc.userRepo.Delete id w

/-- `userUseCase.CountUsers` -/
def CountUsers {ω : Type} (uc : userUseCase ω) (filter : Option UserFilter) (w : ω) :
    (Int × Option GoError) × ω :=
  uc.userRepo.Count filter w

/-! ## infrastructure/observer -/

/-- `EventType`: `"user.created"`, `"user.updated"`, `"user.deleted"`. -/
inductive EventType where
  | UserCreated
  | UserUpdated
  | UserDeleted
  deriving DecidableEq, Repr

/-- The payload `Data interface{}` of an event: a `*entity.User` or a `uint`. -/
inductive EventData where
  | user (u : User)
  | id (id : Nat)
  deriving DecidableEq, Repr

/-- `Event` -/
structure Event where
  Type_ : EventType
  Data : EventData
  deriving DecidableEq, Repr

/-- `Subject`: the attached observers, each known by a number. -/
structure Subject where
  observers : List Nat
  deriving DecidableEq, Repr

/-- `NewSubject` -/
def NewSubject : Subject := ⟨[]⟩

/-- `Subject.Attach` -/
def Subject.Attach (s : Subject) (observer : Nat) : Subject :=
  ⟨s.observers ++ [observer]⟩

/-- The loop of `Subject.Detach` over the observers from the current index
on: the first entry equal to `observer` is dropped and the loop ends. -/
def detachLoop (observer : Nat) : List Nat → List Nat
  | [] => []
  | obs :: rest => if obs = observer then rest else obs :: detachLoop observer rest

/-- `Subject.Detach` -/
def Subject.Detach (s : Subject) (observer : Nat) : Subject :=
  ⟨detachLoop observer s.observers⟩

/-- `Subject.Notify`: the deliveries `go observer.Update(event)` it starts,
one per entry of the observer list, in list order. -/
def Subject.Notify (s : Subject) (event : Event) : List (Nat × Event) :=
  s.observers.map (fun observer => (observer, event))

/-! ## The world of a repository -/

/-- What a repository backend works on: its database handle `db`, its
`subject` with the record of the `Notify` calls made on it (`notified`) and
of the deliveries they started (`spawned`), oldest first, and the readings
`time.Now()` is going to return (`clock`). -/
structure World (σ : Type) where
  db : σ
  subject : Subject
  notified : List Event
  spawned : List (Nat × Event)
  clock : List Time

/-- `time.Now()` -/
def World.timeNow {σ : Type} (w : World σ) : Time × World σ :=
  (w.clock.headD 0, { w with clock := w.clock.tail })

/-- `r.subject.Notify(event)` -/
def World.Notify {σ : Type} (w : World σ) (event : Event) : World σ :=
  { w with
    notified := w.notified ++ [event]
    spawned := w.spawned ++ w.subject.Notify event }

/-! ## infrastructure/database: the relational backend -/

/-- The `users` table behind `*gorm.DB`: its rows in the order an unordered
`SELECT` returns them, the last value of the `id` sequence, and `fault`, the
error every statement returns while the connection is broken. The table has
the primary key `id` and unique indexes on `email` and `username`. -/
structure GormDB where
  users : List User
  lastID : Nat
  fault : Option GoError
  deriving DecidableEq, Repr

/-- The error of an `INSERT` or `UPDATE` that violates a unique index. -/
def pgUniqueViolation : GoError :=
  .new "ERROR: duplicate key value violates unique constraint (SQLSTATE 23505)"

/-- The row with the least `id` among `rows` (`ORDER BY id LIMIT 1`). -/
def leastID : List User → Option User
  | [] => none
  | r :: rows =>
    match leastID rows with
    | none => some r
    | some m => if m.ID < r.ID then some m else some r

/-- The record after gorm has filled its zero values before an `INSERT`:
`is_active` from the column tag `default:true`, `created_at` and
`updated_at` from the clock. -/
def gormDefaults (now : Time) (user : User) : User :=
  { user with
    IsActive := if user.IsActive = false then true else user.IsActive
    CreatedAt := if user.CreatedAt = zeroTime then now else user.CreatedAt
    UpdatedAt := if user.UpdatedAt = zeroTime then now else user.UpdatedAt }

/-- Whether a row with this `id`, `email` or `username` is in the table, so
that an `INSERT` of it violates the primary key or a unique index. -/
def GormDB.conflicts (db : GormDB) (id : Nat) (email username : String) : Bool :=
  db.users.any (fun r => r.ID = id || r.Email = email || r.Username = username)

/-- `db.Create(user)`. On a broken connection the statement fails before
anything is done to the record. Otherwise the zero values are filled, a zero
`id` is taken from the sequence and written back, and the row is inserted
unless it violates the primary key or a unique index. -/
def gormCreate (user : User) (w : World GormDB) : (User × Option GoError) × World GormDB :=
  match w.db.fault with
  | some err => ((user, some err), w)
  | none =>
    let now := w.timeNow
    let user1 := gormDefaults now.1 user
    let id := if user.ID = 0 then now.2.db.lastID + 1 else user.ID
    let lastID := if user.ID = 0 then now.2.db.lastID + 1 else now.2.db.lastID
    if now.2.db.conflicts id user.Email user.Username then
      ((user1, some pgUniqueViolation), { now.2 with db := { now.2.db with lastID := lastID } })
    else
      (({ user1 with ID := id }, none),
        { now.2 with db := { now.2.db with
            users := now.2.db.users ++ [{ user1 with ID := id }]
            lastID := lastID } })

/-- `db.Where(cond).First(&user)` and `db.First(&user, id)`: the matching row
with the least `id`, or `gorm.ErrRecordNotFound`. -/
def gormFirst (cond : User → Bool) (w : World GormDB) : Option User × Option GoError :=
  match w.db.fault with
  | some err => (none, some err)
  | none =>
    match leastID (w.db.users.filter cond) with
    | none => (none, some .gormErrRecordNotFound)
    | some user => (some user, none)

/-- A query under construction: the `Where` conditions and the `Limit` and
`Offset` set on it. -/
structure GormQuery where
  conds : List (User → Bool)
  limit : Option Int
  offset : Option Int

/-- `query.Where(cond)` -/
def GormQuery.Where (q : GormQuery) (cond : User → Bool) : GormQuery :=
  { q with conds := q.conds ++ [cond] }

/-- `query.Limit(n)` -/
def GormQuery.Limit (q : GormQuery) (n : Int) : GormQuery := { q with limit := some n }

/-- `query.Offset(n)` -/
def GormQuery.Offset (q : GormQuery) (n : Int) : GormQuery := { q with offset := some n }

/-- The rows that satisfy every condition of the query. -/
def GormQuery.rows (q : GormQuery) (w : World GormDB) : List User :=
  w.db.users.filter (fun r => q.conds.all (fun cond => cond r))

/-- `query.Find(&users)`: the matching rows, after `OFFSET` and `LIMIT`. -/
def GormQuery.Find (q : GormQuery) (w : World GormDB) : List User × Option GoError :=
  match w.db.fault with
  | some err => ([], some err)
  | none =>
    let skipped := match q.offset with
      | some n => (q.rows w).drop n.toNat
      | none => q.rows w
    match q.limit with
    | some n => (skipped.take n.toNat, none)
    | none => (skipped, none)

/-- `query.Count(&count)`: `SELECT count(*)` over the matching rows. -/
def GormQuery.Count (q : GormQuery) (w : World GormDB) : Int × Option GoError :=
  match w.db.fault with
  | some err => (0, some err)
  | none => (((q.rows w).length : Int), none)

/-- Whether another row than the one with this `id` has this `email` or
`username`, so that an `UPDATE` violates a unique index. -/
def GormDB.conflictsOther (db : GormDB) (id : Nat) (email username : String) : Bool :=
  db.users.any (fun r => r.ID ≠ id && (r.Email = email || r.Username = username))

/-- `db.Save(user)`: with a zero `id` it is `Create`; otherwise, unless the
connection is broken, an `UPDATE` of all columns of the row with this `id`,
`updated_at` set from the clock, and, when no row has this `id`, an insert. -/
def gormSave (user : User) (w : World GormDB) : (User × Option GoError) × World GormDB :=
  if user.ID = 0 then gormCreate user w
  else
    match w.db.fault with
    | some err => ((user, some err), w)
    | none =>
      let now := w.timeNow
      let user1 : User := { user with UpdatedAt := now.1 }
      if now.2.db.users.any (fun r => r.ID = user.ID) then
        if now.2.db.conflictsOther user.ID user.Email user.Username then
          ((user1, some pgUniqueViolation), now.2)
        else
          ((user1, none),
            { now.2 with db := { now.2.db with
                users := now.2.db.users.map (fun r => if r.ID = user.ID then user1 else r) } })
      else gormCreate user1 now.2

/-- `db.Delete(&entity.User{}, id)`: `DELETE FROM users WHERE id = ?`. Its
`Error` is nil also when no row matches. -/
def gormDelete (id : Nat) (w : World GormDB) : Option GoError × World GormDB :=
  match w.db.fault with
  | some err => (some err, w)
  | none => (none, { w with db := { w.db with users := w.db.users.filter (fun r => r.ID ≠ id) } })

namespace userRepositoryImpl

/-- `userRepositoryImpl.Create` -/
def Create (user : User) (w : World GormDB) : (User × Option GoError) × World GormDB :=
  let created := gormCreate user w
  match created.1.2 with
  | some err => ((created.1.1, some err), created.2)
  | none =>
    ((created.1.1, none), created.2.Notify ⟨.UserCreated, .user created.1.1⟩)

/-- `userRepositoryImpl.GetByID` -/
def GetByID (id : Nat) (w : World GormDB) : (Option User × Option GoError) × World GormDB :=
  match (gormFirst (fun r => r.ID = id) w).2 with
  | some err => ((none, some err), w)
  | none => (((gormFirst (fun r => r.ID = id) w).1, none), w)

/-- `userRepositoryImpl.GetByEmail` -/
def GetByEmail (email : String) (w : World GormDB) :
    (Option User × Option GoError) × World GormDB :=
  match (gormFirst (fun r => r.Email = email) w).2 with
  | some err => ((none, some err), w)
  | none => (((gormFirst (fun r => r.Email = email) w).1, none), w)

/-- `userRepositoryImpl.GetByUsername` -/
def GetByUsername (username : String) (w : World GormDB) :
    (Option User × Option GoError) × World GormDB :=
  match (gormFirst (fun r => r.Username = username) w).2 with
  | some err => ((none, some err), w)
  | none => (((gormFirst (fun r => r.Username = username) w).1, none), w)

/-- `userRepositoryImpl.List` -/
def List (filter : Option UserFilter) (w : World GormDB) :
    (List User × Option GoError) × World GormDB :=
  let query : GormQuery := ⟨[], none, none⟩
  let query := match filter with
    | none => query
    | some f =>
      let query := match f.Email with
        | some email => query.Where (fun r => r.Email = email)
        | none => query
      let query := match f.Username with
        | some username => query.Where (fun r => r.Username = username)
        | none => query
      let query := match f.IsActive with
        | some active => query.Where (fun r => r.IsActive = active)
        | none => query
      let query := if f.Limit > 0 then query.Limit f.Limit else query
      if f.Offset > 0 then query.Offset f.Offset else query
  match (query.Find w).2 with
  | some err => (([], some err), w)
  | none => (((query.Find w).1, none), w)

/-- `userRepositoryImpl.Update` -/
def Update (user : User) (w : World GormDB) : (User × Option GoError) × World GormDB :=
  let saved := gormSave user w
  match saved.1.2 with
  | some err => ((saved.1.1, some err), saved.2)
  | none =>
    ((saved.1.1, none), saved.2.Notify ⟨.UserUpdated, .user saved.1.1⟩)

/-- `userRepositoryImpl.Delete` -/
def Delete (id : Nat) (w : World GormDB) : Option GoError × World GormDB :=
  let deleted := gormDelete id w
  match deleted.1 with
  | some err => (some err, deleted.2)
  | none => (none, deleted.2.Notify ⟨.UserDeleted, .id id⟩)

/-- `userRepositoryImpl.Count` -/
def Count (filter : Option UserFilter) (w : World GormDB) :
    (Int × Option GoError) × World GormDB :=
  let query : GormQuery := ⟨[], none, none⟩
  let query := match filter with
    | none => query
    | some f =>
      let query := match f.Email with
        | some email => query.Where (fun r => r.Email = email)
        | none => query
      let query := match f.Username with
        | some username => query.Where (fun r => r.Username = username)
        | none => query
      match f.IsActive with
      | some active => query.Where (fun r => r.IsActive = active)
      | none => query
  match (query.Count w).2 with
  | some err => ((0, some err), w)
  | none => (((query.Count w).1, none), w)

end userRepositoryImpl

/-- `NewUserRepository`: the relational backend as a `UserRepository`. -/
def NewUserRepository : UserRepository (World GormDB) where
  Create := userRepositoryImpl.Create
  GetByID := userRepositoryImpl.GetByID
  GetByEmail := userRepositoryImpl.GetByEmail
  GetByUsername := userRepositoryImpl.GetByUsername
  List := userRepositoryImpl.List
  Update := userRepositoryImpl.Update
  Delete := userRepositoryImpl.Delete
  Count := userRepositoryImpl.Count

/-! ## infrastructure/database: the document backend -/

/-- `primitive.ObjectID`, twelve bytes: a four-byte timestamp in seconds,
five bytes unique to the process, and a three-byte counter. -/
structure ObjectID where
  timestamp : Nat
  unique : Nat
  counter : Nat
  deriving DecidableEq, Repr

/-- `primitive.NilObjectID`, the zero value. -/
def NilObjectID : ObjectID := ⟨0, 0, 0⟩

/-- `MongoUser` -/
structure MongoUser where
  ID : ObjectID
  Email : String
  Username : String
  Password : String
  FullName : String
  Phone : String
  IsActive : Bool
  CreatedAt : Time
  UpdatedAt : Time
  deriving DecidableEq, Repr

/-- The `users` collection behind `*mongo.Collection`: its documents in
natural order, `fault`, the error every operation returns while the
connection is broken, and the two values of the driver that go into a new
object identifier. The collection has unique indexes on `email` and
`username`. -/
structure MongoCollection where
  docs : List MongoUser
  fault : Option GoError
  processUnique : Nat
  objectIDCounter : Nat
  deriving DecidableEq, Repr

/-- Conversion of a Go integer to `uint32`. -/
def toUint32 (i : Int) : Nat := (i % 4294967296).toNat

/-- Conversion of a Go `uint` (64 bits) to `int64`. -/
def toInt64 (n : Nat) : Int :=
  if n % 18446744073709551616 < 9223372036854775808 then
    ((n % 18446744073709551616 : Nat) : Int)
  else
    ((n % 18446744073709551616 : Nat) : Int) - 18446744073709551616

/-- `primitive.NewObjectIDFromTimestamp(timestamp)`, given `timestamp.Unix()`:
the seconds as `uint32`, the process-unique bytes, and the counter after it
has been incremented. -/
def NewObjectIDFromTimestamp (unix : Int) (w : World MongoCollection) :
    ObjectID × World MongoCollection :=
  (⟨toUint32 unix, w.db.processUnique, (w.db.objectIDCounter + 1) % 16777216⟩,
    { w with db := { w.db with objectIDCounter := (w.db.objectIDCounter + 1) % 4294967296 } })

/-- `primitive.NewObjectID()`: `NewObjectIDFromTimestamp(time.Now())`. -/
def NewObjectID (w : World MongoCollection) : ObjectID × World MongoCollection :=
  NewObjectIDFromTimestamp w.timeNow.1.Unix w.timeNow.2

/-- A `time.Time` as the store keeps it: BSON dates have millisecond
precision. -/
def bsonDateTime (t : Time) : Time := t - t % 1000000

/-- A filter document `bson.M`: the keys set in it, each an equality. -/
structure MongoFilter where
  _id : Option ObjectID
  email : Option String
  username : Option String
  is_active : Option Bool
  deriving DecidableEq, Repr

/-- `bson.M{}` -/
def MongoFilter.empty : MongoFilter := ⟨none, none, none, none⟩

/-- Whether a document satisfies a filter document. -/
def MongoFilter.holds (f : MongoFilter) (d : MongoUser) : Bool :=
  (match f._id with | some v => decide (d.ID = v) | none => true) &&
  (match f.email with | some v => decide (d.Email = v) | none => true) &&
  (match f.username with | some v => decide (d.Username = v) | none => true) &&
  (match f.is_active with | some v => decide (d.IsActive = v) | none => true)

/-- The error of a write that violates a unique index. -/
def mongoDuplicateKey : GoError := .new "E11000 duplicate key error"

/-- Whether a document with this `_id`, `email` or `username` is in the
collection, so that an insert of it violates a unique index. -/
def MongoCollection.conflicts (c : MongoCollection) (id : ObjectID) (email username : String) :
    Bool :=
  c.docs.any (fun d => d.ID = id || d.Email = email || d.Username = username)

/-- The `_id` a document is inserted under: its own, or, for the zero value
(which `omitempty` leaves out), a new one from the driver. -/
def mongoEnsureID (doc : MongoUser) (w : World MongoCollection) :
    ObjectID × World MongoCollection :=
  if doc.ID = NilObjectID then NewObjectID w else (doc.ID, w)

/-- `collection.InsertOne(ctx, doc)`: the inserted identifier with the error. -/
def mongoInsertOne (doc : MongoUser) (w : World MongoCollection) :
    (Option ObjectID × Option GoError) × World MongoCollection :=
  let ided := mongoEnsureID doc w
  match ided.2.db.fault with
  | some err => ((none, some err), ided.2)
  | none =>
    if ided.2.db.conflicts ided.1 doc.Email doc.Username then
      ((none, some mongoDuplicateKey), ided.2)
    else
      ((some ided.1, none),
        { ided.2 with db := { ided.2.db with
            docs := ided.2.db.docs ++
              [{ doc with
                  ID := ided.1
                  CreatedAt := bsonDateTime doc.CreatedAt
                  UpdatedAt := bsonDateTime doc.UpdatedAt }] } })

/-- `collection.FindOne(ctx, filter).Decode(&mongoUser)`: the first matching
document, or `mongo.ErrNoDocuments`. -/
def mongoFindOne (filter : MongoFilter) (w : World MongoCollection) :
    Option MongoUser × Option GoError :=
  match w.db.fault with
  | some err => (none, some err)
  | none =>
    match w.db.docs.find? filter.holds with
    | none => (none, some .mongoErrNoDocuments)
    | some d => (some d, none)

/-- `options.Find()` with what `SetLimit` and `SetSkip` set on it. -/
structure FindOptions where
  Limit : Option Int
  Skip : Option Int
  deriving DecidableEq, Repr

/-- `collection.Find(ctx, filter, findOptions)` with the cursor read to its
end: the matching documents, after the skip and the limit. -/
def mongoFind (filter : MongoFilter) (findOptions : FindOptions) (w : World MongoCollection) :
    List MongoUser × Option GoError :=
  match w.db.fault with
  | some err => ([], some err)
  | none =>
    let skipped := match findOptions.Skip with
      | some n => (w.db.docs.filter filter.holds).drop n.toNat
      | none => w.db.docs.filter filter.holds
    match findOptions.Limit with
    | some n => (skipped.take n.toNat, none)
    | none => (skipped, none)

/-- The `$set` document of `Update`. -/
structure MongoSet where
  username : String
  password : String
  full_name : String
  phone : String
  is_active : Bool
  updated_at : Time
  deriving DecidableEq, Repr

/-- A document after a `$set`. -/
def MongoSet.apply (u : MongoSet) (d : MongoUser) : MongoUser :=
  { d with
    Username := u.username
    Password := u.password
    FullName := u.full_name
    Phone := u.phone
    IsActive := u.is_active
    UpdatedAt := bsonDateTime u.updated_at }

/-- The list with its first element satisfying `p` replaced by its image under `f`. -/
def updateFirst {α : Type} (p : α → Bool) (f : α → α) : List α → List α
  | [] => []
  | d :: ds => if p d then f d :: ds else d :: updateFirst p f ds

/-- The list without its first element satisfying `p`. -/
def deleteFirst {α : Type} (p : α → Bool) : List α → List α
  | [] => []
  | d :: ds => if p d then ds else d :: deleteFirst p ds

/-- `collection.UpdateOne(ctx, filter, update)`: `MatchedCount` with the
error; the first matching document is updated. -/
def mongoUpdateOne (filter : MongoFilter) (update : MongoSet) (w : World MongoCollection) :
    (Int × Option GoError) × World MongoCollection :=
  match w.db.fault with
  | some err => ((0, some err), w)
  | none =>
    match w.db.docs.find? filter.holds with
    | none => ((0, none), w)
    | some d =>
      if w.db.docs.any (fun e => e.ID ≠ d.ID && e.Username = update.username) then
        ((0, some mongoDuplicateKey), w)
      else
        ((1, none),
          { w with db := { w.db with docs := updateFirst filter.holds update.apply w.db.docs } })

/-- `collection.DeleteOne(ctx, filter)`: `DeletedCount` with the error; the
first matching document is removed. -/
def mongoDeleteOne (filter : MongoFilter) (w : World MongoCollection) :
    (Int × Option GoError) × World MongoCollection :=
  match w.db.fault with
  | some err => ((0, some err), w)
  | none =>
    match w.db.docs.find? filter.holds with
    | none => ((0, none), w)
    | some _ =>
      ((1, none), { w with db := { w.db with docs := deleteFirst filter.holds w.db.docs } })

/-- `collection.CountDocuments(ctx, filter)` -/
def mongoCountDocuments (filter : MongoFilter) (w : World MongoCollection) :
    Int × Option GoError :=
  match w.db.fault with
  | some err => (0, some err)
  | none => (((w.db.docs.filter filter.holds).length : Int), none)

/-- `MongoUser.toEntity` -/
def MongoUser.toEntity (m : MongoUser) : User :=
  { ID := m.ID.timestamp
    Email := m.Email
    Username := m.Username
    Password := m.Password
    FullName := m.FullName
    Phone := m.Phone
    IsActive := m.IsActive
    CreatedAt := m.CreatedAt
    UpdatedAt := m.UpdatedAt }

/-- `fromEntity` -/
def fromEntity (user : User) (w : World MongoCollection) : MongoUser × World MongoCollection :=
  let mongoUser : MongoUser :=
    { ID := NilObjectID
      Email := user.Email
      Username := user.Username
      Password := user.Password
      FullName := user.FullName
      Phone := user.Phone
      IsActive := user.IsActive
      CreatedAt := user.CreatedAt
      UpdatedAt := user.UpdatedAt }
  if user.ID > 0 then
    ({ mongoUser with ID := (NewObjectID w).1 }, (NewObjectID w).2)
  else (mongoUser, w)

namespace userRepositoryMongo

/-- `userRepositoryMongo.Create` -/
def Create (user : User) (w : World MongoCollection) :
    (User × Option GoError) × World MongoCollection :=
  let converted := fromEntity user w
  let oid := NewObjectID converted.2
  let createdAt := oid.2.timeNow
  let updatedAt := createdAt.2.timeNow
  let mongoUser : MongoUser := { converted.1 with
    ID := oid.1
    CreatedAt := createdAt.1
    UpdatedAt := updatedAt.1 }
  let result := mongoInsertOne mongoUser updatedAt.2
  match result.1.2 with
  | some err => ((user, some err), result.2)
  | none =>
    let user1 : User := match result.1.1 with
      | some inserted => { user with
          ID := inserted.timestamp
          CreatedAt := mongoUser.CreatedAt
          UpdatedAt := mongoUser.UpdatedAt }
      | none => user
    ((user1, none), result.2.Notify ⟨.UserCreated, .user user1⟩)

/-- `userRepositoryMongo.GetByID` -/
def GetByID (id : Nat) (w : World MongoCollection) :
    (Option User × Option GoError) × World MongoCollection :=
  let oid := NewObjectIDFromTimestamp (toInt64 id) w
  let filter : MongoFilter := { MongoFilter.empty with _id := some oid.1 }
  match (mongoFindOne filter oid.2).2 with
  | some err => ((none, some err), oid.2)
  | none => ((((mongoFindOne filter oid.2).1).map MongoUser.toEntity, none), oid.2)

/-- `userRepositoryMongo.GetByEmail` -/
def GetByEmail (email : String) (w : World MongoCollection) :
    (Option User × Option GoError) × World MongoCollection :=
  let filter : MongoFilter := { MongoFilter.empty with email := some email }
  match (mongoFindOne filter w).2 with
  | some err => ((none, some err), w)
  | none => ((((mongoFindOne filter w).1).map MongoUser.toEntity, none), w)

/-- `userRepositoryMongo.GetByUsername` -/
def GetByUsername (username : String) (w : World MongoCollection) :
    (Option User × Option GoError) × World MongoCollection :=
  let filter : MongoFilter := { MongoFilter.empty with username := some username }
  match (mongoFindOne filter w).2 with
  | some err => ((none, some err), w)
  | none => ((((mongoFindOne filter w).1).map MongoUser.toEntity, none), w)

/-- `userRepositoryMongo.List` -/
def List (filter : Option UserFilter) (w : World MongoCollection) :
    (List User × Option GoError) × World MongoCollection :=
  let mongoFilter := MongoFilter.empty
  let mongoFilter := match filter with
    | none => mongoFilter
    | some f =>
      let mongoFilter := match f.Email with
        | some email => { mongoFilter with email := some email }
        | none => mongoFilter
      let mongoFilter := match f.Username with
        | some username => { mongoFilter with username := some username }
        | none => mongoFilter
      match f.IsActive with
      | some active => { mongoFilter with is_active := some active }
      | none => mongoFilter
  let findOptions : FindOptions := ⟨none, none⟩
  let findOptions := match filter with
    | none => findOptions
    | some f =>
      let findOptions :=
        if f.Limit > 0 then { findOptions with Limit := some f.Limit } else findOptions
      if f.Offset > 0 then { findOptions with Skip := some f.Offset } else findOptions
  match (mongoFind mongoFilter findOptions w).2 with
  | some err => (([], some err), w)
  | none => ((((mongoFind mongoFilter findOptions w).1).map MongoUser.toEntity, none), w)

/-- `userRepositoryMongo.Update` -/
def Update (user : User) (w : World MongoCollection) :
    (User × Option GoError) × World MongoCollection :=
  let filter : MongoFilter := { MongoFilter.empty with email := some user.Email }
  let now := w.timeNow
  let update : MongoSet :=
    { username := user.Username
      password := user.Password
      full_name := user.FullName
      phone := user.Phone
      is_active := user.IsActive
      updated_at := now.1 }
  let result := mongoUpdateOne filter update now.2
  match result.1.2 with
  | some err => ((user, some err), result.2)
  | none =>
    if result.1.1 = 0 then ((user, some .mongoErrNoDocuments), result.2)
    else
      let now2 := result.2.timeNow
      let user1 : User := { user with UpdatedAt := now2.1 }
      ((user1, none), now2.2.Notify ⟨.UserUpdated, .user user1⟩)

/-- `userRepositoryMongo.Delete` -/
def Delete (id : Nat) (w : World MongoCollection) : Option GoError × World MongoCollection :=
  let oid := NewObjectIDFromTimestamp (toInt64 id) w
  let filter : MongoFilter := { MongoFilter.empty with _id := some oid.1 }
  let result := mongoDeleteOne filter oid.2
  match result.1.2 with
  | some err => (some err, result.2)
  | none =>
    if result.1.1 = 0 then (some .mongoErrNoDocuments, result.2)
    else (none, result.2.Notify ⟨.UserDeleted, .id id⟩)

/-- `userRepositoryMongo.Count` -/
def Count (filter : Option UserFilter) (w : World MongoCollection) :
    (Int × Option GoError) × World MongoCollection :=
  let mongoFilter := MongoFilter.empty
  let mongoFilter := match filter with
    | none => mongoFilter
    | some f =>
      let mongoFilter := match f.Email with
        | some email => { mongoFilter with email := some email }
        | none => mongoFilter
      let mongoFilter := match f.Username with
        | some username => { mongoFilter with username := some username }
        | none => mongoFilter
      match f.IsActive with
      | some active => { mongoFilter with is_active := some active }
      | none => mongoFilter
  match (mongoCountDocuments mongoFilter w).2 with
  | some err => ((0, some err), w)
  | none => (((mongoCountDocuments mongoFilter w).1, none), w)

end userRepositoryMongo

/-- `NewUserRepositoryMongo`: the document backend as a `UserRepository`. -/
def NewUserRepositoryMongo : UserRepository (World MongoCollection) where
  Create := userRepositoryMongo.Create
  GetByID := userRepositoryMongo.GetByID
  GetByEmail := userRepositoryMongo.GetByEmail
  GetByUsername := userRepositoryMongo.GetByUsername
  List := userRepositoryMongo.List
  Update := userRepositoryMongo.Update
  Delete := userRepositoryMongo.Delete
  Count := userRepositoryMongo.Count

/-! ## infrastructure/database: the connection singletons -/

/-- `Config` of postgres.go -/
structure Config where
  Host : String
  Port : String
  User : String
  Password : String
  DBName : String
  SSLMode : String
  deriving DecidableEq, Repr

/-- `Database`: the connection `*gorm.DB`, known by a number. -/
structure Database where
  DB : Nat
  deriving DecidableEq, Repr

/-- The package variables `instance` and `once` of postgres.go (`once` is
true when `once.Do` has run its function), with the number of calls of
`gorm.Open` made so far. -/
structure PostgresSingleton where
  instance_ : Option Database
  once : Bool
  opens : Nat
  deriving DecidableEq, Repr

/-- What the relational server answers at the time of a call: the result of
`gorm.Open` and the result of `AutoMigrate`. -/
structure PostgresServer where
  Open : Nat × Option GoError
  AutoMigrate : Option GoError
  deriving DecidableEq, Repr

/-- `GetInstance` -/
def GetInstance (_config : Config) (server : PostgresServer) (s : PostgresSingleton) :
    (Option Database × Option GoError) × PostgresSingleton :=
  if s.once then ((s.instance_, none), s)
  else
    match server.Open.2 with
    | some dbErr => ((s.instance_, some dbErr), { s with once := true, opens := s.opens + 1 })
    | none =>
      ((some ⟨server.Open.1⟩, server.AutoMigrate),
        { instance_ := some ⟨server.Open.1⟩, once := true, opens := s.opens + 1 })

/-- `ResetInstance` -/
def ResetInstance (s : PostgresSingleton) : PostgresSingleton :=
  { s with instance_ := none, once := false }

/-- `MongoConfig` -/
structure MongoConfig where
  URI : String
  Database : String
  Timeout : Int
  deriving DecidableEq, Repr

/-- `MongoDB`: the client, known by a number, and the name of its database. -/
structure MongoDB where
  Client : Nat
  Database : String
  deriving DecidableEq, Repr

/-- The package variables `mongoInstance` and `mongoOnce` of mongodb.go, with
the number of calls of `mongo.Connect` made so far. -/
structure MongoSingleton where
  mongoInstance : Option MongoDB
  mongoOnce : Bool
  connects : Nat
  deriving DecidableEq, Repr

/-- What the document server answers at the time of a call: the result of
`mongo.Connect` and the result of `client.Ping`. -/
structure MongoServer where
  Connect : Nat × Option GoError
  Ping : Option GoError
  deriving DecidableEq, Repr

/-- `GetMongoInstance` -/
def GetMongoInstance (config : MongoConfig) (server : MongoServer) (s : MongoSingleton) :
    (Option MongoDB × Option GoError) × MongoSingleton :=
  if s.mongoOnce then ((s.mongoInstance, none), s)
  else
    match server.Connect.2 with
    | some clientErr =>
      ((s.mongoInstance, some clientErr), { s with mongoOnce := true, connects := s.connects + 1 })
    | none =>
      match server.Ping with
      | some pingErr =>
        ((s.mongoInstance, some pingErr),
          { s with mongoOnce := true, connects := s.connects + 1 })
      | none =>
        ((some ⟨server.Connect.1, config.Database⟩, none),
          { mongoInstance := some ⟨server.Connect.1, config.Database⟩, mongoOnce := true,
            connects := s.connects + 1 })

/-- `ResetMongoInstance` -/
def ResetMongoInstance (s : MongoSingleton) : MongoSingleton :=
  { s with mongoInstance := none, mongoOnce := false }

/-! ## usecase/user: the SHA-256 password strategy -/

/-- `[]byte(s)`: the bytes of a Go string. -/
def goBytes (s : String) : List Nat := s.toUTF8.data.toList.map (fun b => b.toNat)

namespace sha256

/-- The round constants of SHA-256. -/
def K : List Nat :=
  [0x428a2f98, 0x71374491, 0xb5c0fbcf, 0xe9b5dba5, 0x3956c25b, 0x59f111f1,
    0x923f82a4, 0xab1c5ed5, 0xd807aa98, 0x12835b01, 0x243185be, 0x550c7dc3,
    0x72be5d74, 0x80deb1fe, 0x9bdc06a7, 0xc19bf174, 0xe49b69c1, 0xefbe4786,
    0x0fc19dc6, 0x240ca1cc, 0x2de92c6f, 0x4a7484aa, 0x5cb0a9dc, 0x76f988da,
    0x983e5152, 0xa831c66d, 0xb00327c8, 0xbf597fc7, 0xc6e00bf3, 0xd5a79147,
    0x06ca6351, 0x14292967, 0x27b70a85, 0x2e1b2138, 0x4d2c6dfc, 0x53380d13,
    0x650a7354, 0x766a0abb, 0x81c2c92e, 0x92722c85, 0xa2bfe8a1, 0xa81a664b,
    0xc24b8b70, 0xc76c51a3, 0xd192e819, 0xd6990624, 0xf40e3585, 0x106aa070,
    0x19a4c116, 0x1e376c08, 0x2748774c, 0x34b0bcb5, 0x391c0cb3, 0x4ed8aa4a,
    0x5b9cca4f, 0x682e6ff3, 0x748f82ee, 0x78a5636f, 0x84c87814, 0x8cc70208,
    0x90befffa, 0xa4506ceb, 0xbef9a3f7, 0xc67178f2]

/-- Rotation of a 32-bit word to the right. -/
def rotr (x n : Nat) : Nat := ((x >>> n) ||| (x <<< (32 - n))) % 4294967296

/-- Addition of 32-bit words. -/
def add32 (a b : Nat) : Nat := (a + b) % 4294967296

/-- Complement of a 32-bit word. -/
def not32 (x : Nat) : Nat := x ^^^ 4294967295

/-- `Ch` -/
def ch (x y z : Nat) : Nat := (x &&& y) ^^^ (not32 x &&& z)

/-- `Maj` -/
def maj (x y z : Nat) : Nat := (x &&& y) ^^^ (x &&& z) ^^^ (y &&& z)

/-- `Σ0` -/
def bsig0 (x : Nat) : Nat := rotr x 2 ^^^ rotr x 13 ^^^ rotr x 22

/-- `Σ1` -/
def bsig1 (x : Nat) : Nat := rotr x 6 ^^^ rotr x 11 ^^^ rotr x 25

/-- `σ0` -/
def ssig0 (x : Nat) : Nat := rotr x 7 ^^^ rotr x 18 ^^^ (x >>> 3)

/-- `σ1` -/
def ssig1 (x : Nat) : Nat := rotr x 17 ^^^ rotr x 19 ^^^ (x >>> 10)

/-- The four bytes of a 32-bit word, most significant first. -/
def be32 (x : Nat) : List Nat := [x / 16777216 % 256, x / 65536 % 256, x / 256 % 256, x % 256]

/-- The eight bytes of a 64-bit word, most significant first. -/
def be64 (x : Nat) : List Nat := be32 (x / 4294967296 % 4294967296) ++ be32 (x % 4294967296)

/-- The padded message: a one bit, zero bits up to 56 bytes modulo 64, and
the length in bits. -/
def pad (msg : List Nat) : List Nat :=
  msg ++ [128] ++ List.replicate ((119 - msg.length % 64) % 64) 0 ++ be64 (8 * msg.length)

/-- The 32-bit words of a list of bytes. -/
def words : List Nat → List Nat
  | a :: b :: c :: d :: rest => (a * 16777216 + b * 65536 + c * 256 + d) :: words rest
  | _ => []

/-- The message schedule extended by `n` words. -/
def extend : Nat → List Nat → List Nat
  | 0, w => w
  | n + 1, w =>
    extend n (w ++ [add32
      (add32 (ssig1 (w.getD (w.length - 2) 0)) (w.getD (w.length - 7) 0))
      (add32 (ssig0 (w.getD (w.length - 15) 0)) (w.getD (w.length - 16) 0))])

/-- The eight working variables. -/
structure State where
  a : Nat
  b : Nat
  c : Nat
  d : Nat
  e : Nat
  f : Nat
  g : Nat
  h : Nat
  deriving DecidableEq, Repr

/-- One round, with its constant and its schedule word. -/
def round (s : State) (kw : Nat × Nat) : State :=
  ⟨add32
      (add32 (add32 (add32 s.h (bsig1 s.e)) (add32 (ch s.e s.f s.g) kw.1)) kw.2)
      (add32 (bsig0 s.a) (maj s.a s.b s.c)),
    s.a, s.b, s.c,
    add32 s.d (add32 (add32 (add32 s.h (bsig1 s.e)) (add32 (ch s.e s.f s.g) kw.1)) kw.2),
    s.e, s.f, s.g⟩

/-- The compression of one 64-byte block into the hash value. -/
def block (s : State) (chunk : List Nat) : State :=
  ⟨add32 s.a ((K.zip (extend 48 (words chunk))).foldl round s).a,
    add32 s.b ((K.zip (extend 48 (words chunk))).foldl round s).b,
    add32 s.c ((K.zip (extend 48 (words chunk))).foldl round s).c,
    add32 s.d ((K.zip (extend 48 (words chunk))).foldl round s).d,
    add32 s.e ((K.zip (extend 48 (words chunk))).foldl round s).e,
    add32 s.f ((K.zip (extend 48 (words chunk))).foldl round s).f,
    add32 s.g ((K.zip (extend 48 (words chunk))).foldl round s).g,
    add32 s.h ((K.zip (extend 48 (words chunk))).foldl round s).h⟩

/-- The compression of the first `n` blocks of a list of bytes. -/
def blocks : Nat → State → List Nat → State
  | 0, s, _ => s
  | n + 1, s, bytes => blocks n (block s (bytes.take 64)) (bytes.drop 64)

/-- The initial hash value. -/
def init : State :=
  ⟨0x6a09e667, 0xbb67ae85, 0x3c6ef372, 0xa54ff53a, 0x510e527f, 0x9b05688c, 0x1f83d9ab,
    0x5be0cd19⟩

/-- The final hash value of a message. -/
def digest (msg : List Nat) : State := blocks ((pad msg).length / 64) init (pad msg)

/-- `sha256.New()`, `Write(msg)`, `Sum(nil)`: the SHA-256 checksum of `msg`,
32 bytes. -/
def Sum (msg : List Nat) : List Nat :=
  be32 (digest msg).a ++ be32 (digest msg).b ++ be32 (digest msg).c ++ be32 (digest msg).d ++
    be32 (digest msg).e ++ be32 (digest msg).f ++ be32 (digest msg).g ++ be32 (digest msg).h

end sha256

namespace hex

/-- `hextable` -/
def hextable : List Char := "0123456789abcdef".toList

/-- `hex.EncodeToString`: two characters of `hextable` per byte. -/
def EncodeToString (src : List Nat) : String :=
  String.mk (src.flatMap (fun v => [hextable.getD (v / 16) '0', hextable.getD (v % 16) '0']))

end hex

/-- `SHA256Hasher` -/
structure SHA256Hasher where
  salt : String
  deriving DecidableEq, Repr

/-- `NewSHA256Hasher` -/
def NewSHA256Hasher (salt : String) : SHA256Hasher := ⟨salt⟩

/-- `SHA256Hasher.Hash` -/
def SHA256Hasher.Hash (h : SHA256Hasher) (password : String) : String × Option GoError :=
  (hex.EncodeToString (sha256.Sum (goBytes (password ++ h.salt))), none)

/-- `SHA256Hasher.Compare` -/
def SHA256Hasher.Compare (h : SHA256Hasher) (hashedPassword password : String) :
    Option GoError :=
  match (h.Hash password).2 with
  | some err => some err
  | none =>
    if (h.Hash password).1 ≠ hashedPassword then some .bcryptErrMismatchedHashAndPassword
    else none

/-! ## Specification-side notions: listing -/

/-- Whether a user satisfies every equality predicate present in a filter;
an absent predicate restricts nothing. -/
def UserFilter.satisfiedBy (f : UserFilter) (u : User) : Bool :=
  (match f.Email with | some email => decide (u.Email = email) | none => true) &&
  (match f.Username with | some username => decide (u.Username = username) | none => true) &&
  (match f.IsActive with | some active => decide (u.IsActive = active) | none => true)

/-- The list semantics in the words of the specification: the stored users
that satisfy the filter, in backend order, the first `Offset` of them skipped
when `Offset > 0`, truncated to the first `Limit` when `Limit > 0`; a nil
filter returns all users. -/
def listSpec (filter : Option UserFilter) (stored : List User) : List User :=
  match filter with
  | none => stored
  | some f =>
    let matching := stored.filter f.satisfiedBy
    let skipped := if f.Offset > 0 then matching.drop f.Offset.toNat else matching
    if f.Limit > 0 then skipped.take f.Limit.toNat else skipped

/-- The filter with its pagination cleared: the same predicates, no limit and
no offset. -/
def UserFilter.withoutPagination (f : UserFilter) : UserFilter :=
  { f with Limit := 0, Offset := 0 }

/-- The page of a list that the pagination of a filter selects: the first
`Offset` elements skipped when `Offset > 0`, then the first `Limit` kept when
`Limit > 0`. -/
def UserFilter.page (f : UserFilter) (l : List User) : List User :=
  let skipped := if f.Offset > 0 then l.drop f.Offset.toNat else l
  if f.Limit > 0 then skipped.take f.Limit.toNat else skipped

/-! ## Specification-side notions: events -/

/-- Between the worlds `w` and `w2`, `Notify` was not called. -/
def NotifiedNothing {σ : Type} (w w2 : World σ) : Prop :=
  w2.subject = w.subject ∧ w2.notified = w.notified ∧ w2.spawned = w.spawned

/-- Between the worlds `w` and `w2`, `Notify` was called exactly once, with
`event`. -/
def NotifiedOnce {σ : Type} (w w2 : World σ) (event : Event) : Prop :=
  w2.subject = w.subject ∧ w2.notified = w.notified ++ [event] ∧
    w2.spawned = w.spawned ++ w.subject.Notify event

/-! ## Values for the examples -/

/-- A valid input record: the one of the round-trip example of the
specification. -/
def sampleUser : User :=
  { ID := 0, Email := "a@b.com", Username := "a", Password := "longenough1", FullName := "",
    Phone := "", IsActive := true, CreatedAt := zeroTime, UpdatedAt := zeroTime }

/-- The sample user, not active. -/
def inactiveUser : User :=
  { sampleUser with IsActive := false }

/-- A hasher for the examples: the digest of `p` is `#p`, and `Compare`
accepts exactly that. -/
def sampleHasher {ω : Type} : PasswordHasher ω :=
  { Hash := fun password w => (("#" ++ password, none), w)
    Compare := fun hashedPassword password =>
      if hashedPassword = "#" ++ password then none
      else some .bcryptErrMismatchedHashAndPassword }

/-- A relational backend with an empty table and two observers attached. -/
def emptyRelational : World GormDB :=
  ⟨⟨[], 0, none⟩, ⟨[1, 2]⟩, [], [], [1000000000, 2000000000, 3000000000, 4000000000]⟩

/-- A document backend with an empty collection and two observers attached. -/
def emptyDocument : World MongoCollection :=
  ⟨⟨[], none, 7, 0⟩, ⟨[1, 2]⟩, [], [], [1000000000, 2000000000, 3000000000, 4000000000]⟩

/-- The use case over the relational backend, with the default options. -/
def relationalUseCase : userUseCase (World GormDB) :=
  ⟨NewUserRepository, sampleHasher, defaultOptions⟩

/-- The use case over the document backend, with the default options. -/
def documentUseCase : userUseCase (World MongoCollection) :=
  ⟨NewUserRepositoryMongo, sampleHasher, defaultOptions⟩

/-- The relational backend after the sample user has been created. -/
def oneUserRelational : World GormDB :=
  (CreateUser relationalUseCase sampleUser emptyRelational).world

/-- The row of the sample user in `oneUserRelational`. -/
def sampleRow : User :=
  { ID := 1, Email := "a@b.com", Username := "a", Password := "#longenough1", FullName := "",
    Phone := "", IsActive := true, CreatedAt := 1000000000, UpdatedAt := 1000000000 }

/-- The relational backend after a second user has been created. -/
def twoUsersRelational : World GormDB :=
  (CreateUser relationalUseCase
    { sampleUser with Email := "c@d.org", Username := "c", IsActive := false }
    oneUserRelational).world

/-- The connection parameters of the examples. -/
def sampleConfig : Config := ⟨"localhost", "5432", "postgres", "postgres", "booking", "disable"⟩

/-- The document connection parameters of the examples. -/
def sampleMongoConfig : MongoConfig := ⟨"mongodb://localhost:27017", "booking", 10⟩

/-- The relational backend behind a connection that fails on the lookup by
email only: `GetByEmail` returns a storage error, every other method is the
backend's. -/
def flakyLookupRepository : UserRepository (World GormDB) :=
  { NewUserRepository with
    GetByEmail := fun _ w => ((none, some (.new "connection reset by peer")), w) }

/-- The relational backend with an empty table behind a broken connection. -/
def brokenRelational : World GormDB :=
  ⟨⟨[], 0, some (.new "connection refused")⟩, ⟨[1, 2]⟩, [], [],
    [1000000000, 2000000000, 3000000000, 4000000000]⟩

/-- A document backend holding two users, the first under the identifier a
lookup of id 1 rebuilds (timestamp 1, process bytes 7, counter 1). -/
def twoUsersDocument : World MongoCollection :=
  ⟨⟨[⟨⟨1, 7, 1⟩, "a@b.com", "a", "#longenough1", "", "", true, 1000000000, 1000000000⟩,
      ⟨⟨2, 7, 9⟩, "c@d.org", "c", "#other", "", "", true, 2000000000, 2000000000⟩],
    none, 7, 0⟩, ⟨[1, 2]⟩, [], [], [5000000000, 6000000000, 7000000000]⟩

/-! ## The matcher decides the language -/

namespace Regexp

theorem not_accepts_empty (s : List Char) : ¬ Accepts empty s := by
  intro h; cases h

theorem accepts_eps_iff (s : List Char) : Accepts eps s ↔ s = [] := by
  constructor
  · intro h; cases h; rfl
  · rintro rfl; exact Accepts.eps

theorem accepts_cls_iff (p : Char → Bool) (s : List Char) :
    Accepts (cls p) s ↔ ∃ c, s = [c] ∧ p c = true := by
  constructor
  · intro h; cases h with
    | cls hc => exact ⟨_, rfl, hc⟩
  · rintro ⟨c, rfl, hc⟩; exact Accepts.cls hc

theorem accepts_alt_iff (a b : Regexp) (s : List Char) :
    Accepts (alt a b) s ↔ Accepts a s ∨ Accepts b s := by
  constructor
  · intro h; cases h with
    | altL h => exact Or.inl h
    | altR h => exact Or.inr h
  · rintro (h | h)
    · exact Accepts.altL h
    · exact Accepts.altR h

theorem accepts_cat_iff (a b : Regexp) (s : List Char) :
    Accepts (cat a b) s ↔ ∃ u v, s = u ++ v ∧ Accepts a u ∧ Accepts b v := by
  constructor
  · intro h; cases h with
    | cat ha hb => exact ⟨_, _, rfl, ha, hb⟩
  · rintro ⟨u, v, rfl, ha, hb⟩; exact Accepts.cat ha hb

theorem accepts_star_nonempty_aux {r : Regexp} {t : List Char} (h : Accepts r t) :
    ∀ (a : Regexp) (c : Char) (s : List Char), r = star a → t = c :: s →
      ∃ u v, s = u ++ v ∧ Accepts a (c :: u) ∧ Accepts (star a) v := by
  induction h with
  | eps => intro a c s hr; cases hr
  | cls _ => intro a c s hr; cases hr
  | altL _ _ => intro a c s hr; cases hr
  | altR _ _ => intro a c s hr; cases hr
  | cat _ _ _ _ => intro a c s hr; cases hr
  | starNil => intro a c s _ ht; cases ht
  | @starCons a0 u v hu hv _ ihv =>
    intro a c s hr ht
    cases hr
    cases u with
    | nil =>
      simp only [List.nil_append] at ht
      exact ihv _ c s rfl ht
    | cons x u1 =>
      simp only [List.cons_append, List.cons.injEq] at ht
      obtain ⟨rfl, rfl⟩ := ht
      exact ⟨u1, v, rfl, hu, hv⟩

theorem accepts_star_cons_iff (a : Regexp) (c : Char) (s : List Char) :
    Accepts (star a) (c :: s) ↔
      ∃ u v, s = u ++ v ∧ Accepts a (c :: u) ∧ Accepts (star a) v := by
  constructor
  · intro h; exact accepts_star_nonempty_aux h a c s rfl rfl
  · rintro ⟨u, v, rfl, hu, hv⟩
    have := Accepts.starCons hu hv
    simpa using this

theorem nullable_iff (r : Regexp) : nullable r = true ↔ Accepts r [] := by
  induction r with
  | empty => simp [nullable, not_accepts_empty]
  | eps => simp [nullable, accepts_eps_iff]
  | cls p => simp [nullable, accepts_cls_iff]
  | alt a b iha ihb => simp [nullable, accepts_alt_iff, iha, ihb]
  | cat a b iha ihb =>
    simp only [nullable, Bool.and_eq_true, iha, ihb, accepts_cat_iff]
    constructor
    · rintro ⟨ha, hb⟩; exact ⟨[], [], rfl, ha, hb⟩
    · rintro ⟨u, v, h, ha, hb⟩
      have h1 : u = [] ∧ v = [] := by simpa using h.symm
      obtain ⟨rfl, rfl⟩ := h1
      exact ⟨ha, hb⟩
  | star a _ => simp [nullable, Accepts.starNil]

theorem deriv_iff (r : Regexp) (c : Char) (s : List Char) :
    Accepts (deriv r c) s ↔ Accepts r (c :: s) := by
  induction r generalizing s with
  | empty => simp [deriv, not_accepts_empty]
  | eps => simp [deriv, not_accepts_empty, accepts_eps_iff]
  | cls p =>
    rw [deriv]
    split
    · rename_i hp
      rw [accepts_eps_iff, accepts_cls_iff]
      constructor
      · rintro rfl; exact ⟨c, rfl, hp⟩
      · rintro ⟨x, hx, _⟩
        exact (List.cons.inj hx).2
    · rename_i hp
      rw [accepts_cls_iff]
      constructor
      · intro h; exact absurd h (not_accepts_empty s)
      · rintro ⟨x, hx, hpx⟩
        obtain ⟨rfl, _⟩ := List.cons.inj hx
        exact absurd hpx hp
  | alt a b iha ihb => simp [deriv, accepts_alt_iff, iha, ihb]
  | cat a b iha ihb =>
    have key : (∃ u v, s = u ++ v ∧ Accepts a (c :: u) ∧ Accepts b v) ∨
        (Accepts a [] ∧ Accepts b (c :: s)) ↔ Accepts (cat a b) (c :: s) := by
      rw [accepts_cat_iff]
      constructor
      · rintro (⟨u, v, rfl, ha, hb⟩ | ⟨ha, hb⟩)
        · exact ⟨c :: u, v, rfl, ha, hb⟩
        · exact ⟨[], c :: s, rfl, ha, hb⟩
      · rintro ⟨u, v, h, ha, hb⟩
        cases u with
        | nil =>
          simp only [List.nil_append] at h
          subst h
          exact Or.inr ⟨ha, hb⟩
        | cons x u1 =>
          simp only [List.cons_append, List.cons.injEq] at h
          obtain ⟨rfl, rfl⟩ := h
          exact Or.inl ⟨u1, v, rfl, ha, hb⟩
    rw [← key, deriv]
    split
    · rename_i hn
      have ha0 := (nullable_iff a).1 hn
      rw [accepts_alt_iff, accepts_cat_iff, ihb]
      simp only [iha]
      constructor
      · rintro (h | h)
        · exact Or.inl h
        · exact Or.inr ⟨ha0, h⟩
      · rintro (h | ⟨_, h⟩)
        · exact Or.inl h
        · exact Or.inr h
    · rename_i hn
      have ha0 : ¬ Accepts a [] := fun h => hn ((nullable_iff a).2 h)
      rw [accepts_cat_iff]
      simp only [iha]
      constructor
      · intro h; exact Or.inl h
      · rintro (h | ⟨h, _⟩)
        · exact h
        · exact absurd h ha0
  | star a iha =>
    simp only [deriv, accepts_cat_iff, iha, accepts_star_cons_iff]

theorem matchChars_iff (r : Regexp) (s : List Char) :
    matchChars r s = true ↔ Accepts r s := by
  induction s generalizing r with
  | nil => simpa [matchChars] using nullable_iff r
  | cons c cs ih => simp [matchChars, ih, deriv_iff]

end Regexp

/-! ## The shape of an accepted email -/

namespace Regexp

theorem accepts_cls_cons_iff (p : Char → Bool) (c : Char) (s : List Char) :
    Accepts (cls p) (c :: s) ↔ s = [] ∧ p c = true := by
  rw [accepts_cls_iff]
  constructor
  · rintro ⟨x, hx, hp⟩
    obtain ⟨rfl, rfl⟩ := List.cons.inj hx
    exact ⟨rfl, hp⟩
  · rintro ⟨rfl, hp⟩
    exact ⟨c, rfl, hp⟩

theorem accepts_star_cls_iff (p : Char → Bool) (s : List Char) :
    Accepts (star (cls p)) s ↔ ∀ c ∈ s, p c = true := by
  induction s with
  | nil => simp [Accepts.starNil]
  | cons c cs ih =>
    rw [accepts_star_cons_iff]
    constructor
    · rintro ⟨u, v, rfl, hu, hv⟩
      rw [accepts_cls_cons_iff] at hu
      obtain ⟨rfl, hp⟩ := hu
      intro x hx
      rcases List.mem_cons.1 hx with rfl | hx
      · exact hp
      · exact ih.1 hv x (by simpa using hx)
    · intro h
      refine ⟨[], cs, rfl, ?_, ?_⟩
      · exact (accepts_cls_cons_iff p c []).2 ⟨rfl, h c (List.mem_cons_self c cs)⟩
      · exact ih.2 (fun x hx => h x (List.mem_cons_of_mem c hx))

theorem accepts_cls_cat_iff (p : Char → Bool) (b : Regexp) (s : List Char) :
    Accepts (cat (cls p) b) s ↔ ∃ c t, s = c :: t ∧ p c = true ∧ Accepts b t := by
  rw [accepts_cat_iff]
  constructor
  · rintro ⟨u, v, rfl, hu, hv⟩
    obtain ⟨c, rfl, hp⟩ := (accepts_cls_iff p u).1 hu
    exact ⟨c, v, rfl, hp, hv⟩
  · rintro ⟨c, t, rfl, hp, ht⟩
    exact ⟨[c], t, rfl, Accepts.cls hp, ht⟩

theorem accepts_plus_cls_iff (p : Char → Bool) (s : List Char) :
    Accepts (plus (cls p)) s ↔ s ≠ [] ∧ ∀ c ∈ s, p c = true := by
  rw [plus, accepts_cls_cat_iff]
  constructor
  · rintro ⟨c, t, rfl, hp, ht⟩
    refine ⟨List.cons_ne_nil c t, ?_⟩
    intro x hx
    rcases List.mem_cons.1 hx with rfl | hx
    · exact hp
    · exact (accepts_star_cls_iff p t).1 ht x hx
  · rintro ⟨hne, h⟩
    cases s with
    | nil => exact absurd rfl hne
    | cons c t =>
      exact ⟨c, t, rfl, h c (List.mem_cons_self c t),
        (accepts_star_cls_iff p t).2 (fun x hx => h x (List.mem_cons_of_mem c hx))⟩

theorem accepts_atLeast_two_cls_iff (p : Char → Bool) (s : List Char) :
    Accepts (atLeast 2 (cls p)) s ↔ 2 ≤ s.length ∧ ∀ c ∈ s, p c = true := by
  simp only [atLeast, accepts_cls_cat_iff, accepts_star_cls_iff]
  constructor
  · rintro ⟨c, t, rfl, hc, d, t2, rfl, hd, ht⟩
    refine ⟨by simp, ?_⟩
    intro x hx
    simp only [List.mem_cons] at hx
    rcases hx with rfl | rfl | hx
    · exact hc
    · exact hd
    · exact ht x hx
  · rintro ⟨hlen, h⟩
    match s, hlen, h with
    | c :: d :: t, _, h =>
      exact ⟨c, d :: t, rfl, h c (by simp), d, t, rfl, h d (by simp),
        fun x hx => h x (by simp [hx])⟩

theorem emailRegex_accepts_iff (s : List Char) :
    Accepts emailRegex s ↔
      ∃ l d t : List Char,
        s = l ++ '@' :: (d ++ '.' :: t) ∧
        l ≠ [] ∧ (∀ c ∈ l, isLocalChar c = true) ∧
        d ≠ [] ∧ (∀ c ∈ d, isDomainChar c = true) ∧
        2 ≤ t.length ∧ (∀ c ∈ t, isLetter c = true) := by
  unfold emailRegex
  constructor
  · intro h
    obtain ⟨l, r1, rfl, hl, h1⟩ := (accepts_cat_iff _ _ _).1 h
    obtain ⟨c1, r2, rfl, hc1, h2⟩ := (accepts_cls_cat_iff _ _ _).1 h1
    obtain ⟨d, r3, rfl, hd, h3⟩ := (accepts_cat_iff _ _ _).1 h2
    obtain ⟨c2, t, rfl, hc2, ht⟩ := (accepts_cls_cat_iff _ _ _).1 h3
    have e1 : c1 = '@' := by simpa using hc1
    have e2 : c2 = '.' := by simpa using hc2
    subst e1 e2
    obtain ⟨hl1, hl2⟩ := (accepts_plus_cls_iff _ _).1 hl
    obtain ⟨hd1, hd2⟩ := (accepts_plus_cls_iff _ _).1 hd
    obtain ⟨ht1, ht2⟩ := (accepts_atLeast_two_cls_iff _ _).1 ht
    exact ⟨l, d, t, rfl, hl1, hl2, hd1, hd2, ht1, ht2⟩
  · rintro ⟨l, d, t, rfl, hl1, hl2, hd1, hd2, ht1, ht2⟩
    refine (accepts_cat_iff _ _ _).2 ⟨l, _, rfl, (accepts_plus_cls_iff _ _).2 ⟨hl1, hl2⟩, ?_⟩
    refine (accepts_cls_cat_iff _ _ _).2 ⟨'@', _, rfl, by simp, ?_⟩
    refine (accepts_cat_iff _ _ _).2 ⟨d, _, rfl, (accepts_plus_cls_iff _ _).2 ⟨hd1, hd2⟩, ?_⟩
    exact (accepts_cls_cat_iff _ _ _).2
      ⟨'.', t, rfl, by simp, (accepts_atLeast_two_cls_iff _ _).2 ⟨ht1, ht2⟩⟩

end Regexp

theorem MatchString_emailRegex_iff (email : String) :
    emailRegex.MatchString email = true ↔ EmailShape email := by
  rw [Regexp.MatchString, Regexp.matchChars_iff, Regexp.emailRegex_accepts_iff]
  rfl

theorem isLetter_ne_special (c : Char) (h : isLetter c = true) : c ≠ '@' ∧ c ≠ '.' := by
  constructor <;> (rintro rfl; revert h; decide)

theorem isLocalChar_ne_at (c : Char) (h : isLocalChar c = true) : c ≠ '@' := by
  rintro rfl; revert h; decide

theorem isDomainChar_ne_at (c : Char) (h : isDomainChar c = true) : c ≠ '@' := by
  rintro rfl; revert h; decide

theorem count_eq_zero_of_forall_ne (l : List Char) (a : Char) (h : ∀ c ∈ l, c ≠ a) :
    l.count a = 0 := by
  rw [List.count_eq_zero]
  intro hmem
  exact h a hmem rfl

theorem EmailShape_count_at (email : String) (h : EmailShape email) :
    email.toList.count '@' = 1 := by
  obtain ⟨l, d, t, he, _, hl, _, hd, _, ht⟩ := h
  have h1 := count_eq_zero_of_forall_ne l '@' (fun c hc => isLocalChar_ne_at c (hl c hc))
  have h2 := count_eq_zero_of_forall_ne d '@' (fun c hc => isDomainChar_ne_at c (hd c hc))
  have h3 := count_eq_zero_of_forall_ne t '@' (fun c hc => (isLetter_ne_special c (ht c hc)).1)
  rw [he]
  simp [List.count_append, List.count_cons, h1, h2, h3]

theorem EmailShape_suffix (email : String) (h : EmailShape email) :
    ∃ front tld : List Char, email.toList = front ++ '.' :: tld ∧
      2 ≤ tld.length ∧ ∀ c ∈ tld, isLetter c = true := by
  obtain ⟨l, d, t, he, _, _, _, _, ht1, ht2⟩ := h
  exact ⟨l ++ '@' :: d, t, by rw [he]; simp, ht1, ht2⟩

/-! ## Validation -/

theorem validateUser_of_fields {options : UseCaseOptions} {user : User}
    (he : user.Email ≠ "") (hu : user.Username ≠ "") (hp : user.Password ≠ "") :
    validateUser options user =
      if options.ValidateEmail && !emailRegex.MatchString user.Email then
        some (.new "invalid email format")
      else if options.ValidatePassword then
        if goLen user.Password < options.MinPasswordLen then
          some (.new "password is too short")
        else if goLen user.Password > options.MaxPasswordLen then
          some (.new "password is too long")
        else none
      else none := by
  simp only [validateUser, he, hu, hp, if_false]

/-- C4 (as amended): for a user with non-empty email, username and password
whose email passes the email check, with `ValidatePassword` enabled
`validateUser` accepts iff `MinPasswordLen ≤ len(Password) ≤ MaxPasswordLen`
(both bounds inclusive, 8 and 72 by default); it returns "password is too
short" when the length is below the minimum and "password is too long" when
the length is not below the minimum and above the maximum; with
`ValidatePassword` disabled every non-empty password is accepted. -/
theorem validateUser_password_length (options : UseCaseOptions) (user : User)
    (he : user.Email ≠ "") (hu : user.Username ≠ "") (hp : user.Password ≠ "")
    (hm : options.ValidateEmail = true → emailRegex.MatchString user.Email = true) :
    (options.ValidatePassword = true →
      (validateUser options user = none ↔
        options.MinPasswordLen ≤ goLen user.Password ∧
          goLen user.Password ≤ options.MaxPasswordLen) ∧
      (goLen user.Password < options.MinPasswordLen →
        validateUser options user = some (.new "password is too short")) ∧
      (options.MinPasswordLen ≤ goLen user.Password →
        goLen user.Password > options.MaxPasswordLen →
        validateUser options user = some (.new "password is too long"))) ∧
    (options.ValidatePassword = false → validateUser options user = none) ∧
    defaultOptions.ValidatePassword = true ∧
    defaultOptions.MinPasswordLen = 8 ∧ defaultOptions.MaxPasswordLen = 72 := by
  have hfmt : (options.ValidateEmail && !emailRegex.MatchString user.Email) = false := by
    cases hv : options.ValidateEmail with
    | false => rfl
    | true => simp [hm hv]
  rw [validateUser_of_fields he hu hp, hfmt]
  refine ⟨?_, ?_, rfl, rfl, rfl⟩
  · intro hv
    simp only [hv, Bool.false_eq_true, if_false, if_true]
    refine ⟨?_, ?_, ?_⟩
    · constructor
      · intro h
        by_cases h1 : goLen user.Password < options.MinPasswordLen
        · simp [h1] at h
        · by_cases h2 : goLen user.Password > options.MaxPasswordLen
          · simp [h1, h2] at h
          · exact ⟨not_lt.1 h1, not_lt.1 h2⟩
      · rintro ⟨h1, h2⟩
        simp [not_lt.2 h1, not_lt.2 h2]
    · intro h1
      simp [h1]
    · intro h1 h2
      simp [not_lt.2 h1, h2]
  · intro hv
    simp [hv]

/-- C4, witness: the default bounds on a password of eight bytes. -/
theorem validateUser_password_length_witness :
    validateUser defaultOptions
      { ID := 0, Email := "a@b.com", Username := "a", Password := "12345678", FullName := "",
        Phone := "", IsActive := true, CreatedAt := zeroTime, UpdatedAt := zeroTime } = none :=
  ((validateUser_password_length defaultOptions
      { ID := 0, Email := "a@b.com", Username := "a", Password := "12345678", FullName := "",
        Phone := "", IsActive := true, CreatedAt := zeroTime, UpdatedAt := zeroTime }
      (by decide) (by decide) (by decide) (fun _ => by decide)).1 rfl).1.2
    ⟨by decide, by decide⟩

/-- C4, counterexample: with the bounds `(10, 5)` a password of seven bytes is
longer than the maximum, and `validateUser` returns "password is too short",
not "password is too long". -/
theorem validateUser_too_long_counterexample :
    ¬ (goLen "1234567" > 5 →
      validateUser
        { ValidateEmail := true, ValidatePassword := true, MinPasswordLen := 10,
          MaxPasswordLen := 5 }
        { ID := 0, Email := "a@b.com", Username := "a", Password := "1234567", FullName := "",
          Phone := "", IsActive := true, CreatedAt := zeroTime, UpdatedAt := zeroTime }
        = some (.new "password is too long")) := by
  decide

/-- C5: for a user with non-empty email, username and password, with
`ValidateEmail` enabled `validateUser` returns "invalid email format" iff the
email is not of the shape `local@domain.tld` (`EmailShape`); an email of that
shape contains exactly one `@` and ends in a dot followed by two or more
letters; with `ValidateEmail` disabled `validateUser` never returns "invalid
email format". -/
theorem validateUser_email_format (options : UseCaseOptions) (user : User)
    (he : user.Email ≠ "") (hu : user.Username ≠ "") (hp : user.Password ≠ "") :
    (options.ValidateEmail = true →
      (validateUser options user = some (.new "invalid email format") ↔
        ¬ EmailShape user.Email)) ∧
    (EmailShape user.Email →
      user.Email.toList.count '@' = 1 ∧
      ∃ front tld : List Char, user.Email.toList = front ++ '.' :: tld ∧
        2 ≤ tld.length ∧ ∀ c ∈ tld, isLetter c = true) ∧
    (options.ValidateEmail = false →
      validateUser options user ≠ some (.new "invalid email format")) := by
  rw [validateUser_of_fields he hu hp]
  refine ⟨?_, fun h => ⟨EmailShape_count_at user.Email h, EmailShape_suffix user.Email h⟩, ?_⟩
  · intro hv
    rw [← MatchString_emailRegex_iff]
    cases hmatch : emailRegex.MatchString user.Email with
    | true =>
      simp only [hv, Bool.not_true, Bool.and_false, Bool.false_eq_true, if_false,
        not_true_eq_false, iff_false]
      split
      · split
        · decide
        · split <;> decide
      · decide
    | false => simp [hv]
  · intro hv
    simp only [hv, Bool.false_and, Bool.false_eq_true, if_false]
    split
    · split
      · decide
      · split <;> decide
    · decide

/-- C5, witness: `a@b.com` is accepted under the default options. -/
theorem validateUser_email_format_witness :
    EmailShape "a@b.com" :=
  not_not.1 (fun h =>
    absurd
      (((validateUser_email_format defaultOptions
        { ID := 0, Email := "a@b.com", Username := "a", Password := "12345678", FullName := "",
          Phone := "", IsActive := true, CreatedAt := zeroTime, UpdatedAt := zeroTime }
        (by decide) (by decide) (by decide)).1 rfl).2 h)
      (by decide))

/-! ## CreateUser -/

/-- C3: whatever the options, `validateUser` returns "email is required" for
an empty email, else "username is required" for an empty username, else
"password is required" for an empty password; and `CreateUser` returns that
error with the record and the world untouched and no interface call made. -/
theorem validateUser_required_fields {ω : Type} (uc : userUseCase ω) (user : User) (w : ω) :
    (user.Email = "" → validateUser uc.options user = some (.new "email is required")) ∧
    (user.Email ≠ "" → user.Username = "" →
      validateUser uc.options user = some (.new "username is required")) ∧
    (user.Email ≠ "" → user.Username ≠ "" → user.Password = "" →
      validateUser uc.options user = some (.new "password is required")) ∧
    (user.Email = "" ∨ user.Username = "" ∨ user.Password = "" →
      (CreateUser uc user w).err = validateUser uc.options user ∧
      (CreateUser uc user w).err ≠ none ∧
      (CreateUser uc user w).user = user ∧
      (CreateUser uc user w).world = w ∧
      (CreateUser uc user w).calls = []) := by
  refine ⟨?_, ?_, ?_, ?_⟩
  · intro he
    simp [validateUser, he]
  · intro he hu
    simp [validateUser, he, hu]
  · intro he hu hp
    simp [validateUser, he, hu, hp]
  · intro h
    have hv : ∃ e, validateUser uc.options user = some e := by
      by_cases he : user.Email = ""
      · exact ⟨.new "email is required", by simp [validateUser, he]⟩
      · by_cases hu : user.Username = ""
        · exact ⟨.new "username is required", by simp [validateUser, he, hu]⟩
        · have hp : user.Password = "" := by tauto
          exact ⟨.new "password is required", by simp [validateUser, he, hu, hp]⟩
    obtain ⟨e, hv⟩ := hv
    simp [CreateUser, hv]

/-- C3, witness: a record without email under the default options, over the
relational backend with an empty table. -/
theorem validateUser_required_fields_witness :
    (CreateUser
      (⟨NewUserRepository, ⟨fun p w => ((p, none), w), fun _ _ => none⟩, defaultOptions⟩ :
        userUseCase (World GormDB))
      { ID := 0, Email := "", Username := "a", Password := "12345678", FullName := "",
        Phone := "", IsActive := true, CreatedAt := zeroTime, UpdatedAt := zeroTime }
      ⟨⟨[], 0, none⟩, ⟨[]⟩, [], [], []⟩).calls = [] :=
  ((validateUser_required_fields
      (⟨NewUserRepository, ⟨fun p w => ((p, none), w), fun _ _ => none⟩, defaultOptions⟩ :
        userUseCase (World GormDB))
      { ID := 0, Email := "", Username := "a", Password := "12345678", FullName := "",
        Phone := "", IsActive := true, CreatedAt := zeroTime, UpdatedAt := zeroTime }
      ⟨⟨[], 0, none⟩, ⟨[]⟩, [], [], []⟩).2.2.2 (Or.inl rfl)).2.2.2.2

/-! ## A second create with the same email -/

theorem CreateUser_ok_inv {ω : Type} (uc : userUseCase ω) (user : User) (w : ω)
    (h : (CreateUser uc user w).err = none) :
    ∃ (d : String) (w3 : ω),
      (uc.userRepo.Create { user with Password := d } w3).1.2 = none ∧
      (CreateUser uc user w).world = (uc.userRepo.Create { user with Password := d } w3).2 := by
  cases hv : validateUser uc.options user with
  | some e => simp [CreateUser, hv] at h
  | none =>
    simp only [CreateUser, hv] at h ⊢
    by_cases c1 : (uc.userRepo.GetByEmail user.Email w).1.2 = none ∧
        (uc.userRepo.GetByEmail user.Email w).1.1 ≠ none
    · rw [if_pos c1] at h
      exact absurd h (by simp)
    · rw [if_neg c1] at h ⊢
      by_cases c2 : (uc.userRepo.GetByUsername user.Username
          (uc.userRepo.GetByEmail user.Email w).2).1.2 = none ∧
          (uc.userRepo.GetByUsername user.Username
            (uc.userRepo.GetByEmail user.Email w).2).1.1 ≠ none
      · rw [if_pos c2] at h
        exact absurd h (by simp)
      · rw [if_neg c2] at h ⊢
        cases hh : (uc.passwordHasher.Hash user.Password
            (uc.userRepo.GetByUsername user.Username
              (uc.userRepo.GetByEmail user.Email w).2).2).1.2 with
        | some e =>
          simp only [hh] at h
          exact absurd h (by simp)
        | none =>
          simp only [hh] at h ⊢
          exact ⟨_, _, h, rfl⟩

theorem CreateUser_email_taken {ω : Type} (uc : userUseCase ω) (user : User) (w : ω)
    (h : ∃ existing, uc.userRepo.GetByEmail user.Email w = ((some existing, none), w)) :
    (CreateUser uc user w).err ≠ none ∧
    (validateUser uc.options user = none →
      (CreateUser uc user w).err = some (.new "user with this email already exists") ∧
      (CreateUser uc user w).calls = [.GetByEmail user.Email]) := by
  obtain ⟨existing, h⟩ := h
  cases hv : validateUser uc.options user with
  | some e => simp [CreateUser, hv]
  | none => simp [CreateUser, hv, h]

theorem leastID_ne_none (rows : List User) (h : rows ≠ []) : leastID rows ≠ none := by
  cases rows with
  | nil => exact absurd rfl h
  | cons r rows =>
    simp only [leastID]
    split
    · simp
    · split <;> simp

theorem gormCreate_ok (user : User) (w : World GormDB) (h : (gormCreate user w).1.2 = none) :
    (gormCreate user w).2.db.fault = none ∧
    ∃ r ∈ (gormCreate user w).2.db.users, r.Email = user.Email := by
  revert h
  cases hf : w.db.fault with
  | some e =>
    intro h
    simp only [gormCreate, hf] at h
    exact absurd h (by simp)
  | none =>
    by_cases hdup : w.timeNow.2.db.conflicts
        (if user.ID = 0 then w.timeNow.2.db.lastID + 1 else user.ID) user.Email user.Username
        = true
    · intro h
      simp only [gormCreate, hf, hdup, if_true] at h
      exact absurd h (by simp [pgUniqueViolation])
    · intro _
      simp only [gormCreate, hf, hdup, Bool.false_eq_true, if_false]
      exact ⟨hf, _, List.mem_append_right _ (List.mem_singleton_self _), rfl⟩

theorem userRepositoryImpl_Create_ok (user : User) (w : World GormDB)
    (h : (userRepositoryImpl.Create user w).1.2 = none) :
    (userRepositoryImpl.Create user w).2.db.fault = none ∧
    ∃ r ∈ (userRepositoryImpl.Create user w).2.db.users, r.Email = user.Email := by
  revert h
  cases hc : (gormCreate user w).1.2 with
  | some e =>
    intro h
    simp only [userRepositoryImpl.Create, hc] at h
    exact absurd h (by simp)
  | none =>
    intro _
    simp only [userRepositoryImpl.Create, hc, World.Notify]
    exact gormCreate_ok user w hc

theorem userRepositoryImpl_GetByEmail_found (email : String) (w : World GormDB)
    (hf : w.db.fault = none) (h : ∃ r ∈ w.db.users, r.Email = email) :
    ∃ existing, userRepositoryImpl.GetByEmail email w = ((some existing, none), w) := by
  obtain ⟨r, hr, he⟩ := h
  have hne : w.db.users.filter (fun r => decide (r.Email = email)) ≠ [] := by
    intro hnil
    have : r ∈ w.db.users.filter (fun r => decide (r.Email = email)) := by
      simp [List.mem_filter, hr, he]
    rw [hnil] at this
    exact absurd this (List.not_mem_nil r)
  have hl := leastID_ne_none _ hne
  cases hx : leastID (w.db.users.filter (fun r => decide (r.Email = email))) with
  | none => exact absurd hx hl
  | some x =>
    refine ⟨x, ?_⟩
    simp [userRepositoryImpl.GetByEmail, gormFirst, hf, hx]

theorem CreateUser_twice_relational (hasher : PasswordHasher (World GormDB))
    (options : UseCaseOptions) (first second : User) (w : World GormDB)
    (hok : (CreateUser ⟨NewUserRepository, hasher, options⟩ first w).err = none)
    (hsame : second.Email = first.Email) :
    (CreateUser ⟨NewUserRepository, hasher, options⟩ second
      (CreateUser ⟨NewUserRepository, hasher, options⟩ first w).world).err ≠ none ∧
    (validateUser options second = none →
      (CreateUser ⟨NewUserRepository, hasher, options⟩ second
        (CreateUser ⟨NewUserRepository, hasher, options⟩ first w).world).err =
          some (.new "user with this email already exists")) := by
  obtain ⟨d, w3, hc, hw⟩ := CreateUser_ok_inv _ first w hok
  have hcreated := userRepositoryImpl_Create_ok { first with Password := d } w3 hc
  have hfound := userRepositoryImpl_GetByEmail_found second.Email
    (CreateUser ⟨NewUserRepository, hasher, options⟩ first w).world
    (by rw [hw]; exact hcreated.1)
    (by rw [hw, hsame]; exact hcreated.2)
  have := CreateUser_email_taken ⟨NewUserRepository, hasher, options⟩ second _ hfound
  exact ⟨this.1, fun hv => (this.2 hv).1⟩

theorem mongoInsertOne_ok (doc : MongoUser) (w : World MongoCollection)
    (h : (mongoInsertOne doc w).1.2 = none) :
    (mongoInsertOne doc w).2.db.fault = none ∧
    ∃ d ∈ (mongoInsertOne doc w).2.db.docs, d.Email = doc.Email := by
  revert h
  cases hf : (mongoEnsureID doc w).2.db.fault with
  | some e =>
    intro h
    simp only [mongoInsertOne, hf] at h
    exact absurd h (by simp)
  | none =>
    by_cases hdup : (mongoEnsureID doc w).2.db.conflicts (mongoEnsureID doc w).1
        doc.Email doc.Username = true
    · intro h
      simp only [mongoInsertOne, hf, hdup, if_true] at h
      exact absurd h (by simp [mongoDuplicateKey])
    · intro _
      simp only [mongoInsertOne, hf, hdup, Bool.false_eq_true, if_false]
      exact ⟨trivial, _, List.mem_append_right _ (List.mem_singleton_self _), rfl⟩

theorem fromEntity_Email (user : User) (w : World MongoCollection) :
    (fromEntity user w).1.Email = user.Email := by
  unfold fromEntity
  split <;> rfl

theorem userRepositoryMongo_Create_ok (user : User) (w : World MongoCollection)
    (h : (userRepositoryMongo.Create user w).1.2 = none) :
    (userRepositoryMongo.Create user w).2.db.fault = none ∧
    ∃ d ∈ (userRepositoryMongo.Create user w).2.db.docs, d.Email = user.Email := by
  revert h
  simp only [userRepositoryMongo.Create]
  generalize hdoc : ({ (fromEntity user w).1 with
      ID := (NewObjectID (fromEntity user w).2).1
      CreatedAt := (NewObjectID (fromEntity user w).2).2.timeNow.1
      UpdatedAt := (NewObjectID (fromEntity user w).2).2.timeNow.2.timeNow.1 } : MongoUser) = doc
  have hmail : doc.Email = user.Email := by
    rw [← hdoc]
    exact fromEntity_Email user w
  generalize (NewObjectID (fromEntity user w).2).2.timeNow.2.timeNow.2 = w1
  cases hi : (mongoInsertOne doc w1).1.2 with
  | some e =>
    intro h
    exact absurd h (by simp)
  | none =>
    intro _
    simp only [World.Notify]
    rw [← hmail]
    exact mongoInsertOne_ok doc w1 hi

theorem userRepositoryMongo_GetByEmail_found (email : String) (w : World MongoCollection)
    (hf : w.db.fault = none) (h : ∃ d ∈ w.db.docs, d.Email = email) :
    ∃ existing, userRepositoryMongo.GetByEmail email w = ((some existing, none), w) := by
  obtain ⟨d, hd, he⟩ := h
  have hsome : (w.db.docs.find?
      ({ MongoFilter.empty with email := some email } : MongoFilter).holds).isSome = true := by
    rw [List.find?_isSome]
    exact ⟨d, hd, by simp [MongoFilter.holds, MongoFilter.empty, he]⟩
  obtain ⟨x, hx⟩ := Option.isSome_iff_exists.1 hsome
  refine ⟨x.toEntity, ?_⟩
  simp [userRepositoryMongo.GetByEmail, mongoFindOne, hf, hx]

theorem CreateUser_twice_document (hasher : PasswordHasher (World MongoCollection))
    (options : UseCaseOptions) (first second : User) (w : World MongoCollection)
    (hok : (CreateUser ⟨NewUserRepositoryMongo, hasher, options⟩ first w).err = none)
    (hsame : second.Email = first.Email) :
    (CreateUser ⟨NewUserRepositoryMongo, hasher, options⟩ second
      (CreateUser ⟨NewUserRepositoryMongo, hasher, options⟩ first w).world).err ≠ none ∧
    (validateUser options second = none →
      (CreateUser ⟨NewUserRepositoryMongo, hasher, options⟩ second
        (CreateUser ⟨NewUserRepositoryMongo, hasher, options⟩ first w).world).err =
          some (.new "user with this email already exists")) := by
  obtain ⟨d, w3, hc, hw⟩ := CreateUser_ok_inv _ first w hok
  have hcreated := userRepositoryMongo_Create_ok { first with Password := d } w3 hc
  have hfound := userRepositoryMongo_GetByEmail_found second.Email
    (CreateUser ⟨NewUserRepositoryMongo, hasher, options⟩ first w).world
    (by rw [hw]; exact hcreated.1)
    (by rw [hw, hsame]; exact hcreated.2)
  have := CreateUser_email_taken ⟨NewUserRepositoryMongo, hasher, options⟩ second _ hfound
  exact ⟨this.1, fun hv => (this.2 hv).1⟩

/-- C2: for an input that passes `validateUser`, if the lookup by email
returns a user, `CreateUser` fails with "user with this email already
exists"; otherwise, if the lookup by username returns a user, it fails with
"user with this username already exists"; in both cases the record is left
as it was and neither `Hash` nor `Create` is called. In particular, in either
backend, after a first create with email `e` succeeded, a second create with
email `e` fails, whatever its username. -/
theorem CreateUser_conflict {ω : Type} (uc : userUseCase ω) (user : User) (w : ω)
    (hvalid : validateUser uc.options user = none) :
    (∀ (existing : User) (w1 : ω),
      uc.userRepo.GetByEmail user.Email w = ((some existing, none), w1) →
      (CreateUser uc user w).err = some (.new "user with this email already exists") ∧
      (CreateUser uc user w).user = user ∧
      (CreateUser uc user w).world = w1 ∧
      (CreateUser uc user w).calls = [.GetByEmail user.Email]) ∧
    (∀ (existing1 : Option User) (err1 : Option GoError) (existing : User) (w1 w2 : ω),
      uc.userRepo.GetByEmail user.Email w = ((existing1, err1), w1) →
      (existing1 = none ∨ err1 ≠ none) →
      uc.userRepo.GetByUsername user.Username w1 = ((some existing, none), w2) →
      (CreateUser uc user w).err = some (.new "user with this username already exists") ∧
      (CreateUser uc user w).user = user ∧
      (CreateUser uc user w).world = w2 ∧
      (CreateUser uc user w).calls =
        [.GetByEmail user.Email, .GetByUsername user.Username]) ∧
    (∀ (hasher : PasswordHasher (World GormDB)) (options : UseCaseOptions)
      (first second : User) (w0 : World GormDB),
      (CreateUser ⟨NewUserRepository, hasher, options⟩ first w0).err = none →
      second.Email = first.Email →
      (CreateUser ⟨NewUserRepository, hasher, options⟩ second
        (CreateUser ⟨NewUserRepository, hasher, options⟩ first w0).world).err ≠ none) ∧
    (∀ (hasher : PasswordHasher (World MongoCollection)) (options : UseCaseOptions)
      (first second : User) (w0 : World MongoCollection),
      (CreateUser ⟨NewUserRepositoryMongo, hasher, options⟩ first w0).err = none →
      second.Email = first.Email →
      (CreateUser ⟨NewUserRepositoryMongo, hasher, options⟩ second
        (CreateUser ⟨NewUserRepositoryMongo, hasher, options⟩ first w0).world).err ≠ none) := by
  refine ⟨?_, ?_, ?_, ?_⟩
  · intro existing w1 hemail
    simp [CreateUser, hvalid, hemail]
  · intro existing1 err1 existing w1 w2 hemail hnone1 husername
    have h1 : ¬ (err1 = none ∧ existing1 ≠ none) := by
      rintro ⟨ha, hb⟩
      rcases hnone1 with h | h
      · exact hb h
      · exact h ha
    simp [CreateUser, hvalid, hemail, h1, husername]
  · intro hasher options first second w0 hok hsame
    exact (CreateUser_twice_relational hasher options first second w0 hok hsame).1
  · intro hasher options first second w0 hok hsame
    exact (CreateUser_twice_document hasher options first second w0 hok hsame).1

/-- C2, witness: over the relational backend, the sample user is created and
a second record with the same email and another username is refused. -/
theorem CreateUser_conflict_witness :
    (CreateUser relationalUseCase sampleUser emptyRelational).err = none ∧
    (CreateUser relationalUseCase { sampleUser with Username := "b" }
      (CreateUser relationalUseCase sampleUser emptyRelational).world).err =
        some (.new "user with this email already exists") :=
  ⟨by decide,
    ((CreateUser_conflict relationalUseCase { sampleUser with Username := "b" }
      (CreateUser relationalUseCase sampleUser emptyRelational).world (by decide)).1
      { ID := 1, Email := "a@b.com", Username := "a", Password := "#longenough1",
        FullName := "", Phone := "", IsActive := true, CreatedAt := 1000000000,
        UpdatedAt := 1000000000 }
      (CreateUser relationalUseCase sampleUser emptyRelational).world rfl).1⟩

/-! ## UpdateUser -/

/-- C6: for a record whose `ID` is found with stored hash `h`, `UpdateUser`
called with `Password = ""`, or with `Password = h`, makes two interface
calls, `GetByID` and `Update`, so the hasher is not invoked; the record
handed to `Update` has `Password = h`; and a plaintext that `Compare`
accepts against `h` is accepted against the password of that record. -/
theorem UpdateUser_keeps_hash {ω : Type} (uc : userUseCase ω) (user : User) (w w1 : ω)
    (existing : User)
    (hfound : uc.userRepo.GetByID user.ID w = ((some existing, none), w1))
    (hpw : user.Password = "" ∨ user.Password = existing.Password) :
    UpdateUser uc user w =
      some
        ⟨(uc.userRepo.Update { user with Password := existing.Password } w1).1.2,
          (uc.userRepo.Update { user with Password := existing.Password } w1).1.1,
          (uc.userRepo.Update { user with Password := existing.Password } w1).2,
          [.GetByID user.ID, .Update { user with Password := existing.Password }]⟩ ∧
    ({ user with Password := existing.Password } : User).Password = existing.Password ∧
    (∀ plaintext : String,
      uc.passwordHasher.Compare existing.Password plaintext = none →
      uc.passwordHasher.Compare
        ({ user with Password := existing.Password } : User).Password plaintext = none) := by
  refine ⟨?_, rfl, fun _ h => h⟩
  have hc : ¬ (user.Password ≠ "" ∧ user.Password ≠ existing.Password) := by
    rintro ⟨ha, hb⟩
    rcases hpw with h | h
    · exact ha h
    · exact hb h
  simp only [UpdateUser, hfound]
  rw [if_neg hc]

/-- C6, witness: the stored sample user updated with an empty password. -/
theorem UpdateUser_keeps_hash_witness :
    ∃ out, UpdateUser relationalUseCase { sampleRow with Password := "", FullName := "A" }
        oneUserRelational = some out ∧
      out.calls = [.GetByID 1, .Update { sampleRow with FullName := "A" }] :=
  ⟨_, (UpdateUser_keeps_hash relationalUseCase { sampleRow with Password := "", FullName := "A" }
      oneUserRelational oneUserRelational sampleRow rfl (Or.inl rfl)).1, rfl⟩

/-- C7: for a record whose `ID` is found with stored hash `h`, when the
incoming password `p` is non-empty and differs from `h`: if the hasher
returns the digest `d`, the interface calls are `GetByID`, one `Hash` of `p`
and one `Update`, the record handed to `Update` has `Password = d`, and if
`Compare` accepts `p` against `d`, it accepts `p` against the password of
that record; if the hasher fails, `UpdateUser` returns its error, the record
is left as it was and `Update` is not called. -/
theorem UpdateUser_rehashes {ω : Type} (uc : userUseCase ω) (user : User) (w w1 : ω)
    (existing : User)
    (hfound : uc.userRepo.GetByID user.ID w = ((some existing, none), w1))
    (hne : user.Password ≠ "") (hchanged : user.Password ≠ existing.Password) :
    (∀ (d : String) (w2 : ω),
      uc.passwordHasher.Hash user.Password w1 = ((d, none), w2) →
      UpdateUser uc user w =
        some
          ⟨(uc.userRepo.Update { user with Password := d } w2).1.2,
            (uc.userRepo.Update { user with Password := d } w2).1.1,
            (uc.userRepo.Update { user with Password := d } w2).2,
            [.GetByID user.ID, .Hash user.Password, .Update { user with Password := d }]⟩ ∧
      ({ user with Password := d } : User).Password = d ∧
      (uc.passwordHasher.Compare d user.Password = none →
        uc.passwordHasher.Compare ({ user with Password := d } : User).Password
          user.Password = none)) ∧
    (∀ (d : String) (err : GoError) (w2 : ω),
      uc.passwordHasher.Hash user.Password w1 = ((d, some err), w2) →
      UpdateUser uc user w =
        some ⟨some err, user, w2, [.GetByID user.ID, .Hash user.Password]⟩) := by
  have hc : user.Password ≠ "" ∧ user.Password ≠ existing.Password := ⟨hne, hchanged⟩
  constructor
  · intro d w2 hhash
    refine ⟨?_, rfl, fun h => h⟩
    simp only [UpdateUser, hfound]
    rw [if_pos hc]
    simp only [hhash]
  · intro d err w2 hhash
    simp only [UpdateUser, hfound]
    rw [if_pos hc]
    simp only [hhash]

/-- C7, witness: the stored sample user updated with a new password. -/
theorem UpdateUser_rehashes_witness :
    ∃ out, UpdateUser relationalUseCase { sampleRow with Password := "newpassword1" }
        oneUserRelational = some out ∧
      out.calls =
        [.GetByID 1, .Hash "newpassword1", .Update { sampleRow with Password := "#newpassword1" }] ∧
      sampleHasher.Compare (ω := World GormDB) "#newpassword1" "newpassword1" = none :=
  ⟨_, ((UpdateUser_rehashes relationalUseCase { sampleRow with Password := "newpassword1" }
      oneUserRelational oneUserRelational sampleRow rfl (by decide) (by decide)).1
        "#newpassword1" oneUserRelational rfl).1, rfl, by decide⟩

/-- C8: when `GetByID` returns an error for the record's `ID`, `UpdateUser`
returns "user not found" if that error is (or wraps) gorm's record-not-found
error and the error itself otherwise; the record is left as it was, the only
interface call is `GetByID`, so neither `Hash` nor `Update` is called; and in
both backends `GetByID` leaves the rows or documents, the observers and the
record of published events as they were. -/
theorem UpdateUser_absent_id {ω : Type} (uc : userUseCase ω) (user : User) (w w1 : ω)
    (found : Option User) (err : GoError)
    (hfound : uc.userRepo.GetByID user.ID w = ((found, some err), w1)) :
    UpdateUser uc user w =
      some
        ⟨some (if errorsIs err .gormErrRecordNotFound then .new "user not found" else err),
          user, w1, [.GetByID user.ID]⟩ ∧
    (∀ (id : Nat) (w0 : World GormDB), (NewUserRepository.GetByID id w0).2 = w0) ∧
    (∀ (id : Nat) (w0 : World MongoCollection),
      (NewUserRepositoryMongo.GetByID id w0).2.db.docs = w0.db.docs ∧
      (NewUserRepositoryMongo.GetByID id w0).2.subject = w0.subject ∧
      (NewUserRepositoryMongo.GetByID id w0).2.notified = w0.notified ∧
      (NewUserRepositoryMongo.GetByID id w0).2.spawned = w0.spawned) := by
  refine ⟨?_, ?_, ?_⟩
  · simp only [UpdateUser, hfound]
    split <;> rfl
  · intro id w0
    simp only [NewUserRepository, userRepositoryImpl.GetByID]
    split <;> rfl
  · intro id w0
    simp only [NewUserRepositoryMongo, userRepositoryMongo.GetByID]
    split <;> exact ⟨rfl, rfl, rfl, rfl⟩

/-- C8, witness: an update of id 5 over the empty relational backend. -/
theorem UpdateUser_absent_id_witness :
    UpdateUser relationalUseCase { sampleRow with ID := 5 } emptyRelational =
      some ⟨some (.new "user not found"), { sampleRow with ID := 5 }, emptyRelational,
        [.GetByID 5]⟩ :=
  (UpdateUser_absent_id relationalUseCase { sampleRow with ID := 5 } emptyRelational
    emptyRelational none .gormErrRecordNotFound rfl).1

/-! ## DeleteUser -/

theorem userRepositoryImpl_Delete_absent (id : Nat) (w : World GormDB)
    (hf : w.db.fault = none) (habsent : ∀ r ∈ w.db.users, r.ID ≠ id) :
    userRepositoryImpl.Delete id w = (none, w.Notify ⟨.UserDeleted, .id id⟩) := by
  obtain ⟨⟨users, lastID, fault⟩, subject, notified, spawned, clock⟩ := w
  simp only at hf habsent
  subst hf
  have hkeep : users.filter (fun r => decide (r.ID ≠ id)) = users := by
    rw [List.filter_eq_self]
    intro r hr
    simpa using habsent r hr
  simp only [userRepositoryImpl.Delete, gormDelete, hkeep]

theorem userRepositoryMongo_Delete_absent (id : Nat) (w : World MongoCollection)
    (hf : w.db.fault = none)
    (habsent : ∀ d ∈ w.db.docs, d.ID.timestamp ≠ toUint32 (toInt64 id)) :
    (userRepositoryMongo.Delete id w).1 = some .mongoErrNoDocuments ∧
    (userRepositoryMongo.Delete id w).2.db.docs = w.db.docs ∧
    (userRepositoryMongo.Delete id w).2.notified = w.notified ∧
    (userRepositoryMongo.Delete id w).2.spawned = w.spawned := by
  have hnone : (NewObjectIDFromTimestamp (toInt64 id) w).2.db.docs.find?
      ({ MongoFilter.empty with
          _id := some (NewObjectIDFromTimestamp (toInt64 id) w).1 } : MongoFilter).holds
      = none := by
    rw [List.find?_eq_none]
    intro d hd hholds
    have hd1 : d ∈ w.db.docs := hd
    have hts : d.ID.timestamp = toUint32 (toInt64 id) := by
      simp only [MongoFilter.holds, MongoFilter.empty, Bool.and_true, decide_eq_true_eq]
        at hholds
      rw [hholds]
      rfl
    exact habsent d hd1 hts
  have hf1 : (NewObjectIDFromTimestamp (toInt64 id) w).2.db.fault = none := hf
  have hd : userRepositoryMongo.Delete id w =
      (some .mongoErrNoDocuments, (NewObjectIDFromTimestamp (toInt64 id) w).2) := by
    simp only [userRepositoryMongo.Delete, mongoDeleteOne, hf1, hnone, if_true]
  rw [hd]
  exact ⟨rfl, rfl, rfl, rfl⟩

/-- C9, the relational backend at an id that matches no row: over the empty
table, `DeleteUser 7` returns no error, and `Notify` is called with a deleted
event carrying 7, which starts a delivery to each of the two observers. -/
theorem DeleteUser_relational_absent_id :
    DeleteUser relationalUseCase 7 emptyRelational =
      (none, emptyRelational.Notify ⟨.UserDeleted, .id 7⟩) ∧
    (DeleteUser relationalUseCase 7 emptyRelational).2.notified = [⟨.UserDeleted, .id 7⟩] ∧
    (DeleteUser relationalUseCase 7 emptyRelational).2.spawned =
      [(1, ⟨.UserDeleted, .id 7⟩), (2, ⟨.UserDeleted, .id 7⟩)] := by
  exact ⟨rfl, rfl, rfl⟩

/-! ## ListUsers and CountUsers -/

theorem userRepositoryImpl_Count_eq_length_List (filter : Option UserFilter)
    (w : World GormDB)
    (hpage : ∀ f, filter = some f → f.Limit ≤ 0 ∧ f.Offset ≤ 0) :
    (userRepositoryImpl.Count filter w).1.1 =
      (((userRepositoryImpl.List filter w).1.1.length : Nat) : Int) := by
  cases filter with
  | none =>
    cases hf : w.db.fault <;>
      simp [userRepositoryImpl.Count, userRepositoryImpl.List, GormQuery.Count, GormQuery.Find,
        hf]
  | some f =>
    obtain ⟨hl, ho⟩ := hpage f rfl
    have hl1 : ¬ f.Limit > 0 := not_lt.2 hl
    have ho1 : ¬ f.Offset > 0 := not_lt.2 ho
    obtain ⟨email, username, active, limit, offset⟩ := f
    simp only at hl1 ho1
    cases hf : w.db.fault <;> cases email <;> cases username <;> cases active <;>
      simp [userRepositoryImpl.Count, userRepositoryImpl.List, GormQuery.Count, GormQuery.Find,
        GormQuery.Where, hf, hl1, ho1]

theorem userRepositoryMongo_Count_eq_length_List (filter : Option UserFilter)
    (w : World MongoCollection)
    (hpage : ∀ f, filter = some f → f.Limit ≤ 0 ∧ f.Offset ≤ 0) :
    (userRepositoryMongo.Count filter w).1.1 =
      (((userRepositoryMongo.List filter w).1.1.length : Nat) : Int) := by
  cases filter with
  | none =>
    cases hf : w.db.fault <;>
      simp [userRepositoryMongo.Count, userRepositoryMongo.List, mongoCountDocuments, mongoFind,
        hf]
  | some f =>
    obtain ⟨hl, ho⟩ := hpage f rfl
    have hl1 : ¬ f.Limit > 0 := not_lt.2 hl
    have ho1 : ¬ f.Offset > 0 := not_lt.2 ho
    obtain ⟨email, username, active, limit, offset⟩ := f
    simp only at hl1 ho1
    cases hf : w.db.fault <;> cases email <;> cases username <;> cases active <;>
      simp [userRepositoryMongo.Count, userRepositoryMongo.List, mongoCountDocuments, mongoFind,
        hf, hl1, ho1]

theorem UserFilter.page_length_le (f : UserFilter) (l : List User) :
    (f.page l).length ≤ l.length := by
  simp only [UserFilter.page]
  split <;> split <;> simp [List.length_take, List.length_drop]

theorem userRepositoryImpl_List_page (f : UserFilter) (w : World GormDB) :
    (userRepositoryImpl.List (some f) w).1.1 =
      f.page (userRepositoryImpl.List (some f.withoutPagination) w).1.1 := by
  obtain ⟨email, username, active, limit, offset⟩ := f
  by_cases hl : limit > 0 <;> by_cases ho : offset > 0 <;>
    cases hf : w.db.fault <;> cases email <;> cases username <;> cases active <;>
      simp [userRepositoryImpl.List, GormQuery.Find, GormQuery.Where, GormQuery.Limit,
        GormQuery.Offset, GormQuery.rows, UserFilter.page, UserFilter.withoutPagination,
        hf, hl, ho]

theorem userRepositoryMongo_List_page (f : UserFilter) (w : World MongoCollection) :
    (userRepositoryMongo.List (some f) w).1.1 =
      f.page (userRepositoryMongo.List (some f.withoutPagination) w).1.1 := by
  obtain ⟨email, username, active, limit, offset⟩ := f
  by_cases hl : limit > 0 <;> by_cases ho : offset > 0 <;>
    cases hf : w.db.fault <;> cases email <;> cases username <;> cases active <;>
      simp [userRepositoryMongo.List, mongoFind, UserFilter.page,
        UserFilter.withoutPagination, List.map_take, List.map_drop, hf, hl, ho]

/-- C10 (as amended): in both backends, for every store state and every
filter `f`, paginated or not, `CountUsers f` equals the length of the list
`ListUsers` returns for `f` with its `Limit` and `Offset` cleared, and
`ListUsers f` is the page of that list that `Offset` and `Limit` select, so
it is never longer than the count; hence `CountUsers f` equals the length of
`ListUsers f` when `f` has no pagination (`Limit ≤ 0` and `Offset ≤ 0`), and
for the nil filter; in particular, for the filter `is_active = true` over a
working relational store, the list is the list of the active users and the
count is its length. -/
theorem CountUsers_eq_length_ListUsers (f : UserFilter) :
    (∀ (hasher : PasswordHasher (World GormDB)) (options : UseCaseOptions) (w : World GormDB),
      (CountUsers ⟨NewUserRepository, hasher, options⟩ (some f) w).1.1 =
        (((ListUsers ⟨NewUserRepository, hasher, options⟩
          (some f.withoutPagination) w).1.1.length : Nat) : Int) ∧
      (ListUsers ⟨NewUserRepository, hasher, options⟩ (some f) w).1.1 =
        f.page (ListUsers ⟨NewUserRepository, hasher, options⟩
          (some f.withoutPagination) w).1.1 ∧
      (((ListUsers ⟨NewUserRepository, hasher, options⟩ (some f) w).1.1.length : Nat) : Int) ≤
        (CountUsers ⟨NewUserRepository, hasher, options⟩ (some f) w).1.1 ∧
      (f.Limit ≤ 0 ∧ f.Offset ≤ 0 →
        (CountUsers ⟨NewUserRepository, hasher, options⟩ (some f) w).1.1 =
          (((ListUsers ⟨NewUserRepository, hasher, options⟩ (some f) w).1.1.length : Nat) :
            Int)) ∧
      (CountUsers ⟨NewUserRepository, hasher, options⟩ none w).1.1 =
        (((ListUsers ⟨NewUserRepository, hasher, options⟩ none w).1.1.length : Nat) : Int)) ∧
    (∀ (hasher : PasswordHasher (World MongoCollection)) (options : UseCaseOptions)
      (w : World MongoCollection),
      (CountUsers ⟨NewUserRepositoryMongo, hasher, options⟩ (some f) w).1.1 =
        (((ListUsers ⟨NewUserRepositoryMongo, hasher, options⟩
          (some f.withoutPagination) w).1.1.length : Nat) : Int) ∧
      (ListUsers ⟨NewUserRepositoryMongo, hasher, options⟩ (some f) w).1.1 =
        f.page (ListUsers ⟨NewUserRepositoryMongo, hasher, options⟩
          (some f.withoutPagination) w).1.1 ∧
      (((ListUsers ⟨NewUserRepositoryMongo, hasher, options⟩ (some f) w).1.1.length : Nat) :
          Int) ≤
        (CountUsers ⟨NewUserRepositoryMongo, hasher, options⟩ (some f) w).1.1 ∧
      (f.Limit ≤ 0 ∧ f.Offset ≤ 0 →
        (CountUsers ⟨NewUserRepositoryMongo, hasher, options⟩ (some f) w).1.1 =
          (((ListUsers ⟨NewUserRepositoryMongo, hasher, options⟩ (some f) w).1.1.length :
            Nat) : Int)) ∧
      (CountUsers ⟨NewUserRepositoryMongo, hasher, options⟩ none w).1.1 =
        (((ListUsers ⟨NewUserRepositoryMongo, hasher, options⟩ none w).1.1.length : Nat) :
          Int)) ∧
    (∀ (hasher : PasswordHasher (World GormDB)) (options : UseCaseOptions) (w : World GormDB),
      w.db.fault = none →
      (ListUsers ⟨NewUserRepository, hasher, options⟩
        (some ⟨none, none, some true, 0, 0⟩) w).1.1 =
          w.db.users.filter (fun r => r.IsActive) ∧
      (CountUsers ⟨NewUserRepository, hasher, options⟩
        (some ⟨none, none, some true, 0, 0⟩) w).1.1 =
          (((w.db.users.filter (fun r => r.IsActive)).length : Nat) : Int)) := by
  refine ⟨?_, ?_, ?_⟩
  · intro hasher options w
    have h1 : (userRepositoryImpl.Count (some f) w).1.1 =
        (((userRepositoryImpl.List (some f.withoutPagination) w).1.1.length : Nat) : Int) :=
      userRepositoryImpl_Count_eq_length_List (some f.withoutPagination) w
        (fun g hg => by cases hg; exact ⟨le_refl _, le_refl _⟩)
    have h2 := userRepositoryImpl_List_page f w
    refine ⟨h1, h2, ?_, ?_, ?_⟩
    · show (((userRepositoryImpl.List (some f) w).1.1.length : Nat) : Int) ≤
        (userRepositoryImpl.Count (some f) w).1.1
      rw [h1, h2]
      exact Int.ofNat_le.2 (UserFilter.page_length_le f _)
    · intro hp
      exact userRepositoryImpl_Count_eq_length_List (some f) w
        (fun g hg => by cases hg; exact hp)
    · exact userRepositoryImpl_Count_eq_length_List none w (fun g hg => by cases hg)
  · intro hasher options w
    have h1 : (userRepositoryMongo.Count (some f) w).1.1 =
        (((userRepositoryMongo.List (some f.withoutPagination) w).1.1.length : Nat) : Int) :=
      userRepositoryMongo_Count_eq_length_List (some f.withoutPagination) w
        (fun g hg => by cases hg; exact ⟨le_refl _, le_refl _⟩)
    have h2 := userRepositoryMongo_List_page f w
    refine ⟨h1, h2, ?_, ?_, ?_⟩
    · show (((userRepositoryMongo.List (some f) w).1.1.length : Nat) : Int) ≤
        (userRepositoryMongo.Count (some f) w).1.1
      rw [h1, h2]
      exact Int.ofNat_le.2 (UserFilter.page_length_le f _)
    · intro hp
      exact userRepositoryMongo_Count_eq_length_List (some f) w
        (fun g hg => by cases hg; exact hp)
    · exact userRepositoryMongo_Count_eq_length_List none w (fun g hg => by cases hg)
  · intro hasher options w hf
    simp [ListUsers, CountUsers, NewUserRepository, userRepositoryImpl.Count,
      userRepositoryImpl.List, GormQuery.Count, GormQuery.Find, GormQuery.Where,
      GormQuery.rows, hf]

/-- C10, witness: over the relational backend with two users and the filter
`Limit = 1`, the count is the length of the list for the filter with its
pagination cleared, and the list for the filter is a page of that list. -/
theorem CountUsers_eq_length_ListUsers_witness :
    (CountUsers relationalUseCase (some ⟨none, none, none, 1, 0⟩) twoUsersRelational).1.1 =
      (((ListUsers relationalUseCase
        (some (UserFilter.withoutPagination ⟨none, none, none, 1, 0⟩))
        twoUsersRelational).1.1.length : Nat) : Int) ∧
    (ListUsers relationalUseCase (some ⟨none, none, none, 1, 0⟩) twoUsersRelational).1.1 =
      UserFilter.page ⟨none, none, none, 1, 0⟩
        (ListUsers relationalUseCase
          (some (UserFilter.withoutPagination ⟨none, none, none, 1, 0⟩))
          twoUsersRelational).1.1 :=
  have h := (CountUsers_eq_length_ListUsers ⟨none, none, none, 1, 0⟩).1
    sampleHasher defaultOptions twoUsersRelational
  ⟨h.1, h.2.1⟩

/-- C10, counterexample: over the relational backend with two users and the
filter `Limit = 1`, `CountUsers` is 2 and `ListUsers` returns one user. -/
theorem CountUsers_ne_length_ListUsers :
    (CountUsers relationalUseCase (some ⟨none, none, none, 1, 0⟩) twoUsersRelational).1.1 = 2 ∧
    (ListUsers relationalUseCase (some ⟨none, none, none, 1, 0⟩)
      twoUsersRelational).1.1.length = 1 ∧
    (CountUsers relationalUseCase (some ⟨none, none, none, 1, 0⟩) twoUsersRelational).1.1 ≠
      (((ListUsers relationalUseCase (some ⟨none, none, none, 1, 0⟩)
        twoUsersRelational).1.1.length : Nat) : Int) := by
  refine ⟨by rfl, by rfl, by decide⟩

/-! ## List -/

theorem userRepositoryImpl_List_eq_listSpec (filter : Option UserFilter) (w : World GormDB)
    (hf : w.db.fault = none) :
    userRepositoryImpl.List filter w = ((listSpec filter w.db.users, none), w) := by
  cases filter with
  | none =>
    simp [userRepositoryImpl.List, GormQuery.Find, GormQuery.rows, listSpec, hf]
  | some f =>
    obtain ⟨email, username, active, limit, offset⟩ := f
    simp only [listSpec]
    delta UserFilter.satisfiedBy
    by_cases hl : limit > 0 <;> by_cases ho : offset > 0 <;>
      cases email <;> cases username <;> cases active <;>
      simp [userRepositoryImpl.List, GormQuery.Find, GormQuery.rows, GormQuery.Where,
        GormQuery.Limit, GormQuery.Offset, hf, hl, ho, Bool.and_assoc]

theorem MongoFilter_holds_toEntity (email username : Option String) (active : Option Bool)
    (limit offset : Int) :
    (fun d : MongoUser =>
      UserFilter.satisfiedBy ⟨email, username, active, limit, offset⟩ d.toEntity) =
    (⟨none, email, username, active⟩ : MongoFilter).holds := by
  funext d
  simp [UserFilter.satisfiedBy, MongoFilter.holds, MongoUser.toEntity]

theorem userRepositoryMongo_List_eq_listSpec (filter : Option UserFilter)
    (w : World MongoCollection) (hf : w.db.fault = none) :
    userRepositoryMongo.List filter w =
      ((listSpec filter (w.db.docs.map MongoUser.toEntity), none), w) := by
  cases filter with
  | none =>
    have he : w.db.docs.filter MongoFilter.empty.holds = w.db.docs := by
      rw [List.filter_eq_self]
      intro d _
      simp [MongoFilter.holds, MongoFilter.empty]
    simp [userRepositoryMongo.List, mongoFind, listSpec, hf, he]
  | some f =>
    obtain ⟨email, username, active, limit, offset⟩ := f
    have hmap : (w.db.docs.map MongoUser.toEntity).filter
        (UserFilter.satisfiedBy ⟨email, username, active, limit, offset⟩) =
        (w.db.docs.filter (⟨none, email, username, active⟩ : MongoFilter).holds).map
          MongoUser.toEntity := by
      rw [List.filter_map, ← MongoFilter_holds_toEntity email username active limit offset]
      rfl
    simp only [listSpec, hmap]
    by_cases hl : limit > 0 <;> by_cases ho : offset > 0 <;>
      cases email <;> cases username <;> cases active <;>
      simp [userRepositoryMongo.List, mongoFind, MongoFilter.empty, hf, hl, ho,
        List.map_take, List.map_drop]

theorem mem_listSpec (f : UserFilter) (stored : List User) (u : User)
    (h : u ∈ listSpec (some f) stored) : u ∈ stored ∧ f.satisfiedBy u = true := by
  have hmem : u ∈ stored.filter f.satisfiedBy := by
    simp only [listSpec] at h
    split at h
    · split at h
      · exact List.mem_of_mem_drop (List.mem_of_mem_take h)
      · exact List.mem_of_mem_take h
    · split at h
      · exact List.mem_of_mem_drop h
      · exact h
  exact List.mem_filter.1 hmem

/-- C11: in both backends, over a store that answers, `List(f)` returns
without error the list `listSpec f` of the stored users: those that satisfy
every equality predicate present in `f`, in backend order, the first
`f.Offset` skipped when `f.Offset > 0`, truncated to the first `f.Limit`
when `f.Limit > 0`. Every returned user is a stored user that satisfies every
predicate of `f` (with `is_active = true`, an active one), and a nil filter
returns all users. -/
theorem List_semantics (filter : Option UserFilter) :
    (∀ w : World GormDB, w.db.fault = none →
      userRepositoryImpl.List filter w = ((listSpec filter w.db.users, none), w)) ∧
    (∀ w : World MongoCollection, w.db.fault = none →
      userRepositoryMongo.List filter w =
        ((listSpec filter (w.db.docs.map MongoUser.toEntity), none), w)) ∧
    (∀ (f : UserFilter) (stored : List User) (u : User),
      filter = some f → u ∈ listSpec filter stored →
      u ∈ stored ∧ f.satisfiedBy u = true ∧
      (∀ email, f.Email = some email → u.Email = email) ∧
      (∀ username, f.Username = some username → u.Username = username) ∧
      (∀ active, f.IsActive = some active → u.IsActive = active)) ∧
    (∀ stored : List User, listSpec none stored = stored) := by
  refine ⟨fun w hf => userRepositoryImpl_List_eq_listSpec filter w hf,
    fun w hf => userRepositoryMongo_List_eq_listSpec filter w hf, ?_, fun _ => rfl⟩
  intro f stored u hfilter hu
  subst hfilter
  obtain ⟨hmem, hsat⟩ := mem_listSpec f stored u hu
  refine ⟨hmem, hsat, ?_, ?_, ?_⟩
  · intro email he
    simp only [UserFilter.satisfiedBy, he, Bool.and_eq_true, decide_eq_true_eq] at hsat
    exact hsat.1.1
  · intro username he
    simp only [UserFilter.satisfiedBy, he, Bool.and_eq_true, decide_eq_true_eq] at hsat
    exact hsat.1.2
  · intro active he
    simp only [UserFilter.satisfiedBy, he, Bool.and_eq_true, decide_eq_true_eq] at hsat
    exact hsat.2

/-- C11, witness: the second of two stored users, by `Offset = 1`. -/
theorem List_semantics_witness :
    (userRepositoryImpl.List (some ⟨none, none, some true, 5, 1⟩) twoUsersRelational).1.1.map
      (fun u => u.Email) = ["c@d.org"] :=
  by
    rw [(List_semantics (some ⟨none, none, some true, 5, 1⟩)).1 twoUsersRelational rfl]
    decide

/-! ## Notify -/

theorem count_Notify (observers : List Nat) (e : Event) (o : Nat) :
    (observers.map (fun observer => (observer, e))).count (o, e) = observers.count o := by
  induction observers with
  | nil => rfl
  | cons x xs ih =>
    by_cases hx : x = o
    · subst hx
      simp [ih]
    · have hne : ((x, e) == (o, e)) = false := by
        simp [hx]
      have hne2 : (x == o) = false := by simp [hx]
      simp only [List.map_cons, List.count_cons, hne, hne2, ih]

/-- C12: `Notify(e)` starts one delivery of `e` per entry of the listener
list, in list order: each listener gets as many deliveries as it has entries,
a listener that is not in the list gets none, every delivery carries `e`,
and the listener list is left as it was; after two distinct listeners are
attached to a new subject, one `Notify` starts exactly one delivery of the
event to each of the two. -/
theorem Notify_reaches_every_listener (s : Subject) (e : Event) :
    (s.Notify e).map (fun d => d.1) = s.observers ∧
    (∀ d ∈ s.Notify e, d.2 = e) ∧
    (∀ o : Nat, (s.Notify e).count (o, e) = s.observers.count o) ∧
    (∀ (o : Nat) (e2 : Event), o ∉ s.observers → (o, e2) ∉ s.Notify e) ∧
    (∀ (σ : Type) (w : World σ),
      (w.Notify e).subject = w.subject ∧
      (w.Notify e).notified = w.notified ++ [e] ∧
      (w.Notify e).spawned = w.spawned ++ w.subject.Notify e) ∧
    (∀ a b : Nat, a ≠ b →
      ((NewSubject.Attach a).Attach b).Notify e = [(a, e), (b, e)] ∧
      (((NewSubject.Attach a).Attach b).Notify e).count (a, e) = 1 ∧
      (((NewSubject.Attach a).Attach b).Notify e).count (b, e) = 1) := by
  refine ⟨?_, ?_, ?_, ?_, ?_, ?_⟩
  · simp [Subject.Notify, Function.comp_def]
  · intro d hd
    simp only [Subject.Notify, List.mem_map] at hd
    obtain ⟨o, _, rfl⟩ := hd
    rfl
  · intro o
    exact count_Notify s.observers e o
  · intro o e2 ho hmem
    simp only [Subject.Notify, List.mem_map] at hmem
    obtain ⟨x, hx, heq⟩ := hmem
    have : x = o := (Prod.mk.inj heq).1
    exact ho (this ▸ hx)
  · intro σ w
    exact ⟨rfl, rfl, rfl⟩
  · intro a b hab
    have hba : b ≠ a := fun h => hab h.symm
    refine ⟨rfl, ?_, ?_⟩
    · simp [Subject.Notify, Subject.Attach, NewSubject, List.count_cons, hba]
    · simp [Subject.Notify, Subject.Attach, NewSubject, List.count_cons, hab]

/-- C12, witness: observers 1 and 2 and a created event for the sample row. -/
theorem Notify_reaches_every_listener_witness :
    ((NewSubject.Attach 1).Attach 2).Notify ⟨.UserCreated, .user sampleRow⟩ =
      [(1, ⟨.UserCreated, .user sampleRow⟩), (2, ⟨.UserCreated, .user sampleRow⟩)] :=
  ((Notify_reaches_every_listener NewSubject ⟨.UserCreated, .user sampleRow⟩).2.2.2.2.2 1 2
    (by decide)).1

/-! ## Events follow committed mutations -/

theorem gormCreate_frame (user : User) (w : World GormDB) :
    NotifiedNothing w (gormCreate user w).2 := by
  cases hf : w.db.fault with
  | some e =>
    simp only [gormCreate, hf]
    exact ⟨rfl, rfl, rfl⟩
  | none =>
    by_cases hdup : w.timeNow.2.db.conflicts
        (if user.ID = 0 then w.timeNow.2.db.lastID + 1 else user.ID) user.Email user.Username
        = true
    · simp only [gormCreate, hf, hdup, if_true]
      exact ⟨rfl, rfl, rfl⟩
    · simp only [gormCreate, hf, hdup, Bool.false_eq_true, if_false]
      exact ⟨rfl, rfl, rfl⟩

theorem gormSave_frame (user : User) (w : World GormDB) :
    NotifiedNothing w (gormSave user w).2 := by
  by_cases hid : user.ID = 0
  · simp only [gormSave, hid, if_true]
    exact gormCreate_frame user w
  · cases hf : w.db.fault with
    | some e =>
      simp only [gormSave, hid, if_false, hf]
      exact ⟨rfl, rfl, rfl⟩
    | none =>
      by_cases hrow : (w.timeNow.2.db.users.any (fun r => decide (r.ID = user.ID))) = true
      · by_cases hdup : w.timeNow.2.db.conflictsOther user.ID user.Email user.Username = true
        · simp only [gormSave, hid, if_false, hf, hrow, hdup, if_true]
          exact ⟨rfl, rfl, rfl⟩
        · simp only [gormSave, hid, if_false, hf, hrow, hdup, if_true, Bool.false_eq_true]
          exact ⟨rfl, rfl, rfl⟩
      · simp only [gormSave, hid, if_false, hf, hrow, Bool.false_eq_true]
        exact gormCreate_frame _ w.timeNow.2

theorem gormDelete_frame (id : Nat) (w : World GormDB) :
    NotifiedNothing w (gormDelete id w).2 := by
  cases hf : w.db.fault with
  | some e =>
    simp only [gormDelete, hf]
    exact ⟨rfl, rfl, rfl⟩
  | none =>
    simp only [gormDelete, hf]
    exact ⟨rfl, rfl, rfl⟩

theorem NotifiedOnce_of_frame {σ : Type} (w w1 : World σ) (event : Event)
    (h : NotifiedNothing w w1) : NotifiedOnce w (w1.Notify event) event := by
  obtain ⟨h1, h2, h3⟩ := h
  exact ⟨h1, by simp [World.Notify, h2], by simp [World.Notify, h3, h1]⟩

theorem userRepositoryImpl_Create_events (user : User) (w : World GormDB) :
    ((userRepositoryImpl.Create user w).1.2 ≠ none →
      NotifiedNothing w (userRepositoryImpl.Create user w).2) ∧
    ((userRepositoryImpl.Create user w).1.2 = none →
      NotifiedOnce w (userRepositoryImpl.Create user w).2
        ⟨.UserCreated, .user (userRepositoryImpl.Create user w).1.1⟩) := by
  cases hc : (gormCreate user w).1.2 with
  | some e =>
    simp only [userRepositoryImpl.Create, hc]
    exact ⟨fun _ => gormCreate_frame user w, fun h => absurd h (by simp)⟩
  | none =>
    simp only [userRepositoryImpl.Create, hc]
    exact ⟨fun h => absurd rfl h, fun _ => NotifiedOnce_of_frame _ _ _ (gormCreate_frame user w)⟩

theorem userRepositoryImpl_Update_events (user : User) (w : World GormDB) :
    ((userRepositoryImpl.Update user w).1.2 ≠ none →
      NotifiedNothing w (userRepositoryImpl.Update user w).2) ∧
    ((userRepositoryImpl.Update user w).1.2 = none →
      NotifiedOnce w (userRepositoryImpl.Update user w).2
        ⟨.UserUpdated, .user (userRepositoryImpl.Update user w).1.1⟩) := by
  cases hc : (gormSave user w).1.2 with
  | some e =>
    simp only [userRepositoryImpl.Update, hc]
    exact ⟨fun _ => gormSave_frame user w, fun h => absurd h (by simp)⟩
  | none =>
    simp only [userRepositoryImpl.Update, hc]
    exact ⟨fun h => absurd rfl h, fun _ => NotifiedOnce_of_frame _ _ _ (gormSave_frame user w)⟩

theorem userRepositoryImpl_Delete_events (id : Nat) (w : World GormDB) :
    ((userRepositoryImpl.Delete id w).1 ≠ none →
      NotifiedNothing w (userRepositoryImpl.Delete id w).2) ∧
    ((userRepositoryImpl.Delete id w).1 = none →
      NotifiedOnce w (userRepositoryImpl.Delete id w).2 ⟨.UserDeleted, .id id⟩) := by
  cases hc : (gormDelete id w).1 with
  | some e =>
    simp only [userRepositoryImpl.Delete, hc]
    exact ⟨fun _ => gormDelete_frame id w, fun h => absurd h (by simp)⟩
  | none =>
    simp only [userRepositoryImpl.Delete, hc]
    exact ⟨fun h => absurd rfl h, fun _ => NotifiedOnce_of_frame _ _ _ (gormDelete_frame id w)⟩

theorem NotifiedNothing.trans {σ : Type} {w w1 w2 : World σ}
    (h1 : NotifiedNothing w w1) (h2 : NotifiedNothing w1 w2) : NotifiedNothing w w2 :=
  ⟨h2.1.trans h1.1, h2.2.1.trans h1.2.1, h2.2.2.trans h1.2.2⟩

theorem timeNow_frame {σ : Type} (w : World σ) : NotifiedNothing w w.timeNow.2 :=
  ⟨rfl, rfl, rfl⟩

theorem NewObjectIDFromTimestamp_frame (unix : Int) (w : World MongoCollection) :
    NotifiedNothing w (NewObjectIDFromTimestamp unix w).2 :=
  ⟨rfl, rfl, rfl⟩

theorem NewObjectID_frame (w : World MongoCollection) : NotifiedNothing w (NewObjectID w).2 :=
  ⟨rfl, rfl, rfl⟩

theorem fromEntity_frame (user : User) (w : World MongoCollection) :
    NotifiedNothing w (fromEntity user w).2 := by
  unfold fromEntity
  split
  · exact NewObjectID_frame w
  · exact ⟨rfl, rfl, rfl⟩

theorem mongoEnsureID_frame (doc : MongoUser) (w : World MongoCollection) :
    NotifiedNothing w (mongoEnsureID doc w).2 := by
  unfold mongoEnsureID
  split
  · exact NewObjectID_frame w
  · exact ⟨rfl, rfl, rfl⟩

theorem mongoInsertOne_frame (doc : MongoUser) (w : World MongoCollection) :
    NotifiedNothing w (mongoInsertOne doc w).2 := by
  refine (mongoEnsureID_frame doc w).trans ?_
  cases hf : (mongoEnsureID doc w).2.db.fault with
  | some e =>
    simp only [mongoInsertOne, hf]
    exact ⟨rfl, rfl, rfl⟩
  | none =>
    by_cases hdup : (mongoEnsureID doc w).2.db.conflicts (mongoEnsureID doc w).1
        doc.Email doc.Username = true
    · simp only [mongoInsertOne, hf, hdup, if_true]
      exact ⟨rfl, rfl, rfl⟩
    · simp only [mongoInsertOne, hf, hdup, Bool.false_eq_true, if_false]
      exact ⟨rfl, rfl, rfl⟩

theorem mongoUpdateOne_frame (filter : MongoFilter) (update : MongoSet)
    (w : World MongoCollection) : NotifiedNothing w (mongoUpdateOne filter update w).2 := by
  cases hf : w.db.fault with
  | some e =>
    simp only [mongoUpdateOne, hf]
    exact ⟨rfl, rfl, rfl⟩
  | none =>
    cases hd : w.db.docs.find? filter.holds with
    | none =>
      simp only [mongoUpdateOne, hf, hd]
      exact ⟨rfl, rfl, rfl⟩
    | some d =>
      by_cases hdup : (w.db.docs.any
          (fun e => decide (e.ID ≠ d.ID) && decide (e.Username = update.username))) = true
      · simp only [mongoUpdateOne, hf, hd, hdup, if_true]
        exact ⟨rfl, rfl, rfl⟩
      · simp only [mongoUpdateOne, hf, hd, hdup, Bool.false_eq_true, if_false]
        exact ⟨rfl, rfl, rfl⟩

theorem mongoDeleteOne_frame (filter : MongoFilter) (w : World MongoCollection) :
    NotifiedNothing w (mongoDeleteOne filter w).2 := by
  cases hf : w.db.fault with
  | some e =>
    simp only [mongoDeleteOne, hf]
    exact ⟨rfl, rfl, rfl⟩
  | none =>
    cases hd : w.db.docs.find? filter.holds with
    | none =>
      simp only [mongoDeleteOne, hf, hd]
      exact ⟨rfl, rfl, rfl⟩
    | some d =>
      simp only [mongoDeleteOne, hf, hd]
      exact ⟨rfl, rfl, rfl⟩

theorem userRepositoryMongo_Create_events (user : User) (w : World MongoCollection) :
    ((userRepositoryMongo.Create user w).1.2 ≠ none →
      NotifiedNothing w (userRepositoryMongo.Create user w).2) ∧
    ((userRepositoryMongo.Create user w).1.2 = none →
      NotifiedOnce w (userRepositoryMongo.Create user w).2
        ⟨.UserCreated, .user (userRepositoryMongo.Create user w).1.1⟩) := by
  have hframe : NotifiedNothing w
      (NewObjectID (fromEntity user w).2).2.timeNow.2.timeNow.2 :=
    (((fromEntity_frame user w).trans (NewObjectID_frame _)).trans (timeNow_frame _)).trans
      (timeNow_frame _)
  simp only [userRepositoryMongo.Create]
  generalize ({ (fromEntity user w).1 with
      ID := (NewObjectID (fromEntity user w).2).1
      CreatedAt := (NewObjectID (fromEntity user w).2).2.timeNow.1
      UpdatedAt := (NewObjectID (fromEntity user w).2).2.timeNow.2.timeNow.1 } : MongoUser) = doc
  generalize (NewObjectID (fromEntity user w).2).2.timeNow.1 = createdAt
  generalize (NewObjectID (fromEntity user w).2).2.timeNow.2.timeNow.1 = updatedAt
  revert hframe
  generalize (NewObjectID (fromEntity user w).2).2.timeNow.2.timeNow.2 = w1
  intro hframe
  have hins := hframe.trans (mongoInsertOne_frame doc w1)
  cases hi : (mongoInsertOne doc w1).1.2 with
  | some e =>
    exact ⟨fun _ => hins, fun h => absurd h (by simp)⟩
  | none =>
    exact ⟨fun h => absurd rfl h, fun _ => NotifiedOnce_of_frame _ _ _ hins⟩

theorem userRepositoryMongo_Update_events (user : User) (w : World MongoCollection) :
    ((userRepositoryMongo.Update user w).1.2 ≠ none →
      NotifiedNothing w (userRepositoryMongo.Update user w).2) ∧
    ((userRepositoryMongo.Update user w).1.2 = none →
      NotifiedOnce w (userRepositoryMongo.Update user w).2
        ⟨.UserUpdated, .user (userRepositoryMongo.Update user w).1.1⟩) := by
  simp only [userRepositoryMongo.Update]
  generalize ({ MongoFilter.empty with email := some user.Email } : MongoFilter) = filter
  generalize (⟨user.Username, user.Password, user.FullName, user.Phone, user.IsActive,
    w.timeNow.1⟩ : MongoSet) = update
  have hupd := (timeNow_frame w).trans (mongoUpdateOne_frame filter update w.timeNow.2)
  cases hu : (mongoUpdateOne filter update w.timeNow.2).1.2 with
  | some e =>
    exact ⟨fun _ => hupd, fun h => absurd h (by simp)⟩
  | none =>
    by_cases hm : (mongoUpdateOne filter update w.timeNow.2).1.1 = 0
    · simp only [hm, if_true]
      exact ⟨fun _ => hupd, fun h => absurd h (by simp)⟩
    · simp only [hm, if_false]
      exact ⟨fun h => absurd rfl h,
        fun _ => NotifiedOnce_of_frame _ _ _ (hupd.trans (timeNow_frame _))⟩

theorem userRepositoryMongo_Delete_events (id : Nat) (w : World MongoCollection) :
    ((userRepositoryMongo.Delete id w).1 ≠ none →
      NotifiedNothing w (userRepositoryMongo.Delete id w).2) ∧
    ((userRepositoryMongo.Delete id w).1 = none →
      NotifiedOnce w (userRepositoryMongo.Delete id w).2 ⟨.UserDeleted, .id id⟩) := by
  simp only [userRepositoryMongo.Delete]
  generalize ({ MongoFilter.empty with
    _id := some (NewObjectIDFromTimestamp (toInt64 id) w).1 } : MongoFilter) = filter
  have hdel := (NewObjectIDFromTimestamp_frame (toInt64 id) w).trans
    (mongoDeleteOne_frame filter (NewObjectIDFromTimestamp (toInt64 id) w).2)
  cases hu : (mongoDeleteOne filter (NewObjectIDFromTimestamp (toInt64 id) w).2).1.2 with
  | some e =>
    exact ⟨fun _ => hdel, fun h => absurd h (by simp)⟩
  | none =>
    by_cases hm : (mongoDeleteOne filter (NewObjectIDFromTimestamp (toInt64 id) w).2).1.1 = 0
    · simp only [hm, if_true]
      exact ⟨fun _ => hdel, fun h => absurd h (by simp)⟩
    · simp only [hm, if_false]
      exact ⟨fun h => absurd rfl h, fun _ => NotifiedOnce_of_frame _ _ _ hdel⟩

/-- C13: in both backends, a repository `Create`, `Update` or `Delete` that
returns an error does not call `Notify`, and one that returns no error calls
it exactly once: with a `user.created` or `user.updated` event whose payload
is the user record the call leaves, or with a `user.deleted` event whose
payload is the bare id. -/
theorem events_follow_committed_mutations :
    (∀ (user : User) (w : World GormDB),
      ((userRepositoryImpl.Create user w).1.2 ≠ none →
        NotifiedNothing w (userRepositoryImpl.Create user w).2) ∧
      ((userRepositoryImpl.Create user w).1.2 = none →
        NotifiedOnce w (userRepositoryImpl.Create user w).2
          ⟨.UserCreated, .user (userRepositoryImpl.Create user w).1.1⟩)) ∧
    (∀ (user : User) (w : World GormDB),
      ((userRepositoryImpl.Update user w).1.2 ≠ none →
        NotifiedNothing w (userRepositoryImpl.Update user w).2) ∧
      ((userRepositoryImpl.Update user w).1.2 = none →
        NotifiedOnce w (userRepositoryImpl.Update user w).2
          ⟨.UserUpdated, .user (userRepositoryImpl.Update user w).1.1⟩)) ∧
    (∀ (id : Nat) (w : World GormDB),
      ((userRepositoryImpl.Delete id w).1 ≠ none →
        NotifiedNothing w (userRepositoryImpl.Delete id w).2) ∧
      ((userRepositoryImpl.Delete id w).1 = none →
        NotifiedOnce w (userRepositoryImpl.Delete id w).2 ⟨.UserDeleted, .id id⟩)) ∧
    (∀ (user : User) (w : World MongoCollection),
      ((userRepositoryMongo.Create user w).1.2 ≠ none →
        NotifiedNothing w (userRepositoryMongo.Create user w).2) ∧
      ((userRepositoryMongo.Create user w).1.2 = none →
        NotifiedOnce w (userRepositoryMongo.Create user w).2
          ⟨.UserCreated, .user (userRepositoryMongo.Create user w).1.1⟩)) ∧
    (∀ (user : User) (w : World MongoCollection),
      ((userRepositoryMongo.Update user w).1.2 ≠ none →
        NotifiedNothing w (userRepositoryMongo.Update user w).2) ∧
      ((userRepositoryMongo.Update user w).1.2 = none →
        NotifiedOnce w (userRepositoryMongo.Update user w).2
          ⟨.UserUpdated, .user (userRepositoryMongo.Update user w).1.1⟩)) ∧
    (∀ (id : Nat) (w : World MongoCollection),
      ((userRepositoryMongo.Delete id w).1 ≠ none →
        NotifiedNothing w (userRepositoryMongo.Delete id w).2) ∧
      ((userRepositoryMongo.Delete id w).1 = none →
        NotifiedOnce w (userRepositoryMongo.Delete id w).2 ⟨.UserDeleted, .id id⟩)) :=
  ⟨userRepositoryImpl_Create_events, userRepositoryImpl_Update_events,
    userRepositoryImpl_Delete_events, userRepositoryMongo_Create_events,
    userRepositoryMongo_Update_events, userRepositoryMongo_Delete_events⟩

/-- C13, witness: creating the sample user in the empty document backend
publishes one `user.created` event, and a second create of it none. -/
theorem events_follow_committed_mutations_witness :
    (userRepositoryMongo.Create sampleUser emptyDocument).2.notified.map (fun e => e.Type_) =
      [.UserCreated] ∧
    (userRepositoryMongo.Create sampleUser
      (userRepositoryMongo.Create sampleUser emptyDocument).2).2.notified.map
        (fun e => e.Type_) = [.UserCreated] :=
  ⟨by rw [((events_follow_committed_mutations.2.2.2.1 sampleUser emptyDocument).2 rfl).2.1]; rfl,
    by
      rw [((events_follow_committed_mutations.2.2.2.1 sampleUser
        (userRepositoryMongo.Create sampleUser emptyDocument).2).1 (by decide)).2.1]
      rfl⟩

/-! ## The connection singletons -/

theorem GetInstance_after_once (config : Config) (server : PostgresServer)
    (s : PostgresSingleton) (h : s.once = true) :
    GetInstance config server s = ((s.instance_, none), s) := by
  simp [GetInstance, h]

theorem GetMongoInstance_after_once (config : MongoConfig) (server : MongoServer)
    (s : MongoSingleton) (h : s.mongoOnce = true) :
    GetMongoInstance config server s = ((s.mongoInstance, none), s) := by
  simp [GetMongoInstance, h]

/-- C14, both singletons at a first call that cannot connect: the first call
returns a nil instance with the error; the second call, made when the server
answers, returns a nil instance with a nil error and does not connect (one
attempt in all). And when the relational connection opens but its migration
fails, the first call returns the error and the second call none. -/
theorem GetInstance_failure_not_retried :
    (GetInstance sampleConfig ⟨(0, some (.new "connection refused")), none⟩
      ⟨none, false, 0⟩).1 = (none, some (.new "connection refused")) ∧
    GetInstance sampleConfig ⟨(1, none), none⟩
      (GetInstance sampleConfig ⟨(0, some (.new "connection refused")), none⟩
        ⟨none, false, 0⟩).2 = ((none, none), ⟨none, true, 1⟩) ∧
    (GetMongoInstance sampleMongoConfig ⟨(0, some (.new "server selection timeout")), none⟩
      ⟨none, false, 0⟩).1 = (none, some (.new "server selection timeout")) ∧
    GetMongoInstance sampleMongoConfig ⟨(1, none), none⟩
      (GetMongoInstance sampleMongoConfig ⟨(0, some (.new "server selection timeout")), none⟩
        ⟨none, false, 0⟩).2 = ((none, none), ⟨none, true, 1⟩) ∧
    (GetInstance sampleConfig ⟨(1, none), some (.new "migration failed")⟩
      ⟨none, false, 0⟩).1 = (some ⟨1⟩, some (.new "migration failed")) ∧
    (GetInstance sampleConfig ⟨(1, none), some (.new "migration failed")⟩
      (GetInstance sampleConfig ⟨(1, none), some (.new "migration failed")⟩
        ⟨none, false, 0⟩).2).1 = (some ⟨1⟩, none) := by
  decide

/-! ## The document backend: identifiers and timestamps -/

theorem mongoEnsureID_counter (doc : MongoUser) (w : World MongoCollection)
    (h : doc.ID.counter = w.db.objectIDCounter % 16777216) :
    (mongoEnsureID doc w).1.counter = (mongoEnsureID doc w).2.db.objectIDCounter % 16777216 := by
  unfold mongoEnsureID
  split
  · simp only [NewObjectID, NewObjectIDFromTimestamp, World.timeNow]
    omega
  · exact h

theorem mongoInsertOne_ok_inv (doc : MongoUser) (w : World MongoCollection)
    (h : (mongoInsertOne doc w).1.2 = none) :
    (mongoEnsureID doc w).2.db.conflicts (mongoEnsureID doc w).1 doc.Email doc.Username
      = false ∧
    (mongoInsertOne doc w).1.1 = some (mongoEnsureID doc w).1 ∧
    (mongoInsertOne doc w).2.db.objectIDCounter = (mongoEnsureID doc w).2.db.objectIDCounter ∧
    (mongoInsertOne doc w).2.db.processUnique = (mongoEnsureID doc w).2.db.processUnique ∧
    (mongoInsertOne doc w).2.db.docs = (mongoEnsureID doc w).2.db.docs ++
      [{ doc with
          ID := (mongoEnsureID doc w).1
          CreatedAt := bsonDateTime doc.CreatedAt
          UpdatedAt := bsonDateTime doc.UpdatedAt }] := by
  revert h
  cases hf : (mongoEnsureID doc w).2.db.fault with
  | some e =>
    intro h
    simp only [mongoInsertOne, hf] at h
    exact absurd h (by simp)
  | none =>
    by_cases hdup : (mongoEnsureID doc w).2.db.conflicts (mongoEnsureID doc w).1
        doc.Email doc.Username = true
    · intro h
      simp only [mongoInsertOne, hf, hdup, if_true] at h
      exact absurd h (by simp [mongoDuplicateKey])
    · intro _
      have hfree : (mongoEnsureID doc w).2.db.conflicts (mongoEnsureID doc w).1
          doc.Email doc.Username = false := by
        simpa using hdup
      refine ⟨hfree, ?_, ?_, ?_, ?_⟩ <;>
        simp only [mongoInsertOne, hf, hdup, Bool.false_eq_true, if_false]

theorem userRepositoryMongo_Create_ok_inv (user : User) (w : World MongoCollection)
    (h : (userRepositoryMongo.Create user w).1.2 = none) :
    ∃ (stored : MongoUser) (before : List MongoUser),
      (userRepositoryMongo.Create user w).2.db.docs = before ++ [stored] ∧
      (∀ d ∈ before, d.Email ≠ user.Email) ∧
      stored.Email = user.Email ∧
      (userRepositoryMongo.Create user w).1.1.ID = stored.ID.timestamp ∧
      stored.ID.counter =
        (userRepositoryMongo.Create user w).2.db.objectIDCounter % 16777216 ∧
      (userRepositoryMongo.Create user w).1.1.CreatedAt =
        (NewObjectID (fromEntity user w).2).2.timeNow.1 ∧
      (userRepositoryMongo.Create user w).1.1.UpdatedAt =
        (NewObjectID (fromEntity user w).2).2.timeNow.2.timeNow.1 ∧
      stored.CreatedAt = bsonDateTime (NewObjectID (fromEntity user w).2).2.timeNow.1 ∧
      stored.UpdatedAt =
        bsonDateTime (NewObjectID (fromEntity user w).2).2.timeNow.2.timeNow.1 := by
  revert h
  simp only [userRepositoryMongo.Create]
  have hmail : ({ (fromEntity user w).1 with
      ID := (NewObjectID (fromEntity user w).2).1
      CreatedAt := (NewObjectID (fromEntity user w).2).2.timeNow.1
      UpdatedAt := (NewObjectID (fromEntity user w).2).2.timeNow.2.timeNow.1 } : MongoUser).Email
      = user.Email := fromEntity_Email user w
  have hcounter : ({ (fromEntity user w).1 with
      ID := (NewObjectID (fromEntity user w).2).1
      CreatedAt := (NewObjectID (fromEntity user w).2).2.timeNow.1
      UpdatedAt := (NewObjectID (fromEntity user w).2).2.timeNow.2.timeNow.1 }
        : MongoUser).ID.counter =
      (NewObjectID (fromEntity user w).2).2.timeNow.2.timeNow.2.db.objectIDCounter
        % 16777216 := by
    simp only [NewObjectID, NewObjectIDFromTimestamp, World.timeNow]
    omega
  have hcreated : ({ (fromEntity user w).1 with
      ID := (NewObjectID (fromEntity user w).2).1
      CreatedAt := (NewObjectID (fromEntity user w).2).2.timeNow.1
      UpdatedAt := (NewObjectID (fromEntity user w).2).2.timeNow.2.timeNow.1 }
        : MongoUser).CreatedAt = (NewObjectID (fromEntity user w).2).2.timeNow.1 := rfl
  have hupdated : ({ (fromEntity user w).1 with
      ID := (NewObjectID (fromEntity user w).2).1
      CreatedAt := (NewObjectID (fromEntity user w).2).2.timeNow.1
      UpdatedAt := (NewObjectID (fromEntity user w).2).2.timeNow.2.timeNow.1 }
        : MongoUser).UpdatedAt = (NewObjectID (fromEntity user w).2).2.timeNow.2.timeNow.1 :=
    rfl
  revert hmail hcounter hcreated hupdated
  generalize ({ (fromEntity user w).1 with
      ID := (NewObjectID (fromEntity user w).2).1
      CreatedAt := (NewObjectID (fromEntity user w).2).2.timeNow.1
      UpdatedAt := (NewObjectID (fromEntity user w).2).2.timeNow.2.timeNow.1 } : MongoUser) = doc
  generalize (NewObjectID (fromEntity user w).2).2.timeNow.2.timeNow.2 = w1
  generalize (NewObjectID (fromEntity user w).2).2.timeNow.1 = createdAt
  generalize (NewObjectID (fromEntity user w).2).2.timeNow.2.timeNow.1 = updatedAt
  intro hmail hcounter hcreated hupdated
  cases hi : (mongoInsertOne doc w1).1.2 with
  | some e =>
    intro h
    exact absurd h (by simp)
  | none =>
    intro _
    obtain ⟨hfree, hid, hctr, _, hdocs⟩ := mongoInsertOne_ok_inv doc w1 hi
    refine ⟨_, _, hdocs, ?_, hmail, ?_, ?_, ?_, ?_, ?_, ?_⟩
    · intro d hd hde
      have : (mongoEnsureID doc w1).2.db.conflicts (mongoEnsureID doc w1).1
          doc.Email doc.Username = true := by
        simp only [MongoCollection.conflicts, List.any_eq_true]
        exact ⟨d, hd, by simp [hde, hmail]⟩
      rw [hfree] at this
      exact absurd this (by simp)
    · simp only [hid]
    · show (mongoEnsureID doc w1).1.counter = _
      rw [mongoEnsureID_counter doc w1 hcounter]
      simp only [World.Notify, hctr]
    · simp only [hid, hcreated]
    · simp only [hid, hupdated]
    · simp only [hcreated]
    · simp only [hupdated]

/-- After a successful `Create` in the document backend, whatever the store
and the id asked for, the identifier `GetByID` and `Delete` look for is not
the identifier of the document just stored, so neither reaches it. -/
theorem rebuilt_identifier_misses_created (user : User) (w : World MongoCollection) (id : Nat)
    (h : (userRepositoryMongo.Create user w).1.2 = none) :
    ∀ d ∈ (userRepositoryMongo.Create user w).2.db.docs, d.Email = user.Email →
      d.ID ≠ (NewObjectIDFromTimestamp (toInt64 id) (userRepositoryMongo.Create user w).2).1 := by
  obtain ⟨stored, before, hdocs, hbefore, _, _, hctr, _⟩ :=
    userRepositoryMongo_Create_ok_inv user w h
  intro d hd hmail heq
  rw [hdocs] at hd
  rcases List.mem_append.1 hd with hd | hd
  · exact hbefore d hd hmail
  · have hds : d = stored := by simpa using hd
    subst hds
    have hc : d.ID.counter =
        ((userRepositoryMongo.Create user w).2.db.objectIDCounter + 1) % 16777216 := by
      rw [heq]
      rfl
    rw [hctr] at hc
    omega

/-- C15, the document backend at a create followed by a lookup: over the
empty collection, `Create` of the sample user stores it under the identifier
with timestamp 1, process bytes 7 and counter 1, and returns the id 1; then
`GetByID(1)` and `Delete(1)` look for an identifier rebuilt from the
timestamp (timestamp 1, process bytes 7, counter 2), which is not the stored
one, and return `mongo.ErrNoDocuments`; the document is still there. A lookup
by the timestamp followed by eight zero bytes finds nothing either. -/
theorem GetByID_after_Create_document :
    (userRepositoryMongo.Create sampleUser emptyDocument).1.2 = none ∧
    (userRepositoryMongo.Create sampleUser emptyDocument).1.1.ID = 1 ∧
    (userRepositoryMongo.Create sampleUser emptyDocument).2.db.docs.map (fun d => d.ID) =
      [⟨1, 7, 1⟩] ∧
    (userRepositoryMongo.GetByID 1 (userRepositoryMongo.Create sampleUser emptyDocument).2).1 =
      (none, some .mongoErrNoDocuments) ∧
    (userRepositoryMongo.Delete 1 (userRepositoryMongo.Create sampleUser emptyDocument).2).1 =
      some .mongoErrNoDocuments ∧
    (userRepositoryMongo.Delete 1
      (userRepositoryMongo.Create sampleUser emptyDocument).2).2.db.docs.map (fun d => d.ID) =
        [⟨1, 7, 1⟩] ∧
    (NewObjectIDFromTimestamp (toInt64 1)
      (userRepositoryMongo.Create sampleUser emptyDocument).2).1 = ⟨1, 7, 2⟩ ∧
    mongoFindOne { MongoFilter.empty with _id := some ⟨1, 0, 0⟩ }
      (userRepositoryMongo.Create sampleUser emptyDocument).2 =
        (none, some .mongoErrNoDocuments) := by
  refine ⟨by rfl, by rfl, by rfl, by rfl, by rfl, by rfl, by rfl, by rfl⟩

/-- C17, the document backend at a clock that advances between two readings:
over the empty collection with the readings 1 s, 2 s, 3 s, `Create` succeeds
and both the record it returns and the document it stores have
`CreatedAt` = 2 s and `UpdatedAt` = 3 s. -/
theorem Create_document_timestamps :
    (userRepositoryMongo.Create sampleUser emptyDocument).1.2 = none ∧
    (userRepositoryMongo.Create sampleUser emptyDocument).1.1.CreatedAt = 2000000000 ∧
    (userRepositoryMongo.Create sampleUser emptyDocument).1.1.UpdatedAt = 3000000000 ∧
    (userRepositoryMongo.Create sampleUser emptyDocument).2.db.docs.map
      (fun d => (d.CreatedAt, d.UpdatedAt)) = [(2000000000, 3000000000)] ∧
    (userRepositoryMongo.Create sampleUser emptyDocument).1.1.CreatedAt ≠
      (userRepositoryMongo.Create sampleUser emptyDocument).1.1.UpdatedAt := by
  refine ⟨by rfl, by rfl, by rfl, by rfl, by decide⟩

/-! ## Storage errors in CreateUser -/

/-- C16, `CreateUser` at a lookup that fails with a storage error: when the
lookup by email fails with "connection reset by peer" and every other call
works, `CreateUser` goes on to the lookup by username, `Hash` and `Create`,
and returns no error, the user being stored; and behind a broken connection,
where every call fails, it still calls `Hash` and `Create` after the two
failed lookups. -/
theorem CreateUser_swallows_lookup_error :
    (CreateUser ⟨flakyLookupRepository, sampleHasher, defaultOptions⟩ sampleUser
      emptyRelational).err = none ∧
    (CreateUser ⟨flakyLookupRepository, sampleHasher, defaultOptions⟩ sampleUser
      emptyRelational).calls =
        [.GetByEmail "a@b.com", .GetByUsername "a", .Hash "longenough1",
          .Create { sampleUser with Password := "#longenough1" }] ∧
    (CreateUser ⟨flakyLookupRepository, sampleHasher, defaultOptions⟩ sampleUser
      emptyRelational).world.db.users = [sampleRow] ∧
    (NewUserRepository.GetByEmail "a@b.com" brokenRelational).1 =
      (none, some (.new "connection refused")) ∧
    (CreateUser relationalUseCase sampleUser brokenRelational).calls =
        [.GetByEmail "a@b.com", .GetByUsername "a", .Hash "longenough1",
          .Create { sampleUser with Password := "#longenough1" }] := by
  refine ⟨by rfl, by rfl, by rfl, by rfl, by rfl⟩

/-! ## The SHA-256 password strategy -/

set_option maxRecDepth 100000 in
theorem sha256_Sum_abc :
    hex.EncodeToString (sha256.Sum (goBytes "abc")) =
      "ba7816bf8f01cfea414140de5dae2223b00361a396177a9cb410ff61f20015ad" := by
  decide

set_option maxRecDepth 100000 in
theorem SHA256Hasher_Hash_abc :
    ((NewSHA256Hasher "").Hash "abc").1 =
      "ba7816bf8f01cfea414140de5dae2223b00361a396177a9cb410ff61f20015ad" := by
  decide

set_option maxRecDepth 100000 in
theorem SHA256Hasher_Hash_empty :
    ((NewSHA256Hasher "").Hash "").1 =
      "e3b0c44298fc1c149afbf4c8996fb92427ae41e4649b934ca495991b7852b855" := by
  decide

set_option maxRecDepth 100000 in
theorem SHA256Hasher_Hash_two_blocks :
    ((NewSHA256Hasher "").Hash
      "abcdbcdecdefdefgefghfghighijhijkijkljklmklmnlmnomnopnopq").1 =
      "248d6a61d20638b8e5c026930c3e6039a33ce45964ff2167f6ecedd419db06c1" := by
  decide

set_option maxRecDepth 100000 in
theorem SHA256Hasher_Hash_salted :
    ((NewSHA256Hasher "pepper").Hash "longenough1").1 =
      "51d828ca6a79878d45077af6eb7ff4c2bb583e87accd18aa45c38a1b24f92fab" := by
  decide

set_option maxRecDepth 100000 in
theorem SHA256Hasher_Hash_utf8 :
    ((NewSHA256Hasher "salt").Hash "pässwörd-é").1 =
      "03983378a291fe6ab8c155703228b97427881f70f5bddfedff685e54777e8e13" := by
  decide

theorem sha256_Sum_length (msg : List Nat) : (sha256.Sum msg).length = 32 := by
  simp [sha256.Sum, sha256.be32]

theorem sha256_Sum_lt (msg : List Nat) : ∀ v ∈ sha256.Sum msg, v < 256 := by
  intro v hv
  simp only [sha256.Sum, sha256.be32, List.mem_append, List.mem_cons, List.mem_singleton,
    List.not_mem_nil, or_false] at hv
  omega

theorem hextable_getD_mem : ∀ i : Nat, i < 16 → hex.hextable.getD i '0' ∈ hex.hextable := by
  decide

theorem EncodeToString_length (src : List Nat) :
    (hex.EncodeToString src).length = 2 * src.length := by
  simp only [hex.EncodeToString, String.length]
  induction src with
  | nil => rfl
  | cons v vs ih =>
    simp only [List.flatMap_cons, List.length_append, List.length_cons, List.length_nil, ih]
    omega

theorem EncodeToString_lowercase (src : List Nat) (h : ∀ v ∈ src, v < 256) :
    ∀ c ∈ (hex.EncodeToString src).toList, c ∈ hex.hextable := by
  intro c hc
  have hc1 : c ∈ src.flatMap
      (fun v => [hex.hextable.getD (v / 16) '0', hex.hextable.getD (v % 16) '0']) := hc
  simp only [List.mem_flatMap, List.mem_cons, List.mem_singleton,
    List.not_mem_nil, or_false] at hc1
  obtain ⟨v, hv, hcv⟩ := hc1
  have hlt := h v hv
  rcases hcv with rfl | rfl
  · exact hextable_getD_mem _ (by omega)
  · exact hextable_getD_mem _ (by omega)

/-- C20: for every salt `s`, digest `h` and plaintext `p`, the SHA-256
hasher's `Hash(p)` returns no error and the lowercase hex encoding, 64
characters of `0123456789abcdef`, of the SHA-256 checksum of the bytes of `p`
followed by `s`, which is what the hasher with the empty salt returns for
`p ++ s`; that checksum is SHA-256 on the published test vectors (`abc`, the
empty message, the 56-byte message of two blocks) and on a salted and a
non-ASCII password; `Compare(h, p)` succeeds iff `h = Hash(p)`, so
`Compare(Hash(p), p)` succeeds, and a failed `Compare` returns
`bcrypt.ErrMismatchedHashAndPassword`. -/
theorem SHA256Hasher_verifies_own_hashes (s h p : String) :
    ((NewSHA256Hasher s).Hash p).2 = none ∧
    ((NewSHA256Hasher s).Hash p).1 = hex.EncodeToString (sha256.Sum (goBytes (p ++ s))) ∧
    ((NewSHA256Hasher s).Hash p).1 = ((NewSHA256Hasher "").Hash (p ++ s)).1 ∧
    ((NewSHA256Hasher "").Hash "abc").1 =
      "ba7816bf8f01cfea414140de5dae2223b00361a396177a9cb410ff61f20015ad" ∧
    ((NewSHA256Hasher "").Hash "").1 =
      "e3b0c44298fc1c149afbf4c8996fb92427ae41e4649b934ca495991b7852b855" ∧
    ((NewSHA256Hasher "").Hash
      "abcdbcdecdefdefgefghfghighijhijkijkljklmklmnlmnomnopnopq").1 =
      "248d6a61d20638b8e5c026930c3e6039a33ce45964ff2167f6ecedd419db06c1" ∧
    ((NewSHA256Hasher "pepper").Hash "longenough1").1 =
      "51d828ca6a79878d45077af6eb7ff4c2bb583e87accd18aa45c38a1b24f92fab" ∧
    ((NewSHA256Hasher "salt").Hash "pässwörd-é").1 =
      "03983378a291fe6ab8c155703228b97427881f70f5bddfedff685e54777e8e13" ∧
    ((NewSHA256Hasher s).Hash p).1.length = 64 ∧
    (∀ c ∈ ((NewSHA256Hasher s).Hash p).1.toList, c ∈ "0123456789abcdef".toList) ∧
    ((NewSHA256Hasher s).Compare h p = none ↔ h = ((NewSHA256Hasher s).Hash p).1) ∧
    (NewSHA256Hasher s).Compare ((NewSHA256Hasher s).Hash p).1 p = none ∧
    ((NewSHA256Hasher s).Compare h p ≠ none →
      (NewSHA256Hasher s).Compare h p = some .bcryptErrMismatchedHashAndPassword) := by
  refine ⟨rfl, rfl, ?_, SHA256Hasher_Hash_abc, SHA256Hasher_Hash_empty,
    SHA256Hasher_Hash_two_blocks, SHA256Hasher_Hash_salted, SHA256Hasher_Hash_utf8,
    ?_, ?_, ?_, ?_, ?_⟩
  · simp only [SHA256Hasher.Hash, NewSHA256Hasher, String.append_empty]
  · simp only [SHA256Hasher.Hash, EncodeToString_length, sha256_Sum_length]
  · exact EncodeToString_lowercase _ (sha256_Sum_lt _)
  · simp only [SHA256Hasher.Compare, SHA256Hasher.Hash]
    constructor
    · intro hc
      by_contra hne
      rw [if_pos (fun heq => hne heq.symm)] at hc
      exact absurd hc (by simp)
    · intro heq
      rw [if_neg (fun hne => hne heq.symm)]
  · simp [SHA256Hasher.Compare, SHA256Hasher.Hash]
  · intro hc
    simp only [SHA256Hasher.Compare, SHA256Hasher.Hash] at hc ⊢
    split
    · rfl
    · rename_i heq
      rw [if_neg heq] at hc
      exact absurd rfl hc

/-- C20, witness: with the salt `pepper`, the digest of another password is
refused for `longenough1` with `bcrypt.ErrMismatchedHashAndPassword`, and the
digest of `longenough1` is accepted. -/
theorem SHA256Hasher_verifies_own_hashes_witness :
    (NewSHA256Hasher "pepper").Compare
      "ba7816bf8f01cfea414140de5dae2223b00361a396177a9cb410ff61f20015ad" "longenough1" =
        some .bcryptErrMismatchedHashAndPassword ∧
    (NewSHA256Hasher "pepper").Compare
      "51d828ca6a79878d45077af6eb7ff4c2bb583e87accd18aa45c38a1b24f92fab" "longenough1" =
        none :=
  have h := SHA256Hasher_verifies_own_hashes "pepper"
    "ba7816bf8f01cfea414140de5dae2223b00361a396177a9cb410ff61f20015ad" "longenough1"
  ⟨h.2.2.2.2.2.2.2.2.2.2.2.2
      (fun hc => absurd ((h.2.2.2.2.2.2.2.2.2.2.1.1 hc).trans h.2.2.2.2.2.2.1) (by decide)),
    (SHA256Hasher_verifies_own_hashes "pepper"
      "51d828ca6a79878d45077af6eb7ff4c2bb583e87accd18aa45c38a1b24f92fab" "longenough1"
      ).2.2.2.2.2.2.2.2.2.2.1.2 h.2.2.2.2.2.2.1.symm⟩

/-! ## UpdateUser does not validate -/

/-- C19: `UpdateUser` does not depend on the validation options, and for a
record whose `ID` is found it never returns before `Hash` or `Update`
because of the record's fields: with an unchanged password the record, with
the stored hash, is handed to `Update` and the result of `Update` is
returned; with a changed password the hasher is called, and once it returns a
digest the record with that digest is handed to `Update`. All other fields
are handed over as they came, whatever `validateUser` says of them. -/
theorem UpdateUser_without_validation {ω : Type} (uc : userUseCase ω) (user : User)
    (w w1 : ω) (existing : User)
    (hfound : uc.userRepo.GetByID user.ID w = ((some existing, none), w1)) :
    (∀ options : UseCaseOptions,
      UpdateUser { uc with options := options } user w = UpdateUser uc user w) ∧
    (user.Password = "" ∨ user.Password = existing.Password →
      ∃ out, UpdateUser uc user w = some out ∧
        out.calls = [.GetByID user.ID, .Update { user with Password := existing.Password }] ∧
        out.err = (uc.userRepo.Update { user with Password := existing.Password } w1).1.2) ∧
    (user.Password ≠ "" → user.Password ≠ existing.Password →
      ∀ (d : String) (w2 : ω), uc.passwordHasher.Hash user.Password w1 = ((d, none), w2) →
      ∃ out, UpdateUser uc user w = some out ∧
        out.calls =
          [.GetByID user.ID, .Hash user.Password, .Update { user with Password := d }] ∧
        out.err = (uc.userRepo.Update { user with Password := d } w2).1.2) := by
  refine ⟨fun _ => rfl, ?_, ?_⟩
  · intro hpw
    have hc : ¬ (user.Password ≠ "" ∧ user.Password ≠ existing.Password) := by
      rintro ⟨ha, hb⟩
      rcases hpw with h | h
      · exact ha h
      · exact hb h
    refine ⟨⟨(uc.userRepo.Update { user with Password := existing.Password } w1).1.2,
      (uc.userRepo.Update { user with Password := existing.Password } w1).1.1,
      (uc.userRepo.Update { user with Password := existing.Password } w1).2,
      [.GetByID user.ID, .Update { user with Password := existing.Password }]⟩, ?_, rfl, rfl⟩
    simp only [UpdateUser, hfound]
    rw [if_neg hc]
  · intro hne hchanged d w2 hhash
    refine ⟨⟨(uc.userRepo.Update { user with Password := d } w2).1.2,
      (uc.userRepo.Update { user with Password := d } w2).1.1,
      (uc.userRepo.Update { user with Password := d } w2).2,
      [.GetByID user.ID, .Hash user.Password, .Update { user with Password := d }]⟩,
      ?_, rfl, rfl⟩
    simp only [UpdateUser, hfound]
    rw [if_pos ⟨hne, hchanged⟩]
    simp only [hhash]

/-- C19, witness: the stored sample user updated with an empty email, an
empty username and a one-letter password, which `validateUser` refuses. -/
theorem UpdateUser_without_validation_witness :
    validateUser defaultOptions { sampleRow with Email := "", Username := "", Password := "x" } =
      some (.new "email is required") ∧
    ∃ out, UpdateUser relationalUseCase
        { sampleRow with Email := "", Username := "", Password := "x" } oneUserRelational =
          some out ∧
      out.calls = [.GetByID 1, .Hash "x",
        .Update { sampleRow with Email := "", Username := "", Password := "#x" }] ∧
      out.err = none :=
  ⟨by decide,
    (UpdateUser_without_validation relationalUseCase
      { sampleRow with Email := "", Username := "", Password := "x" }
      oneUserRelational oneUserRelational sampleRow rfl).2.2 (by decide) (by decide) "#x"
      oneUserRelational rfl⟩

/-! ## Detach -/

theorem detachLoop_eq_erase (o : Nat) (l : List Nat) : detachLoop o l = l.erase o := by
  induction l with
  | nil => rfl
  | cons x xs ih =>
    by_cases hx : x = o
    · subst hx
      simp [detachLoop]
    · have hbeq : (x == o) = false := by simp [hx]
      simp [detachLoop, hx, List.erase_cons, hbeq, ih]

theorem detachLoop_of_not_mem (o : Nat) (l : List Nat) (h : o ∉ l) : detachLoop o l = l := by
  rw [detachLoop_eq_erase]
  exact List.erase_of_not_mem h

theorem detachLoop_split (o : Nat) (l : List Nat) (h : o ∈ l) :
    ∃ front back : List Nat,
      l = front ++ o :: back ∧ o ∉ front ∧ detachLoop o l = front ++ back := by
  induction l with
  | nil => exact absurd h (List.not_mem_nil o)
  | cons x xs ih =>
    by_cases hx : x = o
    · subst hx
      exact ⟨[], xs, rfl, List.not_mem_nil x, by simp [detachLoop]⟩
    · have hmem : o ∈ xs := by
        rcases List.mem_cons.1 h with h1 | h1
        · exact absurd h1.symm hx
        · exact h1
      obtain ⟨front, back, hl, hfront, hd⟩ := ih hmem
      refine ⟨x :: front, back, by simp [hl], ?_, by simp [detachLoop, hx, hd]⟩
      intro hcon
      rcases List.mem_cons.1 hcon with h1 | h1
      · exact hx h1.symm
      · exact hfront h1

theorem detachLoop_append_self (o : Nat) (l : List Nat) (h : o ∉ l) :
    detachLoop o (l ++ [o]) = l := by
  induction l with
  | nil => simp [detachLoop]
  | cons x xs ih =>
    have hx : x ≠ o := fun hxo => h (hxo ▸ List.mem_cons_self x xs)
    have hxs : o ∉ xs := fun hm => h (List.mem_cons_of_mem x hm)
    simp [detachLoop, hx, ih hxs]

/-- C22: `Detach(o)` removes the first occurrence of `o` from the listener
list `L` and keeps the other entries in their order: if `o` is in `L`, then
`L = front ++ o :: back` with `o` not in `front` and the new list is
`front ++ back`, so `o` has one entry less and every other listener as many
as before; if `o` is not in `L` the subject is unchanged; and for `o` not in
`L`, `Attach(o)` followed by `Detach(o)` gives back the subject, whose
`Notify` starts no delivery to `o`. -/
theorem Detach_removes_one_registration (s : Subject) (o : Nat) :
    (s.Detach o).observers = s.observers.erase o ∧
    (o ∈ s.observers →
      ∃ front back : List Nat,
        s.observers = front ++ o :: back ∧ o ∉ front ∧
        (s.Detach o).observers = front ++ back) ∧
    (s.Detach o).observers.count o = s.observers.count o - 1 ∧
    (∀ x : Nat, x ≠ o → (s.Detach o).observers.count x = s.observers.count x) ∧
    (o ∉ s.observers → s.Detach o = s) ∧
    (o ∉ s.observers → (s.Attach o).Detach o = s) ∧
    (o ∉ s.observers →
      ∀ e e2 : Event, (o, e2) ∉ ((s.Attach o).Detach o).Notify e) := by
  have herase : (s.Detach o).observers = s.observers.erase o :=
    detachLoop_eq_erase o s.observers
  have hrestore : o ∉ s.observers → (s.Attach o).Detach o = s := by
    intro h
    simp only [Subject.Detach, Subject.Attach, detachLoop_append_self o s.observers h]
  refine ⟨herase, ?_, ?_, ?_, ?_, hrestore, ?_⟩
  · intro h
    exact detachLoop_split o s.observers h
  · rw [herase, List.count_erase_self]
  · intro x hx
    rw [herase, List.count_erase_of_ne hx]
  · intro h
    simp only [Subject.Detach, detachLoop_of_not_mem o s.observers h]
  · intro h e e2 hmem
    rw [hrestore h] at hmem
    simp only [Subject.Notify, List.mem_map] at hmem
    obtain ⟨x, hx, heq⟩ := hmem
    have : x = o := (Prod.mk.inj heq).1
    exact h (this ▸ hx)

/-- C22, witness: a listener attached twice stays attached once, and one
attached once and detached gets no delivery. -/
theorem Detach_removes_one_registration_witness :
    (Subject.Detach ⟨[1, 2, 1]⟩ 1).observers = [2, 1] ∧
    ((Subject.Attach ⟨[1, 2]⟩ 3).Detach 3).Notify ⟨.UserDeleted, .id 7⟩ =
      [(1, ⟨.UserDeleted, .id 7⟩), (2, ⟨.UserDeleted, .id 7⟩)] :=
  ⟨by rw [(Detach_removes_one_registration ⟨[1, 2, 1]⟩ 1).1]; decide,
    by rw [(Detach_removes_one_registration ⟨[1, 2]⟩ 3).2.2.2.2.2.1 (by decide)]; rfl⟩

/-! ## Update in the document backend -/

theorem updateFirst_split {α : Type} (p : α → Bool) (f : α → α) (l : List α) (d : α)
    (h : l.find? p = some d) :
    ∃ front back : List α,
      l = front ++ d :: back ∧ (∀ x ∈ front, p x = false) ∧ p d = true ∧
      updateFirst p f l = front ++ f d :: back := by
  induction l with
  | nil => simp at h
  | cons x xs ih =>
    by_cases hx : p x = true
    · have hd : x = d := by simpa [List.find?, hx] using h
      subst hd
      exact ⟨[], xs, rfl, by simp, hx, by simp [updateFirst, hx]⟩
    · have hx2 : p x = false := by simpa using hx
      have hfind : xs.find? p = some d := by simpa [List.find?, hx2] using h
      obtain ⟨front, back, hl, hfront, hpd, hupd⟩ := ih hfind
      refine ⟨x :: front, back, by simp [hl], ?_, hpd, by simp [updateFirst, hx2, hupd]⟩
      intro y hy
      rcases List.mem_cons.1 hy with h1 | h1
      · rw [h1]; exact hx2
      · exact hfront y h1

theorem emailFilter_holds (email : String) (d : MongoUser) :
    ({ MongoFilter.empty with email := some email } : MongoFilter).holds d =
      decide (d.Email = email) := by
  simp [MongoFilter.holds, MongoFilter.empty]

theorem userRepositoryMongo_Update_eq (user : User) (w : World MongoCollection) :
    (userRepositoryMongo.Update user w).1.2 =
      (match (mongoUpdateOne { MongoFilter.empty with email := some user.Email }
          ⟨user.Username, user.Password, user.FullName, user.Phone, user.IsActive,
            w.timeNow.1⟩ w.timeNow.2).1.2 with
        | some err => some err
        | none =>
          if (mongoUpdateOne { MongoFilter.empty with email := some user.Email }
              ⟨user.Username, user.Password, user.FullName, user.Phone, user.IsActive,
                w.timeNow.1⟩ w.timeNow.2).1.1 = 0
          then some .mongoErrNoDocuments else none) ∧
    (userRepositoryMongo.Update user w).2.db =
      (mongoUpdateOne { MongoFilter.empty with email := some user.Email }
        ⟨user.Username, user.Password, user.FullName, user.Phone, user.IsActive,
          w.timeNow.1⟩ w.timeNow.2).2.db := by
  simp only [userRepositoryMongo.Update]
  generalize ({ MongoFilter.empty with email := some user.Email } : MongoFilter) = filter
  generalize (⟨user.Username, user.Password, user.FullName, user.Phone, user.IsActive,
    w.timeNow.1⟩ : MongoSet) = update
  cases hu : (mongoUpdateOne filter update w.timeNow.2).1.2 with
  | some e => exact ⟨rfl, rfl⟩
  | none =>
    by_cases hm : (mongoUpdateOne filter update w.timeNow.2).1.1 = 0
    · simp only [hm, if_true]
      exact ⟨trivial, trivial⟩
    · simp only [hm, if_false]
      exact ⟨trivial, rfl⟩

theorem find?_emailFilter_eq_none (email : String) (docs : List MongoUser) :
    docs.find? ({ MongoFilter.empty with email := some email } : MongoFilter).holds = none ↔
      ∀ d ∈ docs, d.Email ≠ email := by
  rw [List.find?_eq_none]
  constructor
  · intro h d hd heq
    exact h d hd (by rw [emailFilter_holds]; simpa using heq)
  · intro h d hd hholds
    rw [emailFilter_holds] at hholds
    exact h d hd (by simpa using hholds)

theorem mongoUpdateOne_email (email : String) (update : MongoSet) (w : World MongoCollection)
    (hf : w.db.fault = none) :
    ((∀ d ∈ w.db.docs, d.Email ≠ email) ∧
      mongoUpdateOne { MongoFilter.empty with email := some email } update w =
        ((0, none), w)) ∨
    ((∃ d ∈ w.db.docs, d.Email = email) ∧
      mongoUpdateOne { MongoFilter.empty with email := some email } update w =
        ((0, some mongoDuplicateKey), w)) ∨
    (∃ (front : List MongoUser) (d : MongoUser) (back : List MongoUser),
      w.db.docs = front ++ d :: back ∧ (∀ x ∈ front, x.Email ≠ email) ∧ d.Email = email ∧
      mongoUpdateOne { MongoFilter.empty with email := some email } update w =
        ((1, none), { w with db := { w.db with docs := front ++ update.apply d :: back } })) := by
  cases hfind : w.db.docs.find?
      ({ MongoFilter.empty with email := some email } : MongoFilter).holds with
  | none =>
    left
    refine ⟨(find?_emailFilter_eq_none email w.db.docs).1 hfind, ?_⟩
    simp only [mongoUpdateOne, hf, hfind]
  | some d =>
    right
    obtain ⟨front, back, hl, hfront, hpd, hupd⟩ :=
      updateFirst_split _ update.apply w.db.docs d hfind
    have hde : d.Email = email := by
      rw [emailFilter_holds] at hpd
      simpa using hpd
    by_cases hdup : (w.db.docs.any
        (fun e => decide (e.ID ≠ d.ID) && decide (e.Username = update.username))) = true
    · left
      refine ⟨⟨d, ?_, hde⟩, ?_⟩
      · rw [hl]
        simp
      · simp only [mongoUpdateOne, hf, hfind, hdup, if_true]
    · right
      refine ⟨front, d, back, hl, ?_, hde, ?_⟩
      · intro x hx heq
        have := hfront x hx
        rw [emailFilter_holds] at this
        simp [heq] at this
      · simp only [mongoUpdateOne, hf, hfind, hdup, Bool.false_eq_true, if_false, hupd]

theorem UpdateUser_unchanged_password_eq {ω : Type} (uc : userUseCase ω) (user : User) (w w1 : ω)
    (existing : User)
    (hfound : uc.userRepo.GetByID user.ID w = ((some existing, none), w1))
    (hpw : user.Password = "" ∨ user.Password = existing.Password) :
    UpdateUser uc user w =
      some
        ⟨(uc.userRepo.Update { user with Password := existing.Password } w1).1.2,
          (uc.userRepo.Update { user with Password := existing.Password } w1).1.1,
          (uc.userRepo.Update { user with Password := existing.Password } w1).2,
          [.GetByID user.ID, .Update { user with Password := existing.Password }]⟩ := by
  have hc : ¬ (user.Password ≠ "" ∧ user.Password ≠ existing.Password) := by
    rintro ⟨ha, hb⟩
    rcases hpw with h | h
    · exact ha h
    · exact hb h
  simp only [UpdateUser, hfound]
  rw [if_neg hc]

theorem userRepositoryMongo_Update_cases (user : User) (w : World MongoCollection)
    (hf : w.db.fault = none) :
    ((∀ d ∈ w.db.docs, d.Email ≠ user.Email) ∧
      (userRepositoryMongo.Update user w).1.2 = some .mongoErrNoDocuments ∧
      (userRepositoryMongo.Update user w).2.db.docs = w.db.docs) ∨
    ((∃ d ∈ w.db.docs, d.Email = user.Email) ∧
      (userRepositoryMongo.Update user w).1.2 = some mongoDuplicateKey ∧
      (userRepositoryMongo.Update user w).2.db.docs = w.db.docs) ∨
    (∃ (front : List MongoUser) (d : MongoUser) (back : List MongoUser),
      w.db.docs = front ++ d :: back ∧ (∀ x ∈ front, x.Email ≠ user.Email) ∧
      d.Email = user.Email ∧
      (userRepositoryMongo.Update user w).1.2 = none ∧
      (userRepositoryMongo.Update user w).2.db.docs =
        front ++
          { d with
            Username := user.Username
            Password := user.Password
            FullName := user.FullName
            Phone := user.Phone
            IsActive := user.IsActive
            UpdatedAt := bsonDateTime w.timeNow.1 } :: back) := by
  obtain ⟨herr, hdb⟩ := userRepositoryMongo_Update_eq user w
  have hf1 : w.timeNow.2.db.fault = none := hf
  rcases mongoUpdateOne_email user.Email
      ⟨user.Username, user.Password, user.FullName, user.Phone, user.IsActive, w.timeNow.1⟩
      w.timeNow.2 hf1 with ⟨hno, hres⟩ | ⟨hex, hres⟩ | ⟨front, d, back, hl, hfront, hde, hres⟩
  · left
    rw [hres] at herr hdb
    exact ⟨hno, by simpa using herr, by rw [hdb]; rfl⟩
  · right; left
    rw [hres] at herr hdb
    exact ⟨hex, by simpa using herr, by rw [hdb]; rfl⟩
  · right; right
    rw [hres] at herr hdb
    exact ⟨front, d, back, hl, hfront, hde, by simpa using herr, by rw [hdb]; rfl⟩

/-- C21: over a store that answers, the document backend's `Update(u)` goes
by the email and never by `u.ID`: it returns `mongo.ErrNoDocuments` iff no
document has the email `u.Email`; when it returns an error the documents are
as they were; when it succeeds, the first document with that email (the only
one under the unique index) has its username, password, full_name, phone,
is_active and updated_at set, its email, created_at and identifier and every
other document are as they were. So `UpdateUser` of a found id with an email
no document has fails with `mongo.ErrNoDocuments`. -/
theorem Update_document_by_email (user : User) (w : World MongoCollection)
    (hf : w.db.fault = none) :
    ((userRepositoryMongo.Update user w).1.2 = some .mongoErrNoDocuments ↔
      ∀ d ∈ w.db.docs, d.Email ≠ user.Email) ∧
    ((userRepositoryMongo.Update user w).1.2 ≠ none →
      (userRepositoryMongo.Update user w).2.db.docs = w.db.docs) ∧
    ((userRepositoryMongo.Update user w).1.2 = none →
      ∃ (front : List MongoUser) (d : MongoUser) (back : List MongoUser),
        w.db.docs = front ++ d :: back ∧ (∀ x ∈ front, x.Email ≠ user.Email) ∧
        d.Email = user.Email ∧
        (userRepositoryMongo.Update user w).2.db.docs =
          front ++
            { d with
              Username := user.Username
              Password := user.Password
              FullName := user.FullName
              Phone := user.Phone
              IsActive := user.IsActive
              UpdatedAt := bsonDateTime w.timeNow.1 } :: back) ∧
    (∀ id : Nat,
      (userRepositoryMongo.Update { user with ID := id } w).1.2 =
        (userRepositoryMongo.Update user w).1.2 ∧
      (userRepositoryMongo.Update { user with ID := id } w).2.db =
        (userRepositoryMongo.Update user w).2.db) ∧
    (∀ (hasher : PasswordHasher (World MongoCollection)) (options : UseCaseOptions)
      (w0 : World MongoCollection) (existing : User),
      NewUserRepositoryMongo.GetByID user.ID w0 = ((some existing, none), w) →
      user.Password = "" →
      (∀ d ∈ w.db.docs, d.Email ≠ user.Email) →
      ∃ out, UpdateUser ⟨NewUserRepositoryMongo, hasher, options⟩ user w0 = some out ∧
        out.err = some .mongoErrNoDocuments ∧
        out.calls = [.GetByID user.ID, .Update { user with Password := existing.Password }] ∧
        out.world.db.docs = w.db.docs) := by
  have hne : mongoDuplicateKey ≠ GoError.mongoErrNoDocuments := by decide
  refine ⟨?_, ?_, ?_, ?_, ?_⟩
  · rcases userRepositoryMongo_Update_cases user w hf with
      ⟨hno, herr, _⟩ | ⟨⟨d, hd, hde⟩, herr, _⟩ | ⟨front, d, back, hl, _, hde, herr, _⟩
    · exact ⟨fun _ => hno, fun _ => herr⟩
    · refine ⟨fun h => ?_, fun h => absurd hde (h d hd)⟩
      rw [herr] at h
      exact absurd (Option.some.inj h) hne
    · refine ⟨fun h => ?_, fun h => absurd hde (h d (by rw [hl]; simp))⟩
      rw [herr] at h
      exact absurd h (by simp)
  · intro herr
    rcases userRepositoryMongo_Update_cases user w hf with
      ⟨_, _, hdocs⟩ | ⟨_, _, hdocs⟩ | ⟨_, _, _, _, _, _, hnone, _⟩
    · exact hdocs
    · exact hdocs
    · exact absurd hnone herr
  · intro herr
    rcases userRepositoryMongo_Update_cases user w hf with
      ⟨_, hsome, _⟩ | ⟨_, hsome, _⟩ | ⟨front, d, back, hl, hfront, hde, _, hdocs⟩
    · rw [hsome] at herr
      exact absurd herr (by simp)
    · rw [hsome] at herr
      exact absurd herr (by simp [mongoDuplicateKey])
    · exact ⟨front, d, back, hl, hfront, hde, hdocs⟩
  · intro id
    obtain ⟨h1, h2⟩ := userRepositoryMongo_Update_eq { user with ID := id } w
    obtain ⟨h3, h4⟩ := userRepositoryMongo_Update_eq user w
    exact ⟨h1.trans h3.symm, h2.trans h4.symm⟩
  · intro hasher options w0 existing hfound hpw hno
    have hkeep := (UpdateUser_unchanged_password_eq ⟨NewUserRepositoryMongo, hasher, options⟩ user
      w0 w existing hfound (Or.inl hpw))
    refine ⟨_, hkeep, ?_, rfl, ?_⟩
    · rcases userRepositoryMongo_Update_cases { user with Password := existing.Password } w hf
        with ⟨_, herr, _⟩ | ⟨⟨d, hd, hde⟩, _, _⟩ | ⟨front, d, back, hl, _, hde, _, _⟩
      · exact herr
      · exact absurd hde (hno d hd)
      · exact absurd hde (hno d (by rw [hl]; simp))
    · rcases userRepositoryMongo_Update_cases { user with Password := existing.Password } w hf
        with ⟨_, _, hdocs⟩ | ⟨⟨d, hd, hde⟩, _, _⟩ | ⟨front, d, back, hl, _, hde, _, _⟩
      · exact hdocs
      · exact absurd hde (hno d hd)
      · exact absurd hde (hno d (by rw [hl]; simp))

/-- C21, witness: over two stored users, `UpdateUser` of id 1 with an email
no document has fails with `mongo.ErrNoDocuments`, and with the email of the
second user it rewrites the second user's document (username, and the
password hash of the first user), leaving the first as it was. -/
theorem Update_document_by_email_witness :
    (∃ out, UpdateUser documentUseCase { sampleRow with Email := "x@y.zz", Password := "" }
        twoUsersDocument = some out ∧
      out.err = some .mongoErrNoDocuments) ∧
    (UpdateUser documentUseCase
        { sampleRow with Email := "c@d.org", Username := "zed", Password := "" }
        twoUsersDocument).map
      (fun out => (out.err,
        out.world.db.docs.map (fun d => (d.ID, d.Email, d.Username, d.Password)))) =
      some (none,
        [(⟨1, 7, 1⟩, "a@b.com", "a", "#longenough1"),
          (⟨2, 7, 9⟩, "c@d.org", "zed", "#longenough1")]) :=
  ⟨((Update_document_by_email { sampleRow with Email := "x@y.zz", Password := "" }
        (NewUserRepositoryMongo.GetByID 1 twoUsersDocument).2 rfl).2.2.2.2
        sampleHasher defaultOptions twoUsersDocument
        (MongoUser.toEntity
          ⟨⟨1, 7, 1⟩, "a@b.com", "a", "#longenough1", "", "", true, 1000000000, 1000000000⟩)
        rfl rfl (by decide)).imp (fun _ h => ⟨h.1, h.2.1⟩),
    by rfl⟩

/-! ## The record CreateUser leaves -/

theorem CreateUser_ok_inv_record {ω : Type} (uc : userUseCase ω) (user : User) (w : ω)
    (h : (CreateUser uc user w).err = none) :
    ∃ (d : String) (w2 w3 : ω),
      uc.passwordHasher.Hash user.Password w2 = ((d, none), w3) ∧
      (uc.userRepo.Create { user with Password := d } w3).1.2 = none ∧
      (CreateUser uc user w).user = (uc.userRepo.Create { user with Password := d } w3).1.1 ∧
      (CreateUser uc user w).calls =
        [.GetByEmail user.Email, .GetByUsername user.Username, .Hash user.Password,
          .Create { user with Password := d }] := by
  cases hv : validateUser uc.options user with
  | some e => simp [CreateUser, hv] at h
  | none =>
    simp only [CreateUser, hv] at h ⊢
    by_cases c1 : (uc.userRepo.GetByEmail user.Email w).1.2 = none ∧
        (uc.userRepo.GetByEmail user.Email w).1.1 ≠ none
    · rw [if_pos c1] at h
      exact absurd h (by simp)
    · rw [if_neg c1] at h ⊢
      by_cases c2 : (uc.userRepo.GetByUsername user.Username
          (uc.userRepo.GetByEmail user.Email w).2).1.2 = none ∧
          (uc.userRepo.GetByUsername user.Username
            (uc.userRepo.GetByEmail user.Email w).2).1.1 ≠ none
      · rw [if_pos c2] at h
        exact absurd h (by simp)
      · rw [if_neg c2] at h ⊢
        cases hh : (uc.passwordHasher.Hash user.Password
            (uc.userRepo.GetByUsername user.Username
              (uc.userRepo.GetByEmail user.Email w).2).2).1.2 with
        | some e =>
          simp only [hh] at h
          exact absurd h (by simp)
        | none =>
          simp only [hh] at h ⊢
          exact ⟨_, _, _, Prod.ext (Prod.ext rfl hh) rfl, h, rfl, rfl⟩

theorem userRepositoryImpl_Create_record (user : User) (w : World GormDB)
    (h : (userRepositoryImpl.Create user w).1.2 = none) :
    (userRepositoryImpl.Create user w).1.1.Password = user.Password ∧
    (userRepositoryImpl.Create user w).1.1.Email = user.Email ∧
    (userRepositoryImpl.Create user w).1.1.Username = user.Username ∧
    (userRepositoryImpl.Create user w).1.1.FullName = user.FullName ∧
    (userRepositoryImpl.Create user w).1.1.Phone = user.Phone ∧
    (userRepositoryImpl.Create user w).1.1.IsActive = true := by
  revert h
  cases hf : w.db.fault with
  | some e =>
    intro h
    simp only [userRepositoryImpl.Create, gormCreate, hf] at h
    exact absurd h (by simp)
  | none =>
    by_cases hdup : w.timeNow.2.db.conflicts
        (if user.ID = 0 then w.timeNow.2.db.lastID + 1 else user.ID) user.Email user.Username
        = true
    · intro h
      simp only [userRepositoryImpl.Create, gormCreate, hf, hdup, if_true] at h
      exact absurd h (by simp [pgUniqueViolation])
    · intro _
      simp only [userRepositoryImpl.Create, gormCreate, hf, hdup, Bool.false_eq_true,
        if_false, gormDefaults]
      refine ⟨trivial, trivial, trivial, trivial, trivial, ?_⟩
      cases user.IsActive <;> rfl

theorem userRepositoryMongo_Create_record (user : User) (w : World MongoCollection)
    (h : (userRepositoryMongo.Create user w).1.2 = none) :
    (userRepositoryMongo.Create user w).1.1.Password = user.Password ∧
    (userRepositoryMongo.Create user w).1.1.Email = user.Email ∧
    (userRepositoryMongo.Create user w).1.1.Username = user.Username ∧
    (userRepositoryMongo.Create user w).1.1.FullName = user.FullName ∧
    (userRepositoryMongo.Create user w).1.1.Phone = user.Phone ∧
    (userRepositoryMongo.Create user w).1.1.IsActive = user.IsActive := by
  revert h
  simp only [userRepositoryMongo.Create]
  generalize ({ (fromEntity user w).1 with
      ID := (NewObjectID (fromEntity user w).2).1
      CreatedAt := (NewObjectID (fromEntity user w).2).2.timeNow.1
      UpdatedAt := (NewObjectID (fromEntity user w).2).2.timeNow.2.timeNow.1 } : MongoUser) = doc
  generalize (NewObjectID (fromEntity user w).2).2.timeNow.2.timeNow.2 = w1
  generalize (NewObjectID (fromEntity user w).2).2.timeNow.1 = createdAt
  generalize (NewObjectID (fromEntity user w).2).2.timeNow.2.timeNow.1 = updatedAt
  cases hi : (mongoInsertOne doc w1).1.2 with
  | some e =>
    intro h
    exact absurd h (by simp)
  | none =>
    intro _
    cases (mongoInsertOne doc w1).1.1 <;> exact ⟨rfl, rfl, rfl, rfl, rfl, rfl⟩

/-- C1 (as amended): for an input that passes `validateUser`, when neither
lookup finds a user (each returns a nil user or an error), the hasher returns
the digest `d` for the plaintext and the repository `Create` succeeds,
`CreateUser` returns no error and makes exactly four interface calls, in
order: the two lookups, one `Hash` on the plaintext and one `Create`; every
record handed to `Create` has `Password = d` and the input's `Email`,
`Username`, `FullName`, `Phone` and `IsActive`; the caller's record after the
call is that record as `Create` left it. Over either backend, for every
hasher, options, input and store state, a `CreateUser` that returns no error
leaves in the caller's record the digest the hasher returned and the input's
`Email`, `Username`, `FullName` and `Phone`; `IsActive` is the input's over
the document backend and `true` over the relational backend. -/
theorem CreateUser_success {ω : Type} (uc : userUseCase ω) (user : User) (w w1 w2 w3 w4 : ω)
    (existing1 existing2 : Option User) (err1 err2 : Option GoError) (d : String)
    (created : User)
    (hvalid : validateUser uc.options user = none)
    (hemail : uc.userRepo.GetByEmail user.Email w = ((existing1, err1), w1))
    (hnone1 : existing1 = none ∨ err1 ≠ none)
    (husername : uc.userRepo.GetByUsername user.Username w1 = ((existing2, err2), w2))
    (hnone2 : existing2 = none ∨ err2 ≠ none)
    (hhash : uc.passwordHasher.Hash user.Password w2 = ((d, none), w3))
    (hcreate : uc.userRepo.Create { user with Password := d } w3 = ((created, none), w4)) :
    (CreateUser uc user w).err = none ∧
    (∃ handed : User,
      (CreateUser uc user w).calls =
        [.GetByEmail user.Email, .GetByUsername user.Username, .Hash user.Password,
          .Create handed]) ∧
    (∀ handed : User, Call.Create handed ∈ (CreateUser uc user w).calls →
      handed.Password = d ∧ handed.Email = user.Email ∧ handed.Username = user.Username ∧
      handed.FullName = user.FullName ∧ handed.Phone = user.Phone ∧
      handed.IsActive = user.IsActive) ∧
    (CreateUser uc user w).user = created ∧
    (CreateUser uc user w).world = w4 ∧
    (∀ (hasher : PasswordHasher (World GormDB)) (options : UseCaseOptions) (input : User)
      (w0 : World GormDB),
      (CreateUser ⟨NewUserRepository, hasher, options⟩ input w0).err = none →
      ∃ (digest : String) (v2 v3 : World GormDB),
        hasher.Hash input.Password v2 = ((digest, none), v3) ∧
        (CreateUser ⟨NewUserRepository, hasher, options⟩ input w0).calls =
          [.GetByEmail input.Email, .GetByUsername input.Username, .Hash input.Password,
            .Create { input with Password := digest }] ∧
        (CreateUser ⟨NewUserRepository, hasher, options⟩ input w0).user.Password = digest ∧
        (CreateUser ⟨NewUserRepository, hasher, options⟩ input w0).user.Email = input.Email ∧
        (CreateUser ⟨NewUserRepository, hasher, options⟩ input w0).user.Username =
          input.Username ∧
        (CreateUser ⟨NewUserRepository, hasher, options⟩ input w0).user.FullName =
          input.FullName ∧
        (CreateUser ⟨NewUserRepository, hasher, options⟩ input w0).user.Phone = input.Phone ∧
        (CreateUser ⟨NewUserRepository, hasher, options⟩ input w0).user.IsActive = true) ∧
    (∀ (hasher : PasswordHasher (World MongoCollection)) (options : UseCaseOptions)
      (input : User) (w0 : World MongoCollection),
      (CreateUser ⟨NewUserRepositoryMongo, hasher, options⟩ input w0).err = none →
      ∃ (digest : String) (v2 v3 : World MongoCollection),
        hasher.Hash input.Password v2 = ((digest, none), v3) ∧
        (CreateUser ⟨NewUserRepositoryMongo, hasher, options⟩ input w0).calls =
          [.GetByEmail input.Email, .GetByUsername input.Username, .Hash input.Password,
            .Create { input with Password := digest }] ∧
        (CreateUser ⟨NewUserRepositoryMongo, hasher, options⟩ input w0).user.Password =
          digest ∧
        (CreateUser ⟨NewUserRepositoryMongo, hasher, options⟩ input w0).user.Email =
          input.Email ∧
        (CreateUser ⟨NewUserRepositoryMongo, hasher, options⟩ input w0).user.Username =
          input.Username ∧
        (CreateUser ⟨NewUserRepositoryMongo, hasher, options⟩ input w0).user.FullName =
          input.FullName ∧
        (CreateUser ⟨NewUserRepositoryMongo, hasher, options⟩ input w0).user.Phone =
          input.Phone ∧
        (CreateUser ⟨NewUserRepositoryMongo, hasher, options⟩ input w0).user.IsActive =
          input.IsActive) := by
  have c1 : ¬ (err1 = none ∧ existing1 ≠ none) := by
    rintro ⟨ha, hb⟩
    rcases hnone1 with h | h
    · exact hb h
    · exact h ha
  have c2 : ¬ (err2 = none ∧ existing2 ≠ none) := by
    rintro ⟨ha, hb⟩
    rcases hnone2 with h | h
    · exact hb h
    · exact h ha
  have hout : CreateUser uc user w =
      ⟨none, created, w4,
        [.GetByEmail user.Email, .GetByUsername user.Username, .Hash user.Password,
          .Create { user with Password := d }]⟩ := by
    simp only [CreateUser, hvalid, hemail]
    rw [if_neg c1]
    simp only [husername]
    rw [if_neg c2]
    simp only [hhash, hcreate]
  refine ⟨?_, ?_, ?_, ?_, ?_, ?_, ?_⟩
  · rw [hout]
  · rw [hout]
    exact ⟨_, rfl⟩
  · intro handed hmem
    rw [hout] at hmem
    simp at hmem
    subst hmem
    exact ⟨rfl, rfl, rfl, rfl, rfl, rfl⟩
  · rw [hout]
  · rw [hout]
  · intro hasher options input w0 h
    obtain ⟨digest, v2, v3, hh, hc, hu, hcalls⟩ :=
      CreateUser_ok_inv_record ⟨NewUserRepository, hasher, options⟩ input w0 h
    have hr := userRepositoryImpl_Create_record { input with Password := digest } v3 hc
    rw [hu]
    exact ⟨digest, v2, v3, hh, hcalls, hr.1, hr.2.1, hr.2.2.1, hr.2.2.2.1, hr.2.2.2.2.1,
      hr.2.2.2.2.2⟩
  · intro hasher options input w0 h
    obtain ⟨digest, v2, v3, hh, hc, hu, hcalls⟩ :=
      CreateUser_ok_inv_record ⟨NewUserRepositoryMongo, hasher, options⟩ input w0 h
    have hr := userRepositoryMongo_Create_record { input with Password := digest } v3 hc
    rw [hu]
    exact ⟨digest, v2, v3, hh, hcalls, hr.1, hr.2.1, hr.2.2.1, hr.2.2.2.1, hr.2.2.2.2.1,
      hr.2.2.2.2.2⟩

/-- C1, witness: the inactive sample user over the empty relational backend;
the call succeeds and the caller's record is the one `Create` left. -/
theorem CreateUser_success_witness :
    (CreateUser relationalUseCase inactiveUser emptyRelational).err = none ∧
    (CreateUser relationalUseCase inactiveUser emptyRelational).user =
      (NewUserRepository.Create { inactiveUser with Password := "#longenough1" }
        emptyRelational).1.1 :=
  have h := CreateUser_success relationalUseCase inactiveUser emptyRelational
    emptyRelational emptyRelational emptyRelational
    (NewUserRepository.Create { inactiveUser with Password := "#longenough1" } emptyRelational).2
    none none (some .gormErrRecordNotFound) (some .gormErrRecordNotFound) "#longenough1"
    (NewUserRepository.Create { inactiveUser with Password := "#longenough1" } emptyRelational).1.1
    (by decide) rfl (Or.inl rfl) rfl (Or.inl rfl) rfl rfl
  ⟨h.1, h.2.2.2.1⟩

/-- C1, counterexample: the inactive sample user passes `validateUser`,
neither lookup over the empty relational backend finds a user, the hasher
returns `#longenough1` and `Create` succeeds; `CreateUser` returns no error,
the record handed to `Create` has `IsActive = false` as the input has, and
the record left in the caller's user has `IsActive = true`. -/
theorem CreateUser_caller_record_not_input :
    validateUser relationalUseCase.options inactiveUser = none ∧
    relationalUseCase.userRepo.GetByEmail inactiveUser.Email emptyRelational =
      ((none, some .gormErrRecordNotFound), emptyRelational) ∧
    relationalUseCase.userRepo.GetByUsername inactiveUser.Username emptyRelational =
      ((none, some .gormErrRecordNotFound), emptyRelational) ∧
    relationalUseCase.passwordHasher.Hash inactiveUser.Password emptyRelational =
      (("#longenough1", none), emptyRelational) ∧
    (relationalUseCase.userRepo.Create { inactiveUser with Password := "#longenough1" }
      emptyRelational).1.2 = none ∧
    (CreateUser relationalUseCase inactiveUser emptyRelational).err = none ∧
    (CreateUser relationalUseCase inactiveUser emptyRelational).calls =
      [.GetByEmail "a@b.com", .GetByUsername "a", .Hash "longenough1",
        .Create { inactiveUser with Password := "#longenough1" }] ∧
    inactiveUser.IsActive = false ∧
    (CreateUser relationalUseCase inactiveUser emptyRelational).user.IsActive = true ∧
    (CreateUser relationalUseCase inactiveUser emptyRelational).user.IsActive ≠
      inactiveUser.IsActive := by
  refine ⟨by decide, rfl, rfl, rfl, rfl, rfl, rfl, rfl, rfl, by decide⟩

end Booking
